import Mathlib

/-!
# Parameter derivation of `pkg/engine/params.go`

A shallow embedding of `getParameters` and of the data it reads, followed by
theorems about the parameter mapping it returns.

The source file calls helpers whose bodies live in other files of the
repository (`addValue`, `addSecret`, `addKeyvaultReference`, the predicates of
package `api`, `assignKubernetesParameters`).  Each of them is modelled below
under a doc comment that starts with `Modelled from the spec:`.
-/

namespace AksEngine

/-! ## Data model (package `api`, the fields `getParameters` reads) -/

/-- Go `api.OSType`; `getParameters` only compares it with `api.Windows`. -/
inductive OSType where
  | Linux
  | Windows
  deriving DecidableEq, Repr

/-- Network mode of a pool (spec, data model: `CustomVNET | ManagedSubnet`). -/
inductive NetworkMode where
  | CustomVNET
  | ManagedSubnet
  deriving DecidableEq, Repr

/-- Placement mode of a pool (spec, data model: `AvailabilitySet | ScaleSet`). -/
inductive Placement where
  | AvailabilitySet
  | ScaleSet
  deriving DecidableEq, Repr

/-- Go `api.ImageReference`. -/
structure ImageReference where
  Name : String
  ResourceGroup : String
  deriving DecidableEq, Repr

/-- Go `api.AzureOSImageConfig`: one element of the OS image table. -/
structure AzureOSImageConfig where
  ImageOffer : String
  ImageSku : String
  ImagePublisher : String
  ImageVersion : String
  deriving DecidableEq, Repr

/-- Go `api.AzureEndpointConfig`. -/
structure AzureEndpointConfig where
  ResourceManagerVMDNSSuffix : String
  deriving DecidableEq, Repr

/-- Go `api.AzureEnvironmentSpecConfig`, the value of `cs.GetCloudSpecConfig()`.
`OSImageConfig` is a Go map from distro to image config, kept as an
association list. -/
structure AzureEnvironmentSpecConfig where
  EndpointConfig : AzureEndpointConfig
  OSImageConfig : List (String × AzureOSImageConfig)
  deriving DecidableEq, Repr

/-- Go `api.MasterProfile`. -/
structure MasterProfile where
  DNSPrefix : String
  VMSize : String
  Distro : String
  ImageRef : Option ImageReference
  Mode : NetworkMode
  VnetSubnetID : String
  AgentVnetSubnetID : String
  VnetCidr : String
  Subnet : String
  AgentSubnet : String
  SubnetIPv6 : String
  FirstConsecutiveStaticIP : String
  AvailabilityProfile : Placement
  AvailabilityZones : List String
  deriving DecidableEq, Repr

/-- Go `api.AgentPoolProfile`. -/
structure AgentPoolProfile where
  Name : String
  Count : Int
  VMSize : String
  OSType : OSType
  Distro : String
  Mode : NetworkMode
  VnetSubnetID : String
  Subnet : String
  Ports : List Int
  DNSPrefix : String
  AvailabilityProfile : Placement
  ScaleSetPriority : String
  ScaleSetEvictionPolicy : String
  ImageRef : Option ImageReference
  AvailabilityZones : List String
  deriving DecidableEq, Repr

/-- Go `api.CustomNodesDNS`. -/
structure CustomNodesDNS where
  DNSServer : String
  deriving DecidableEq, Repr

/-- Go `api.PublicKey`. -/
structure PublicKey where
  KeyData : String
  deriving DecidableEq, Repr

/-- Go `api.KeyVaultCertificate`. -/
structure KeyVaultCertificate where
  CertificateURL : String
  CertificateStore : String
  deriving DecidableEq, Repr

/-- Go `api.KeyVaultSecrets`: a secret bundle; `SourceVaultID` is
`SourceVault.ID`. -/
structure KeyVaultSecrets where
  SourceVaultID : String
  VaultCertificates : List KeyVaultCertificate
  deriving DecidableEq, Repr

/-- Go `api.LinuxProfile`; `PublicKeys` is `SSH.PublicKeys`. -/
structure LinuxProfile where
  AdminUsername : String
  CustomNodesDNS : Option CustomNodesDNS
  PublicKeys : List PublicKey
  Secrets : List KeyVaultSecrets
  deriving DecidableEq, Repr

/-- Go `api.WindowsProfile`.  The last four fields are the values of the
getters `GetWindowsSku`, `GetWindowsDockerVersion`,
`GetWindowsDefaultRuntimeHandler` and `GetWindowsHypervRuntimeHandlers`. -/
structure WindowsProfile where
  AdminUsername : String
  AdminPassword : String
  WindowsImageSourceURL : String
  ImageRef : Option ImageReference
  WindowsPublisher : String
  WindowsOffer : String
  ImageVersion : String
  Secrets : List KeyVaultSecrets
  WindowsSku : String
  WindowsDockerVersion : String
  DefaultRuntimeHandler : String
  HypervRuntimeHandlers : String
  deriving DecidableEq, Repr

/-- Go `api.KeyvaultSecretRef`. -/
structure KeyvaultSecretRef where
  VaultID : String
  SecretName : String
  SecretVersion : String
  deriving DecidableEq, Repr

/-- Go `api.ExtensionProfile`. -/
structure ExtensionProfile where
  Name : String
  ExtensionParameters : String
  ExtensionParametersKeyVaultRef : Option KeyvaultSecretRef
  deriving DecidableEq, Repr

/-- Go `api.Properties`.  `FeatureFlags` is the set of enabled feature names
(spec, data model); `CustomCloudName` is the value of `GetCustomCloudName()`. -/
structure Properties where
  MasterProfile : Option MasterProfile
  AgentPoolProfiles : List AgentPoolProfile
  LinuxProfile : Option LinuxProfile
  WindowsProfile : Option WindowsProfile
  ExtensionProfiles : List ExtensionProfile
  FeatureFlags : List String
  CustomCloudName : String
  deriving DecidableEq, Repr

/-- Go `api.ContainerService`, the cluster spec. -/
structure ContainerService where
  Location : String
  Properties : Properties
  deriving DecidableEq, Repr

/-! ## The parameter map -/

/-- The Go `interface{}` values that `getParameters` stores: strings, the
integer pool count and the string slice of availability zones. -/
inductive Value where
  | str (s : String)
  | int (n : Int)
  | strs (l : List String)
  deriving DecidableEq, Repr

/-- One entry of the parameter map: a literal, a secret, or a reference to a
key-vault secret (spec, data model: `Literal | Secret | SecretRef`). -/
inductive ParamValue where
  | literal (v : Value)
  | secret (v : String)
  | secretRef (vaultID secretName secretVersion : String)
  deriving DecidableEq, Repr

/-- Go `paramsMap`: a map from parameter name to entry, kept as an association
list with pairwise distinct names. -/
abbrev paramsMap := List (String × ParamValue)

/-- The Go map read `m[k]`. -/
def lookupParam : paramsMap → String → Option ParamValue
  | [], _ => none
  | (k', v) :: t, k => if k' = k then some v else lookupParam t k

/-- The Go map assignment `m[k] = v`: replaces the entry of `k` when there is
one, adds it otherwise. -/
def setParam : paramsMap → String → ParamValue → paramsMap
  | [], k, v => [(k, v)]
  | (k', v') :: t, k, v => if k' = k then (k, v) :: t else (k', v') :: setParam t k v

/-- Whether the map has an entry named `k`. -/
def hasParam (m : paramsMap) (k : String) : Bool := (lookupParam m k).isSome

/-- Modelled from the spec: `addValue` is declared outside the source file.
It is the sink's `Put` and stores a literal entry under `k`.  For a name that
is already present the spec gives two accounts: section 4.1 wants `Put` to fail
with `DuplicateKey`, while section 4.4 ("a collision silently overwrites"),
sections 4.7 and 5 (a later step overrides earlier entries) and the open
question of section 9 ("source behavior does not show defensive handling;
recommend making it an explicit fatal check") describe the source as it is.
`getParameters` has the map as its only result and every call of `addValue` is
a statement without a result, so `addValue` is modelled as the Go map
assignment, which replaces the entry. -/
def addValue (m : paramsMap) (k : String) (v : Value) : paramsMap :=
  setParam m k (.literal v)

/-- Modelled from the spec: `addKeyvaultReference` is declared outside the
source file.  Spec 4.1, `PutSecretRef(name, vaultID, secretName,
secretVersion)`: stores an indirect entry, which the sink does not resolve. -/
def addKeyvaultReference (m : paramsMap) (k : String)
    (vaultID secretName secretVersion : String) : paramsMap :=
  setParam m k (.secretRef vaultID secretName secretVersion)

/-- Applies a list of writes, first to last, each as a map assignment. -/
def applyWrites (m : paramsMap) (w : List (String × ParamValue)) : paramsMap :=
  w.foldl (fun acc e => setParam acc e.1 e.2) m

/-! ## Helpers of package `api` that the source calls -/

/-- The Go map read `cfg.OSImageConfig[distro]`: the element stored for the
distro, and the zero `AzureOSImageConfig` when the map has no such key. -/
def osImageConfig (cfg : AzureEnvironmentSpecConfig) (distro : String) : AzureOSImageConfig :=
  match cfg.OSImageConfig.find? (fun e => e.1 = distro) with
  | some e => e.2
  | none => { ImageOffer := "", ImageSku := "", ImagePublisher := "", ImageVersion := "" }

/-- Modelled from the spec: `MasterProfile.IsCustomVNET` is declared outside
the source file; the master pool is in custom-VNET mode or in managed-subnet
mode. -/
def MasterProfile.IsCustomVNET (mp : MasterProfile) : Bool := mp.Mode = .CustomVNET

/-- Modelled from the spec: `MasterProfile.IsVirtualMachineScaleSets` is
declared outside the source file; the pool uses scale-set placement. -/
def MasterProfile.IsVirtualMachineScaleSets (mp : MasterProfile) : Bool :=
  mp.AvailabilityProfile = .ScaleSet

/-- Modelled from the spec: `MasterProfile.HasAvailabilityZones` is declared
outside the source file; the pool declares at least one zone. -/
def MasterProfile.HasAvailabilityZones (mp : MasterProfile) : Bool :=
  !mp.AvailabilityZones.isEmpty

/-- Modelled from the spec: `AgentPoolProfile.IsCustomVNET` is declared outside
the source file; same rule as for the master pool. -/
def AgentPoolProfile.IsCustomVNET (ap : AgentPoolProfile) : Bool := ap.Mode = .CustomVNET

/-- Modelled from the spec: `AgentPoolProfile.HasAvailabilityZones` is declared
outside the source file; the pool declares at least one zone. -/
def AgentPoolProfile.HasAvailabilityZones (ap : AgentPoolProfile) : Bool :=
  !ap.AvailabilityZones.isEmpty

/-- Modelled from the spec: `AgentPoolProfile.IsAvailabilitySets` is declared
outside the source file; the placement mode is availability-set. -/
def AgentPoolProfile.IsAvailabilitySets (ap : AgentPoolProfile) : Bool :=
  ap.AvailabilityProfile = .AvailabilitySet

/-- Modelled from the spec: `AgentPoolProfile.IsSpotScaleSet` is declared
outside the source file; the placement mode is scale-set and the priority is
spot (scenario B writes the priority as `"Spot"`). -/
def AgentPoolProfile.IsSpotScaleSet (ap : AgentPoolProfile) : Bool :=
  ap.AvailabilityProfile = .ScaleSet ∧ ap.ScaleSetPriority = "Spot"

/-- Modelled from the spec: `Properties.HasWindows` is declared outside the
source file; the Windows derivation runs when a Windows profile exists. -/
def Properties.HasWindows (p : Properties) : Bool := p.WindowsProfile.isSome

/-- Modelled from the spec: `WindowsProfile.HasCustomImage` is declared outside
the source file; a custom image URL is set. -/
def WindowsProfile.HasCustomImage (w : WindowsProfile) : Bool := w.WindowsImageSourceURL ≠ ""

/-- Modelled from the spec: `WindowsProfile.HasImageRef` is declared outside
the source file; an explicit image reference is set. -/
def WindowsProfile.HasImageRef (w : WindowsProfile) : Bool := w.ImageRef.isSome

/-- Modelled from the spec: `FeatureFlags.IsFeatureEnabled` is declared outside
the source file; the flags are the set of enabled feature names. -/
def IsFeatureEnabled (flags : List String) (feature : String) : Bool := feature ∈ flags

/-- The collaborators that `getParameters` calls and that this development
takes as parameters.

* `GetCloudSpecConfig` is the method `cs.GetCloudSpecConfig()`;
* `GetTargetEnv` is `helpers.GetTargetEnv`;
* `assignKubernetesParameters` is the orchestrator-specific step.  Modelled
  from the spec: it is declared outside the source file; it receives the
  properties, the map built so far, the cloud spec config and the generator
  code, and it "must not remove entries, only add or overwrite", so its effect
  is the list of writes it makes;
* `secretEntry` is what `addSecret` stores.  Modelled from the spec:
  `addSecret` is declared outside the source file.  Spec 4.1, `PutSecret`: the
  call adds an entry under the name, or it does nothing.  For a name, a value
  and the fourth argument of the call, `secretEntry` is the entry that the call
  stores, and `none` when it stores nothing. -/
structure Collaborators where
  GetCloudSpecConfig : ContainerService → AzureEnvironmentSpecConfig
  GetTargetEnv : String → String → String
  assignKubernetesParameters :
    Properties → paramsMap → AzureEnvironmentSpecConfig → String → List (String × ParamValue)
  secretEntry : String → String → Bool → Option ParamValue

/-- Modelled from the spec: `addSecret` is declared outside the source file.
Spec 4.1, `PutSecret`: the call adds an entry under the name `k`, or it does
nothing.  Which of the two, and the entry, is the collaborator `secretEntry`;
the fourth argument of the call is handed to it as the source has it. -/
def addSecret (env : Collaborators) (m : paramsMap) (k : String) (v : String) (fourth : Bool) :
    paramsMap :=
  match env.secretEntry k v fourth with
  | some x => setParam m k x
  | none => m

/-- The ways a call of `getParameters` ends without a result: the Go runtime
panic of an index expression out of range (line 72). -/
inductive RuntimePanic where
  | indexOutOfRange
  deriving DecidableEq, Repr

/-- Go `fmt.Sprintf("%d", i)` for a slice index. -/
def fmtInt (i : Nat) : String := toString i

/-! ## `getParameters` -/

/-- Lines 25-35: the OS image entries of the master pool. -/
def masterImageParameters (properties : Properties) (cloudSpecConfig : AzureEnvironmentSpecConfig)
    (m : paramsMap) : paramsMap :=
  match properties.MasterProfile with
  | none => m
  | some mp =>
    let m := addValue m "osImageOffer" (.str (osImageConfig cloudSpecConfig mp.Distro).ImageOffer)
    let m := addValue m "osImageSKU" (.str (osImageConfig cloudSpecConfig mp.Distro).ImageSku)
    let m := addValue m "osImagePublisher"
      (.str (osImageConfig cloudSpecConfig mp.Distro).ImagePublisher)
    let m := addValue m "osImageVersion" (.str (osImageConfig cloudSpecConfig mp.Distro).ImageVersion)
    match mp.ImageRef with
    | none => m
    | some ref =>
      let m := addValue m "osImageName" (.str ref.Name)
      addValue m "osImageResourceGroup" (.str ref.ResourceGroup)

/-- Lines 39-45: the Linux admin name and the custom DNS server. -/
def linuxAdminParameters (properties : Properties) (m : paramsMap) : paramsMap :=
  match properties.LinuxProfile with
  | none => m
  | some linuxProfile =>
    let m := addValue m "linuxAdminUsername" (.str linuxProfile.AdminUsername)
    match linuxProfile.CustomNodesDNS with
    | none => m
    | some dns => addValue m "dnsServer" (.str dns.DNSServer)

/-- Lines 46-69: the master pool's own entries. -/
def masterProfileParameters (properties : Properties) (m : paramsMap) : paramsMap :=
  match properties.MasterProfile with
  | none => m
  | some mp =>
    let m := addValue m "masterEndpointDNSNamePrefix" (.str mp.DNSPrefix)
    let m :=
      if mp.IsCustomVNET then
        let m := addValue m "masterVnetSubnetID" (.str mp.VnetSubnetID)
        let m :=
          if mp.IsVirtualMachineScaleSets then
            addValue m "agentVnetSubnetID" (.str mp.AgentVnetSubnetID)
          else m
        if mp.VnetCidr ≠ "" then addValue m "vnetCidr" (.str mp.VnetCidr) else m
      else
        let m := addValue m "masterSubnet" (.str mp.Subnet)
        let m := addValue m "agentSubnet" (.str mp.AgentSubnet)
        if IsFeatureEnabled properties.FeatureFlags "EnableIPv6DualStack" then
          addValue m "masterSubnetIPv6" (.str mp.SubnetIPv6)
        else m
    let m := addValue m "firstConsecutiveStaticIP" (.str mp.FirstConsecutiveStaticIP)
    let m := addValue m "masterVMSize" (.str mp.VMSize)
    if mp.HasAvailabilityZones then addValue m "availabilityZones" (.strs mp.AvailabilityZones)
    else m

/-- Lines 75-77: the certificates of the Linux secret bundle number `i`,
from position `j` on. -/
def linuxCertificateParameters (i : Nat) : List KeyVaultCertificate → Nat → paramsMap → paramsMap
  | [], _, m => m
  | c :: rest, j, m =>
    linuxCertificateParameters i rest (j + 1)
      (addValue m ("linuxKeyVaultID" ++ fmtInt i ++ "CertificateURL" ++ fmtInt j)
        (.str c.CertificateURL))

/-- Lines 73-78: the Linux secret bundles, from position `i` on. -/
def linuxSecretParameters : List KeyVaultSecrets → Nat → paramsMap → paramsMap
  | [], _, m => m
  | s :: rest, i, m =>
    let m := addValue m ("linuxKeyVaultID" ++ fmtInt i) (.str s.SourceVaultID)
    linuxSecretParameters rest (i + 1) (linuxCertificateParameters i s.VaultCertificates 0 m)

/-- Lines 71-79: the first SSH public key and the Linux secret bundles.  The
index expression `PublicKeys[0]` panics on an empty list. -/
def linuxKeyParameters (properties : Properties) (m : paramsMap) :
    Except RuntimePanic paramsMap :=
  match properties.LinuxProfile with
  | none => .ok m
  | some linuxProfile =>
    match linuxProfile.PublicKeys with
    | [] => .error .indexOutOfRange
    | key :: _ =>
      let m := addValue m "sshRSAPublicKey" (.str key.KeyData)
      .ok (linuxSecretParameters linuxProfile.Secrets 0 m)

/-- Lines 86-117: the entries of one agent pool. -/
def agentPoolParameters (cloudSpecConfig : AzureEnvironmentSpecConfig)
    (agentProfile : AgentPoolProfile) (m : paramsMap) : paramsMap :=
  let m := addValue m (agentProfile.Name ++ "Count") (.int agentProfile.Count)
  let m := addValue m (agentProfile.Name ++ "VMSize") (.str agentProfile.VMSize)
  let m :=
    if agentProfile.HasAvailabilityZones then
      addValue m (agentProfile.Name ++ "AvailabilityZones") (.strs agentProfile.AvailabilityZones)
    else m
  let m :=
    if agentProfile.IsCustomVNET then
      addValue m (agentProfile.Name ++ "VnetSubnetID") (.str agentProfile.VnetSubnetID)
    else
      addValue m (agentProfile.Name ++ "Subnet") (.str agentProfile.Subnet)
  let m :=
    if agentProfile.Ports.length > 0 then
      addValue m (agentProfile.Name ++ "EndpointDNSNamePrefix") (.str agentProfile.DNSPrefix)
    else m
  let m :=
    if !agentProfile.IsAvailabilitySets && agentProfile.IsSpotScaleSet then
      let m := addValue m (agentProfile.Name ++ "ScaleSetPriority")
        (.str agentProfile.ScaleSetPriority)
      addValue m (agentProfile.Name ++ "ScaleSetEvictionPolicy")
        (.str agentProfile.ScaleSetEvictionPolicy)
    else m
  let m :=
    match agentProfile.ImageRef with
    | none => m
    | some ref =>
      let m := addValue m (agentProfile.Name ++ "osImageName") (.str ref.Name)
      addValue m (agentProfile.Name ++ "osImageResourceGroup") (.str ref.ResourceGroup)
  if !(agentProfile.OSType = OSType.Windows) then
    let m := addValue m (agentProfile.Name ++ "osImageOffer")
      (.str (osImageConfig cloudSpecConfig agentProfile.Distro).ImageOffer)
    let m := addValue m (agentProfile.Name ++ "osImageSKU")
      (.str (osImageConfig cloudSpecConfig agentProfile.Distro).ImageSku)
    let m := addValue m (agentProfile.Name ++ "osImagePublisher")
      (.str (osImageConfig cloudSpecConfig agentProfile.Distro).ImagePublisher)
    addValue m (agentProfile.Name ++ "osImageVersion")
      (.str (osImageConfig cloudSpecConfig agentProfile.Distro).ImageVersion)
  else m

/-- Lines 85-118: the loop over the agent pools, in input order. -/
def agentParameters (cloudSpecConfig : AzureEnvironmentSpecConfig) :
    List AgentPoolProfile → paramsMap → paramsMap
  | [], m => m
  | agentProfile :: rest, m =>
    agentParameters cloudSpecConfig rest (agentPoolParameters cloudSpecConfig agentProfile m)

/-- Lines 142-145: the certificates of the Windows secret bundle number `i`,
from position `j` on. -/
def windowsCertificateParameters (i : Nat) :
    List KeyVaultCertificate → Nat → paramsMap → paramsMap
  | [], _, m => m
  | c :: rest, j, m =>
    let m := addValue m ("windowsKeyVaultID" ++ fmtInt i ++ "CertificateURL" ++ fmtInt j)
      (.str c.CertificateURL)
    let m := addValue m ("windowsKeyVaultID" ++ fmtInt i ++ "CertificateStore" ++ fmtInt j)
      (.str c.CertificateStore)
    windowsCertificateParameters i rest (j + 1) m

/-- Lines 140-146: the Windows secret bundles, from position `i` on. -/
def windowsSecretParameters : List KeyVaultSecrets → Nat → paramsMap → paramsMap
  | [], _, m => m
  | s :: rest, i, m =>
    let m := addValue m ("windowsKeyVaultID" ++ fmtInt i) (.str s.SourceVaultID)
    windowsSecretParameters rest (i + 1) (windowsCertificateParameters i s.VaultCertificates 0 m)

/-- Lines 125-136: the Windows image source, in priority order. -/
def windowsImageParameters (w : WindowsProfile) (m : paramsMap) : paramsMap :=
  if w.HasCustomImage then
    addValue m "agentWindowsSourceUrl" (.str w.WindowsImageSourceURL)
  else if w.HasImageRef then
    match w.ImageRef with
    | none => m
    | some ref =>
      let m := addValue m "agentWindowsImageResourceGroup" (.str ref.ResourceGroup)
      addValue m "agentWindowsImageName" (.str ref.Name)
  else
    let m := addValue m "agentWindowsPublisher" (.str w.WindowsPublisher)
    let m := addValue m "agentWindowsOffer" (.str w.WindowsOffer)
    let m := addValue m "agentWindowsSku" (.str w.WindowsSku)
    addValue m "agentWindowsVersion" (.str w.ImageVersion)

/-- Lines 121-150: the Windows entries. -/
def windowsParameters (env : Collaborators) (properties : Properties) (m : paramsMap) :
    paramsMap :=
  if properties.HasWindows then
    match properties.WindowsProfile with
    | none => m
    | some w =>
      let m := addValue m "windowsAdminUsername" (.str w.AdminUsername)
      let m := addSecret env m "windowsAdminPassword" w.AdminPassword false
      let m := windowsImageParameters w m
      let m := addValue m "windowsDockerVersion" (.str w.WindowsDockerVersion)
      let m := windowsSecretParameters w.Secrets 0 m
      let m := addValue m "defaultContainerdRuntimeHandler" (.str w.DefaultRuntimeHandler)
      addValue m "hypervRuntimeHandlers" (.str w.HypervRuntimeHandlers)
  else m

/-- Lines 152-161: the loop over the extensions, in input order. -/
def extensionParameters : List ExtensionProfile → paramsMap → paramsMap
  | [], m => m
  | extension :: rest, m =>
    let m :=
      match extension.ExtensionParametersKeyVaultRef with
      | some ref =>
        addKeyvaultReference m (extension.Name ++ "Parameters")
          ref.VaultID ref.SecretName ref.SecretVersion
      | none => addValue m (extension.Name ++ "Parameters") (.str extension.ExtensionParameters)
    extensionParameters rest m

/-- Lines 13-82: everything up to and including the orchestrator-specific
step. -/
def masterPhase (env : Collaborators) (cs : ContainerService) (generatorCode : String)
    (aksEngineVersion : String) : Except RuntimePanic paramsMap :=
  let properties := cs.Properties
  let location := cs.Location
  let parametersMap : paramsMap := []
  let cloudSpecConfig := env.GetCloudSpecConfig cs
  let m := addValue parametersMap "aksEngineVersion" (.str aksEngineVersion)
  let m := addValue m "location" (.str location)
  let m := masterImageParameters properties cloudSpecConfig m
  let m := addValue m "fqdnEndpointSuffix"
    (.str cloudSpecConfig.EndpointConfig.ResourceManagerVMDNSSuffix)
  let m := addValue m "targetEnvironment"
    (.str (env.GetTargetEnv cs.Location cs.Properties.CustomCloudName))
  let m := linuxAdminParameters properties m
  let m := masterProfileParameters properties m
  match linuxKeyParameters properties m with
  | .error e => .error e
  | .ok m =>
    .ok (applyWrites m (env.assignKubernetesParameters properties m cloudSpecConfig generatorCode))

/-- The function `getParameters` of `pkg/engine/params.go`. -/
def getParameters (env : Collaborators) (cs : ContainerService) (generatorCode : String)
    (aksEngineVersion : String) : Except RuntimePanic paramsMap :=
  match masterPhase env cs generatorCode aksEngineVersion with
  | .error e => .error e
  | .ok m =>
    let m := agentParameters (env.GetCloudSpecConfig cs) cs.Properties.AgentPoolProfiles m
    let m := windowsParameters env cs.Properties m
    .ok (extensionParameters cs.Properties.ExtensionProfiles m)

/-! ## Sample inputs -/

/-- A collaborator set with an image table of one distro, a constant target
environment, an orchestrator-specific step that writes nothing and an
`addSecret` that stores every value as a secret entry. -/
def quietEnv : Collaborators where
  GetCloudSpecConfig := fun _ =>
    { EndpointConfig := { ResourceManagerVMDNSSuffix := "cloudapp.azure.com" },
      OSImageConfig := [("ubuntu-18.04",
        { ImageOffer := "UbuntuServer", ImageSku := "18.04-LTS",
          ImagePublisher := "Canonical", ImageVersion := "latest" })] }
  GetTargetEnv := fun _ _ => "AzurePublicCloud"
  assignKubernetesParameters := fun _ _ _ _ => []
  secretEntry := fun _ value _ => some (.secret value)

/-- A cluster spec with nothing in it. -/
def emptyProperties : Properties where
  MasterProfile := none
  AgentPoolProfiles := []
  LinuxProfile := none
  WindowsProfile := none
  ExtensionProfiles := []
  FeatureFlags := []
  CustomCloudName := ""

/-- A master pool in managed-subnet mode. -/
def sampleMaster : MasterProfile where
  DNSPrefix := "dns"
  VMSize := "Standard_D2_v3"
  Distro := "ubuntu-18.04"
  ImageRef := none
  Mode := .ManagedSubnet
  VnetSubnetID := ""
  AgentVnetSubnetID := ""
  VnetCidr := ""
  Subnet := "10.240.0.0/16"
  AgentSubnet := "10.239.0.0/16"
  SubnetIPv6 := ""
  FirstConsecutiveStaticIP := "10.240.255.5"
  AvailabilityProfile := .AvailabilitySet
  AvailabilityZones := []

/-- An availability-set Linux agent pool in managed-subnet mode. -/
def samplePool (name : String) : AgentPoolProfile where
  Name := name
  Count := 3
  VMSize := "Standard_D2_v3"
  OSType := .Linux
  Distro := "ubuntu-18.04"
  Mode := .ManagedSubnet
  VnetSubnetID := ""
  Subnet := "10.241.0.0/16"
  Ports := []
  DNSPrefix := ""
  AvailabilityProfile := .AvailabilitySet
  ScaleSetPriority := ""
  ScaleSetEvictionPolicy := ""
  ImageRef := none
  AvailabilityZones := []

/-- A Windows profile with an empty admin password and marketplace image. -/
def sampleWindows : WindowsProfile where
  AdminUsername := "azureuser"
  AdminPassword := ""
  WindowsImageSourceURL := ""
  ImageRef := none
  WindowsPublisher := "MicrosoftWindowsServer"
  WindowsOffer := "WindowsServer"
  ImageVersion := "latest"
  Secrets := []
  WindowsSku := "2019-Datacenter"
  WindowsDockerVersion := "19.03"
  DefaultRuntimeHandler := "process"
  HypervRuntimeHandlers := ""

/-! ## Write logs

The effect of a run of `addValue` calls on the map is the effect of the list
of writes they make; the functions below give that list for each block of
`getParameters`. -/

/-- The value of the last write to `k` in a list of writes. -/
def lastWrite : List (String × ParamValue) → String → Option ParamValue
  | [], _ => none
  | (k', v) :: t, k => (lastWrite t k).or (if k' = k then some v else none)

/-- The names written by a list of writes. -/
def writtenNames (w : List (String × ParamValue)) : List String := w.map Prod.fst

/-- The writes of `masterImageParameters`. -/
def masterImageWrites (properties : Properties) (cloudSpecConfig : AzureEnvironmentSpecConfig) :
    List (String × ParamValue) :=
  match properties.MasterProfile with
  | none => []
  | some mp =>
    [("osImageOffer", .literal (.str (osImageConfig cloudSpecConfig mp.Distro).ImageOffer)),
     ("osImageSKU", .literal (.str (osImageConfig cloudSpecConfig mp.Distro).ImageSku)),
     ("osImagePublisher", .literal (.str (osImageConfig cloudSpecConfig mp.Distro).ImagePublisher)),
     ("osImageVersion", .literal (.str (osImageConfig cloudSpecConfig mp.Distro).ImageVersion))]
    ++ (match mp.ImageRef with
        | none => []
        | some ref =>
          [("osImageName", .literal (.str ref.Name)),
           ("osImageResourceGroup", .literal (.str ref.ResourceGroup))])

/-- The writes of `linuxAdminParameters`. -/
def linuxAdminWrites (properties : Properties) : List (String × ParamValue) :=
  match properties.LinuxProfile with
  | none => []
  | some linuxProfile =>
    ("linuxAdminUsername", .literal (.str linuxProfile.AdminUsername))
    :: (match linuxProfile.CustomNodesDNS with
        | none => []
        | some dns => [("dnsServer", .literal (.str dns.DNSServer))])

/-- The writes of `masterProfileParameters`. -/
def masterProfileWrites (properties : Properties) : List (String × ParamValue) :=
  match properties.MasterProfile with
  | none => []
  | some mp =>
    [("masterEndpointDNSNamePrefix", .literal (.str mp.DNSPrefix))]
    ++ (if mp.IsCustomVNET then
          [("masterVnetSubnetID", .literal (.str mp.VnetSubnetID))]
          ++ (if mp.IsVirtualMachineScaleSets then
                [("agentVnetSubnetID", .literal (.str mp.AgentVnetSubnetID))]
              else [])
          ++ (if mp.VnetCidr ≠ "" then [("vnetCidr", .literal (.str mp.VnetCidr))] else [])
        else
          [("masterSubnet", .literal (.str mp.Subnet)),
           ("agentSubnet", .literal (.str mp.AgentSubnet))]
          ++ (if IsFeatureEnabled properties.FeatureFlags "EnableIPv6DualStack" then
                [("masterSubnetIPv6", .literal (.str mp.SubnetIPv6))]
              else []))
    ++ [("firstConsecutiveStaticIP", .literal (.str mp.FirstConsecutiveStaticIP)),
        ("masterVMSize", .literal (.str mp.VMSize))]
    ++ (if mp.HasAvailabilityZones then
          [("availabilityZones", .literal (.strs mp.AvailabilityZones))]
        else [])

/-- The writes of `linuxCertificateParameters`. -/
def linuxCertificateWrites (i : Nat) : List KeyVaultCertificate → Nat → List (String × ParamValue)
  | [], _ => []
  | c :: rest, j =>
    ("linuxKeyVaultID" ++ fmtInt i ++ "CertificateURL" ++ fmtInt j,
      .literal (.str c.CertificateURL)) :: linuxCertificateWrites i rest (j + 1)

/-- The writes of `linuxSecretParameters`. -/
def linuxSecretWrites : List KeyVaultSecrets → Nat → List (String × ParamValue)
  | [], _ => []
  | s :: rest, i =>
    ("linuxKeyVaultID" ++ fmtInt i, .literal (.str s.SourceVaultID))
    :: (linuxCertificateWrites i s.VaultCertificates 0 ++ linuxSecretWrites rest (i + 1))

/-- The writes of `linuxKeyParameters` when it does not panic. -/
def linuxKeyWrites (properties : Properties) : List (String × ParamValue) :=
  match properties.LinuxProfile with
  | none => []
  | some linuxProfile =>
    match linuxProfile.PublicKeys with
    | [] => []
    | key :: _ =>
      ("sshRSAPublicKey", .literal (.str key.KeyData))
      :: linuxSecretWrites linuxProfile.Secrets 0

/-- The writes of `agentPoolParameters`. -/
def agentPoolWrites (cloudSpecConfig : AzureEnvironmentSpecConfig)
    (agentProfile : AgentPoolProfile) : List (String × ParamValue) :=
  [(agentProfile.Name ++ "Count", .literal (.int agentProfile.Count)),
   (agentProfile.Name ++ "VMSize", .literal (.str agentProfile.VMSize))]
  ++ (if agentProfile.HasAvailabilityZones then
        [(agentProfile.Name ++ "AvailabilityZones", .literal (.strs agentProfile.AvailabilityZones))]
      else [])
  ++ (if agentProfile.IsCustomVNET then
        [(agentProfile.Name ++ "VnetSubnetID", .literal (.str agentProfile.VnetSubnetID))]
      else [(agentProfile.Name ++ "Subnet", .literal (.str agentProfile.Subnet))])
  ++ (if agentProfile.Ports.length > 0 then
        [(agentProfile.Name ++ "EndpointDNSNamePrefix", .literal (.str agentProfile.DNSPrefix))]
      else [])
  ++ (if !agentProfile.IsAvailabilitySets && agentProfile.IsSpotScaleSet then
        [(agentProfile.Name ++ "ScaleSetPriority", .literal (.str agentProfile.ScaleSetPriority)),
         (agentProfile.Name ++ "ScaleSetEvictionPolicy",
           .literal (.str agentProfile.ScaleSetEvictionPolicy))]
      else [])
  ++ (match agentProfile.ImageRef with
      | none => []
      | some ref =>
        [(agentProfile.Name ++ "osImageName", .literal (.str ref.Name)),
         (agentProfile.Name ++ "osImageResourceGroup", .literal (.str ref.ResourceGroup))])
  ++ (if !(agentProfile.OSType = OSType.Windows) then
        [(agentProfile.Name ++ "osImageOffer",
           .literal (.str (osImageConfig cloudSpecConfig agentProfile.Distro).ImageOffer)),
         (agentProfile.Name ++ "osImageSKU",
           .literal (.str (osImageConfig cloudSpecConfig agentProfile.Distro).ImageSku)),
         (agentProfile.Name ++ "osImagePublisher",
           .literal (.str (osImageConfig cloudSpecConfig agentProfile.Distro).ImagePublisher)),
         (agentProfile.Name ++ "osImageVersion",
           .literal (.str (osImageConfig cloudSpecConfig agentProfile.Distro).ImageVersion))]
      else [])

/-- The writes of `agentParameters`. -/
def agentWrites (cloudSpecConfig : AzureEnvironmentSpecConfig) :
    List AgentPoolProfile → List (String × ParamValue)
  | [] => []
  | agentProfile :: rest =>
    agentPoolWrites cloudSpecConfig agentProfile ++ agentWrites cloudSpecConfig rest

/-- The writes of `windowsCertificateParameters`. -/
def windowsCertificateWrites (i : Nat) :
    List KeyVaultCertificate → Nat → List (String × ParamValue)
  | [], _ => []
  | c :: rest, j =>
    ("windowsKeyVaultID" ++ fmtInt i ++ "CertificateURL" ++ fmtInt j,
      .literal (.str c.CertificateURL))
    :: ("windowsKeyVaultID" ++ fmtInt i ++ "CertificateStore" ++ fmtInt j,
      .literal (.str c.CertificateStore))
    :: windowsCertificateWrites i rest (j + 1)

/-- The writes of `windowsSecretParameters`. -/
def windowsSecretWrites : List KeyVaultSecrets → Nat → List (String × ParamValue)
  | [], _ => []
  | s :: rest, i =>
    ("windowsKeyVaultID" ++ fmtInt i, .literal (.str s.SourceVaultID))
    :: (windowsCertificateWrites i s.VaultCertificates 0 ++ windowsSecretWrites rest (i + 1))

/-- The writes of `windowsImageParameters`. -/
def windowsImageWrites (w : WindowsProfile) : List (String × ParamValue) :=
  if w.HasCustomImage then
    [("agentWindowsSourceUrl", .literal (.str w.WindowsImageSourceURL))]
  else if w.HasImageRef then
    match w.ImageRef with
    | none => []
    | some ref =>
      [("agentWindowsImageResourceGroup", .literal (.str ref.ResourceGroup)),
       ("agentWindowsImageName", .literal (.str ref.Name))]
  else
    [("agentWindowsPublisher", .literal (.str w.WindowsPublisher)),
     ("agentWindowsOffer", .literal (.str w.WindowsOffer)),
     ("agentWindowsSku", .literal (.str w.WindowsSku)),
     ("agentWindowsVersion", .literal (.str w.ImageVersion))]

/-- The writes of `windowsParameters`. -/
def windowsWrites (env : Collaborators) (properties : Properties) :
    List (String × ParamValue) :=
  match properties.WindowsProfile with
  | none => []
  | some w =>
    [("windowsAdminUsername", .literal (.str w.AdminUsername))]
    ++ (match env.secretEntry "windowsAdminPassword" w.AdminPassword false with
        | some x => [("windowsAdminPassword", x)]
        | none => [])
    ++ windowsImageWrites w
    ++ [("windowsDockerVersion", .literal (.str w.WindowsDockerVersion))]
    ++ windowsSecretWrites w.Secrets 0
    ++ [("defaultContainerdRuntimeHandler", .literal (.str w.DefaultRuntimeHandler)),
        ("hypervRuntimeHandlers", .literal (.str w.HypervRuntimeHandlers))]

/-- The write of one extension. -/
def extensionWrite (extension : ExtensionProfile) : String × ParamValue :=
  match extension.ExtensionParametersKeyVaultRef with
  | some ref => (extension.Name ++ "Parameters", .secretRef ref.VaultID ref.SecretName ref.SecretVersion)
  | none => (extension.Name ++ "Parameters", .literal (.str extension.ExtensionParameters))

/-- The writes of `extensionParameters`. -/
def extensionWrites (extensions : List ExtensionProfile) : List (String × ParamValue) :=
  extensions.map extensionWrite

/-- The writes of lines 19-79, before the orchestrator-specific step. -/
def masterWrites (env : Collaborators) (cs : ContainerService) (aksEngineVersion : String) :
    List (String × ParamValue) :=
  [("aksEngineVersion", .literal (.str aksEngineVersion)),
   ("location", .literal (.str cs.Location))]
  ++ masterImageWrites cs.Properties (env.GetCloudSpecConfig cs)
  ++ [("fqdnEndpointSuffix",
        .literal (.str (env.GetCloudSpecConfig cs).EndpointConfig.ResourceManagerVMDNSSuffix)),
      ("targetEnvironment",
        .literal (.str (env.GetTargetEnv cs.Location cs.Properties.CustomCloudName)))]
  ++ linuxAdminWrites cs.Properties
  ++ masterProfileWrites cs.Properties
  ++ linuxKeyWrites cs.Properties

/-- The writes of the orchestrator-specific step (line 82). -/
def kubernetesWrites (env : Collaborators) (cs : ContainerService) (generatorCode : String)
    (aksEngineVersion : String) : List (String × ParamValue) :=
  env.assignKubernetesParameters cs.Properties
    (applyWrites [] (masterWrites env cs aksEngineVersion)) (env.GetCloudSpecConfig cs)
    generatorCode

/-- The writes of lines 84-161, after the orchestrator-specific step. -/
def laterWrites (env : Collaborators) (cs : ContainerService) : List (String × ParamValue) :=
  agentWrites (env.GetCloudSpecConfig cs) cs.Properties.AgentPoolProfiles
  ++ windowsWrites env cs.Properties
  ++ extensionWrites cs.Properties.ExtensionProfiles

/-- Whether line 72 finds a first SSH public key (or is not reached). -/
def hasFirstKey (properties : Properties) : Bool :=
  match properties.LinuxProfile with
  | none => true
  | some linuxProfile => !linuxProfile.PublicKeys.isEmpty

/-! ## Parameter names -/

/-- The name suffixes that the agent-pool loop appends to a pool name. -/
def poolSuffixes : List String :=
  ["Count", "VMSize", "AvailabilityZones", "VnetSubnetID", "Subnet", "EndpointDNSNamePrefix",
   "ScaleSetPriority", "ScaleSetEvictionPolicy", "osImageName", "osImageResourceGroup",
   "osImageOffer", "osImageSKU", "osImagePublisher", "osImageVersion"]

/-- Whether the name `k` ends with `s`. -/
def endsWith (k s : String) : Bool := s.data.isSuffixOf k.data

/-- Whether the name `k` starts with `s`. -/
def startsWith (k s : String) : Bool := s.data.isPrefixOf k.data

/-- Whether the last character of the name `k` is a decimal digit. -/
def lastIsDigit (k : String) : Bool :=
  match k.data.getLast? with
  | some c => c.isDigit
  | none => false

/-- The value of a decimal digit character. -/
def digitVal (c : Char) : Nat := c.toNat - 48

/-- The number a list of decimal digit characters stands for. -/
def decodeDigits (l : List Char) : Nat := l.foldl (fun a c => 10 * a + digitVal c) 0

/-- The fixed names written before the orchestrator-specific step. -/
def masterNames : List String :=
  ["aksEngineVersion", "location", "osImageOffer", "osImageSKU", "osImagePublisher",
   "osImageVersion", "osImageName", "osImageResourceGroup", "fqdnEndpointSuffix",
   "targetEnvironment", "linuxAdminUsername", "dnsServer", "masterEndpointDNSNamePrefix",
   "masterVnetSubnetID", "agentVnetSubnetID", "vnetCidr", "masterSubnet", "agentSubnet",
   "masterSubnetIPv6", "firstConsecutiveStaticIP", "masterVMSize", "availabilityZones",
   "sshRSAPublicKey"]

/-- The fixed names written by the Windows block. -/
def windowsNames : List String :=
  ["windowsAdminUsername", "windowsAdminPassword", "agentWindowsSourceUrl",
   "agentWindowsImageResourceGroup", "agentWindowsImageName", "agentWindowsPublisher",
   "agentWindowsOffer", "agentWindowsSku", "agentWindowsVersion", "windowsDockerVersion",
   "defaultContainerdRuntimeHandler", "hypervRuntimeHandlers"]

/-- A name that no loop of `getParameters` can write: it ends with no pool
suffix and not with the extension suffix, and it does not start like the name
of a secret bundle. -/
def plainName (k : String) : Bool :=
  poolSuffixes.all (fun s => !endsWith k s) && !endsWith k "Parameters"
    && !startsWith k "linuxKeyVaultID" && !startsWith k "windowsKeyVaultID"

/-- Every name of the write list satisfies `P`. -/
def AllNames (P : String → Prop) (l : List (String × ParamValue)) : Prop :=
  ∀ k ∈ writtenNames l, P k

/-- The shape of the name of a Linux secret bundle or of one of its
certificates. -/
def linuxSecretShape (k : String) : Prop :=
  startsWith k "linuxKeyVaultID" = true ∧ lastIsDigit k = true

/-- The shape of the name of a Windows secret bundle or of one of its
certificates. -/
def windowsSecretShape (k : String) : Prop :=
  startsWith k "windowsKeyVaultID" = true ∧ lastIsDigit k = true

/-- The names written by `masterProfileParameters`. -/
def masterProfileNames : List String :=
  ["masterEndpointDNSNamePrefix", "masterVnetSubnetID", "agentVnetSubnetID", "vnetCidr",
   "masterSubnet", "agentSubnet", "masterSubnetIPv6", "firstConsecutiveStaticIP",
   "masterVMSize", "availabilityZones"]

/-- The names written by `masterImageParameters`. -/
def masterImageNames : List String :=
  ["osImageOffer", "osImageSKU", "osImagePublisher", "osImageVersion", "osImageName",
   "osImageResourceGroup"]

/-- The zero value of `AzureOSImageConfig`: four empty strings. -/
def blankImage : AzureOSImageConfig :=
  { ImageOffer := "", ImageSku := "", ImagePublisher := "", ImageVersion := "" }

/-- The seven names of the Windows image source. -/
def windowsImageNames : List String :=
  ["agentWindowsSourceUrl", "agentWindowsImageResourceGroup", "agentWindowsImageName",
   "agentWindowsPublisher", "agentWindowsOffer", "agentWindowsSku", "agentWindowsVersion"]

/-- The name of the Linux secret bundle number `i`. -/
def linuxVaultName (i : Nat) : String := "linuxKeyVaultID" ++ fmtInt i

/-- The name of certificate number `j` of the Linux secret bundle number
`i`. -/
def linuxCertificateName (i j : Nat) : String :=
  "linuxKeyVaultID" ++ fmtInt i ++ "CertificateURL" ++ fmtInt j

/-- The six names of the master pool's networking. -/
def masterNetworkNames : List String :=
  ["masterVnetSubnetID", "agentVnetSubnetID", "vnetCidr", "masterSubnet", "agentSubnet",
   "masterSubnetIPv6"]

/-- The four suffixes of the distro-based image entries of an agent pool. -/
def osImageSuffixes : List String :=
  ["osImageOffer", "osImageSKU", "osImagePublisher", "osImageVersion"]

/-! ## Sample inputs of the theorems -/

/-- A cluster spec that declares Windows support, with a Windows profile whose
admin password is empty and with a Windows agent pool. -/
def emptyPasswordSpec : ContainerService where
  Location := "westus"
  Properties :=
    { emptyProperties with
      WindowsProfile := some sampleWindows
      AgentPoolProfiles := [{ samplePool "winpool" with OSType := .Windows }] }

/-- A cluster spec with two agent pools named `pool1`, of 3 and of 5
machines. -/
def duplicateSpec : ContainerService where
  Location := "westus"
  Properties :=
    { emptyProperties with
      AgentPoolProfiles := [samplePool "pool1", { samplePool "pool1" with Count := 5 }] }

/-- A cluster spec whose master pool and whose agent pool `pool1` name the
distro `"coreos"`, which the image table of `quietEnv` does not have. -/
def unknownDistroSpec : ContainerService where
  Location := "westus"
  Properties :=
    { emptyProperties with
      MasterProfile := some { sampleMaster with Distro := "coreos" }
      AgentPoolProfiles := [{ samplePool "pool1" with Distro := "coreos" }] }

/-- A cluster spec with a master pool in managed-subnet mode and an agent
pool named `agent` in custom-VNET mode. -/
def agentClashSpec : ContainerService where
  Location := "westus"
  Properties :=
    { emptyProperties with
      MasterProfile := some sampleMaster
      AgentPoolProfiles :=
        [{ samplePool "agent" with Mode := .CustomVNET, VnetSubnetID := "/subnets/a" }] }

/-- A cluster spec with the single agent pool `pool1`, in managed-subnet
mode. -/
def onePoolSpec : ContainerService where
  Location := "westus"
  Properties := { emptyProperties with AgentPoolProfiles := [samplePool "pool1"] }

/-- A Linux profile with one SSH public key, no custom DNS block and no
secret bundle. -/
def sampleLinux : LinuxProfile where
  AdminUsername := "azureuser"
  CustomNodesDNS := none
  PublicKeys := [{ KeyData := "ssh-rsa AAAA" }]
  Secrets := []

/-- A cluster spec whose Linux profile has a custom DNS block with the empty
string as DNS server. -/
def emptyDnsSpec : ContainerService where
  Location := "westus"
  Properties :=
    { emptyProperties with
      LinuxProfile := some { sampleLinux with CustomNodesDNS := some { DNSServer := "" } } }

/-- A cluster spec whose Linux profile has no custom DNS block. -/
def linuxSpec : ContainerService where
  Location := "westus"
  Properties := { emptyProperties with LinuxProfile := some sampleLinux }

/-- The agent pool of scenario B: `pool1` in scale-set mode with spot
priority and eviction policy `"Delete"`. -/
def spotPool : AgentPoolProfile :=
  { samplePool "pool1" with
    AvailabilityProfile := .ScaleSet, ScaleSetPriority := "Spot",
    ScaleSetEvictionPolicy := "Delete" }

/-- A cluster spec with the agent pool of scenario B. -/
def spotSpec : ContainerService where
  Location := "westus"
  Properties := { emptyProperties with AgentPoolProfiles := [spotPool] }

/-- A cluster spec with the agent pool of scenario B followed by an
availability-set pool of the same name. -/
def spotClashSpec : ContainerService where
  Location := "westus"
  Properties := { emptyProperties with AgentPoolProfiles := [spotPool, samplePool "pool1"] }

/-- A collaborator set whose orchestrator-specific step writes
`masterVMSize` and `pool1Count`. -/
def loudEnv : Collaborators :=
  { quietEnv with
    assignKubernetesParameters := fun _ _ _ _ =>
      [("masterVMSize", .literal (.str "fromOrchestrator")),
       ("pool1Count", .literal (.int 99))] }

/-- A cluster spec with a master pool and the agent pool `pool1`. -/
def masterAndPoolSpec : ContainerService where
  Location := "westus"
  Properties :=
    { emptyProperties with
      MasterProfile := some sampleMaster
      AgentPoolProfiles := [samplePool "pool1"] }

/-- A cluster spec without master pool. -/
def emptySpec : ContainerService where
  Location := "westus"
  Properties := emptyProperties

/-- The Windows profile of scenario D: a custom image URL and an explicit
image reference are both set. -/
def bothSourcesWindows : WindowsProfile :=
  { sampleWindows with
    AdminPassword := "Pa55"
    WindowsImageSourceURL := "https://images/win.vhd"
    ImageRef := some { Name := "winImage", ResourceGroup := "images" } }

/-- The cluster spec of scenario D. -/
def bothSourcesSpec : ContainerService where
  Location := "westus"
  Properties := { emptyProperties with WindowsProfile := some bothSourcesWindows }

/-- The cluster spec of scenario C: two Linux secret bundles, the first with
two certificates, the second with one. -/
def twoBundlesSpec : ContainerService where
  Location := "westus"
  Properties :=
    { emptyProperties with
      LinuxProfile := some
        { sampleLinux with
          Secrets :=
            [{ SourceVaultID := "vault0",
               VaultCertificates :=
                 [{ CertificateURL := "url00", CertificateStore := "" },
                  { CertificateURL := "url01", CertificateStore := "" }] },
             { SourceVaultID := "vault1",
               VaultCertificates := [{ CertificateURL := "url10", CertificateStore := "" }] }] } }

/-- A cluster spec with a master pool in custom-VNET mode and an agent pool
named `master` in managed-subnet mode. -/
def masterClashSpec : ContainerService where
  Location := "westus"
  Properties :=
    { emptyProperties with
      MasterProfile := some { sampleMaster with Mode := .CustomVNET, VnetSubnetID := "/subnets/m" }
      AgentPoolProfiles := [samplePool "master"] }

/-- A cluster spec with two extensions: `hello` with inline parameters and
`vault` with a key-vault reference (and inline parameters as well). -/
def extensionSpec : ContainerService where
  Location := "westus"
  Properties :=
    { emptyProperties with
      ExtensionProfiles :=
        [{ Name := "hello", ExtensionParameters := "inline",
           ExtensionParametersKeyVaultRef := none },
         { Name := "vault", ExtensionParameters := "ignored",
           ExtensionParametersKeyVaultRef :=
             some { VaultID := "/vaults/v", SecretName := "name", SecretVersion := "1" } }] }

/-- A cluster spec with two agent pools named `pool1`: a Linux pool followed
by a Windows pool. -/
def mixedOsSpec : ContainerService where
  Location := "westus"
  Properties :=
    { emptyProperties with
      AgentPoolProfiles := [samplePool "pool1", { samplePool "pool1" with OSType := .Windows }] }

/-- A cluster spec whose Linux profile has an empty list of SSH public
keys. -/
def noKeySpec : ContainerService where
  Location := "westus"
  Properties := { emptyProperties with LinuxProfile := some { sampleLinux with PublicKeys := [] } }

/-- A cluster spec with a master pool of size `Standard_D2_v3` and an agent
pool named `master` of size `Standard_B2s`. -/
def masterShadowSpec : ContainerService where
  Location := "westus"
  Properties :=
    { emptyProperties with
      MasterProfile := some sampleMaster
      AgentPoolProfiles := [{ samplePool "master" with VMSize := "Standard_B2s" }] }

/-- A cluster spec with the agent pools `pool1` and `pool2`. -/
def twoPoolSpec : ContainerService where
  Location := "westus"
  Properties :=
    { emptyProperties with
      AgentPoolProfiles := [samplePool "pool1", { samplePool "pool2" with Count := 5 }] }

/-! ## Lemmas on the map -/

theorem lookupParam_setParam (m : paramsMap) (k : String) (v : ParamValue) (k' : String) :
    lookupParam (setParam m k v) k' = if k = k' then some v else lookupParam m k' := by
  induction m with
  | nil => simp [setParam, lookupParam]
  | cons e t ih =>
    obtain ⟨a, b⟩ := e
    by_cases hak : a = k
    · subst hak
      by_cases h : a = k' <;> simp [setParam, lookupParam, h]
    · by_cases hk : k = k'
      · subst hk
        simp [setParam, lookupParam, hak, ih]
      · simp [setParam, lookupParam, hak, ih, hk]

theorem applyWrites_nil (m : paramsMap) : applyWrites m [] = m := rfl

theorem applyWrites_cons (m : paramsMap) (e : String × ParamValue)
    (w : List (String × ParamValue)) :
    applyWrites m (e :: w) = applyWrites (setParam m e.1 e.2) w := rfl

theorem applyWrites_append (m : paramsMap) (w₁ w₂ : List (String × ParamValue)) :
    applyWrites m (w₁ ++ w₂) = applyWrites (applyWrites m w₁) w₂ := by
  simp [applyWrites, List.foldl_append]

theorem lastWrite_append (w₁ w₂ : List (String × ParamValue)) (k : String) :
    lastWrite (w₁ ++ w₂) k = (lastWrite w₂ k).or (lastWrite w₁ k) := by
  induction w₁ with
  | nil => simp [lastWrite]
  | cons e t ih =>
    obtain ⟨a, b⟩ := e
    show (lastWrite (t ++ w₂) k).or (if a = k then some b else none) =
      (lastWrite w₂ k).or ((lastWrite t k).or (if a = k then some b else none))
    rw [ih]
    cases lastWrite w₂ k <;> simp

theorem lookupParam_applyWrites (w : List (String × ParamValue)) (m : paramsMap) (k : String) :
    lookupParam (applyWrites m w) k = (lastWrite w k).or (lookupParam m k) := by
  induction w generalizing m with
  | nil => simp [applyWrites, lastWrite]
  | cons e t ih =>
    obtain ⟨a, b⟩ := e
    rw [applyWrites_cons, ih, lookupParam_setParam]
    simp only [lastWrite]
    cases lastWrite t k <;> by_cases h : a = k <;> simp [h]

theorem lastWrite_eq_none_iff (w : List (String × ParamValue)) (k : String) :
    lastWrite w k = none ↔ k ∉ writtenNames w := by
  induction w with
  | nil => simp [lastWrite, writtenNames]
  | cons e t ih =>
    obtain ⟨a, b⟩ := e
    simp only [lastWrite, Option.or_eq_none, ih, writtenNames, List.map_cons, List.mem_cons,
      not_or]
    constructor
    · rintro ⟨h1, h2⟩
      refine ⟨?_, h1⟩
      intro h
      simp [h] at h2
    · rintro ⟨h1, h2⟩
      refine ⟨h2, ?_⟩
      simp [Ne.symm h1]

theorem lastWrite_isSome_iff (w : List (String × ParamValue)) (k : String) :
    (lastWrite w k).isSome ↔ k ∈ writtenNames w := by
  rw [← not_iff_not, ← lastWrite_eq_none_iff]
  cases lastWrite w k <;> simp

/-! ## Each block is the application of its write log -/

theorem masterImageParameters_eq (p : Properties) (c : AzureEnvironmentSpecConfig)
    (m : paramsMap) :
    masterImageParameters p c m = applyWrites m (masterImageWrites p c) := by
  unfold masterImageParameters masterImageWrites
  cases p.MasterProfile with
  | none => rfl
  | some mp => cases h : mp.ImageRef <;> simp [h, addValue, applyWrites]

theorem linuxAdminParameters_eq (p : Properties) (m : paramsMap) :
    linuxAdminParameters p m = applyWrites m (linuxAdminWrites p) := by
  unfold linuxAdminParameters linuxAdminWrites
  cases p.LinuxProfile with
  | none => rfl
  | some lp => cases h : lp.CustomNodesDNS <;> simp [h, addValue, applyWrites]

theorem masterProfileParameters_eq (p : Properties) (m : paramsMap) :
    masterProfileParameters p m = applyWrites m (masterProfileWrites p) := by
  unfold masterProfileParameters masterProfileWrites
  cases p.MasterProfile with
  | none => rfl
  | some mp =>
    cases h1 : mp.IsCustomVNET <;> cases h2 : mp.IsVirtualMachineScaleSets <;>
      cases h3 : mp.HasAvailabilityZones <;>
      cases h4 : IsFeatureEnabled p.FeatureFlags "EnableIPv6DualStack" <;>
      by_cases h : mp.VnetCidr = "" <;> simp [h, h1, h2, h3, h4, addValue, applyWrites]

theorem linuxCertificateParameters_eq (i : Nat) (cs : List KeyVaultCertificate) (j : Nat)
    (m : paramsMap) :
    linuxCertificateParameters i cs j m = applyWrites m (linuxCertificateWrites i cs j) := by
  induction cs generalizing j m with
  | nil => rfl
  | cons c rest ih =>
    simp only [linuxCertificateParameters, linuxCertificateWrites, applyWrites_cons, ih]
    rfl

theorem linuxSecretParameters_eq (ss : List KeyVaultSecrets) (i : Nat) (m : paramsMap) :
    linuxSecretParameters ss i m = applyWrites m (linuxSecretWrites ss i) := by
  induction ss generalizing i m with
  | nil => rfl
  | cons s rest ih =>
    simp only [linuxSecretParameters, linuxSecretWrites, applyWrites_cons, applyWrites_append, ih,
      linuxCertificateParameters_eq]
    rfl

theorem linuxKeyParameters_eq (p : Properties) (m : paramsMap) :
    linuxKeyParameters p m =
      if hasFirstKey p then .ok (applyWrites m (linuxKeyWrites p)) else .error .indexOutOfRange := by
  unfold linuxKeyParameters linuxKeyWrites hasFirstKey
  cases p.LinuxProfile with
  | none => rfl
  | some lp =>
    cases h : lp.PublicKeys with
    | nil => simp [h]
    | cons key rest =>
      simp [h, applyWrites_cons, linuxSecretParameters_eq, addValue]

theorem agentPoolParameters_eq (c : AzureEnvironmentSpecConfig) (ap : AgentPoolProfile)
    (m : paramsMap) :
    agentPoolParameters c ap m = applyWrites m (agentPoolWrites c ap) := by
  unfold agentPoolParameters agentPoolWrites
  cases h1 : ap.HasAvailabilityZones <;> cases h2 : ap.IsCustomVNET <;>
    by_cases h3 : ap.Ports.length > 0 <;> cases h4 : ap.ImageRef <;>
    cases h5 : (!ap.IsAvailabilitySets && ap.IsSpotScaleSet) <;>
    by_cases h6 : ap.OSType = OSType.Windows <;>
    simp [h1, h2, h3, h4, h5, h6, addValue, applyWrites]

theorem agentParameters_eq (c : AzureEnvironmentSpecConfig) (pools : List AgentPoolProfile)
    (m : paramsMap) :
    agentParameters c pools m = applyWrites m (agentWrites c pools) := by
  induction pools generalizing m with
  | nil => rfl
  | cons ap rest ih =>
    simp only [agentParameters, agentWrites, applyWrites_append, ih, agentPoolParameters_eq]

theorem windowsCertificateParameters_eq (i : Nat) (cs : List KeyVaultCertificate) (j : Nat)
    (m : paramsMap) :
    windowsCertificateParameters i cs j m = applyWrites m (windowsCertificateWrites i cs j) := by
  induction cs generalizing j m with
  | nil => rfl
  | cons c rest ih =>
    simp only [windowsCertificateParameters, windowsCertificateWrites, applyWrites_cons, ih]
    rfl

theorem windowsSecretParameters_eq (ss : List KeyVaultSecrets) (i : Nat) (m : paramsMap) :
    windowsSecretParameters ss i m = applyWrites m (windowsSecretWrites ss i) := by
  induction ss generalizing i m with
  | nil => rfl
  | cons s rest ih =>
    simp only [windowsSecretParameters, windowsSecretWrites, applyWrites_cons, applyWrites_append,
      ih, windowsCertificateParameters_eq]
    rfl

theorem windowsImageParameters_eq (w : WindowsProfile) (m : paramsMap) :
    windowsImageParameters w m = applyWrites m (windowsImageWrites w) := by
  unfold windowsImageParameters windowsImageWrites
  cases h1 : w.HasCustomImage <;> cases h2 : w.HasImageRef <;> cases h3 : w.ImageRef <;>
    simp [h1, h2, h3, addValue, applyWrites]

theorem windowsParameters_eq (env : Collaborators) (p : Properties) (m : paramsMap) :
    windowsParameters env p m = applyWrites m (windowsWrites env p) := by
  unfold windowsParameters windowsWrites Properties.HasWindows
  cases p.WindowsProfile with
  | none => rfl
  | some w =>
    cases h : env.secretEntry "windowsAdminPassword" w.AdminPassword false <;>
      simp [h, addSecret, addValue, applyWrites_append, applyWrites_cons, applyWrites_nil,
        windowsImageParameters_eq, windowsSecretParameters_eq]

theorem extensionParameters_eq (exts : List ExtensionProfile) (m : paramsMap) :
    extensionParameters exts m = applyWrites m (extensionWrites exts) := by
  induction exts generalizing m with
  | nil => rfl
  | cons e rest ih =>
    simp only [extensionParameters, extensionWrites, List.map_cons, applyWrites_cons, ih]
    unfold extensionWrite
    cases h : e.ExtensionParametersKeyVaultRef <;> simp [h, addValue, addKeyvaultReference]

theorem masterPhase_eq (env : Collaborators) (cs : ContainerService) (g v : String) :
    masterPhase env cs g v =
      if hasFirstKey cs.Properties then
        .ok (applyWrites [] (masterWrites env cs v ++ kubernetesWrites env cs g v))
      else .error .indexOutOfRange := by
  unfold masterPhase
  simp only [masterImageParameters_eq, linuxAdminParameters_eq, masterProfileParameters_eq,
    linuxKeyParameters_eq]
  by_cases h : hasFirstKey cs.Properties
  · simp only [h, if_true, kubernetesWrites, masterWrites, applyWrites_append]
    rfl
  · simp [h]

/-- The result of `getParameters`: a panic when the Linux profile has no SSH
public key, and otherwise the map built by all writes in order. -/
theorem getParameters_eq (env : Collaborators) (cs : ContainerService) (g v : String) :
    getParameters env cs g v =
      if hasFirstKey cs.Properties then
        .ok (applyWrites []
          (masterWrites env cs v ++ kubernetesWrites env cs g v ++ laterWrites env cs))
      else .error .indexOutOfRange := by
  unfold getParameters
  rw [masterPhase_eq]
  by_cases h : hasFirstKey cs.Properties
  · simp only [h, if_true, agentParameters_eq, windowsParameters_eq, extensionParameters_eq,
      ← applyWrites_append, laterWrites, List.append_assoc]
  · simp [h]

/-! ## Decimal rendering of indices -/

theorem digitChar_spec :
    ∀ d, d < 10 → (Nat.digitChar d).isDigit = true ∧ digitVal (Nat.digitChar d) = d := by
  decide

theorem decodeDigits_concat (l : List Char) (c : Char) :
    decodeDigits (l ++ [c]) = 10 * decodeDigits l + digitVal c := by
  simp [decodeDigits, List.foldl_append]

theorem toDigitsCore_spec (fuel : Nat) : ∀ (n : Nat) (ds : List Char), n < fuel →
    ∃ l, Nat.toDigitsCore 10 fuel n ds = l ++ ds ∧ decodeDigits l = n ∧ l ≠ [] ∧
      ∀ c ∈ l, c.isDigit = true := by
  induction fuel with
  | zero => intro n ds h; omega
  | succ fuel ih =>
    intro n ds h
    have hd := digitChar_spec (n % 10) (Nat.mod_lt _ (by decide))
    by_cases h0 : n / 10 = 0
    · refine ⟨[Nat.digitChar (n % 10)], ?_, ?_, by simp, ?_⟩
      · simp [Nat.toDigitsCore, h0]
      · simp [decodeDigits, hd.2]; omega
      · simpa using hd.1
    · have hlt : n / 10 < fuel := by omega
      obtain ⟨l, hl, hv, hne, hdig⟩ := ih (n / 10) (Nat.digitChar (n % 10) :: ds) hlt
      refine ⟨l ++ [Nat.digitChar (n % 10)], ?_, ?_, by simp, ?_⟩
      · simp [Nat.toDigitsCore, h0, hl]
      · rw [decodeDigits_concat, hv, hd.2]; omega
      · intro c hc
        rcases List.mem_append.1 hc with hc | hc
        · exact hdig c hc
        · simp at hc; subst hc; exact hd.1

theorem fmtInt_spec (n : Nat) :
    decodeDigits (fmtInt n).data = n ∧ (fmtInt n).data ≠ [] ∧
      ∀ c ∈ (fmtInt n).data, c.isDigit = true := by
  obtain ⟨l, hl, hv, hne, hdig⟩ := toDigitsCore_spec (n + 1) n [] (Nat.lt_succ_self n)
  have : (fmtInt n).data = l := by
    show Nat.toDigitsCore 10 (n + 1) n [] = l
    simpa using hl
  rw [this]
  exact ⟨hv, hne, hdig⟩

theorem fmtInt_injective {i j : Nat} (h : fmtInt i = fmtInt j) : i = j := by
  have hi := (fmtInt_spec i).1
  have hj := (fmtInt_spec j).1
  rw [h] at hi
  omega

/-! ## Lemmas on names -/

theorem endsWith_iff (k s : String) : endsWith k s = true ↔ s.data <:+ k.data := by
  simp [endsWith, List.isSuffixOf_iff_suffix]

theorem startsWith_iff (k s : String) : startsWith k s = true ↔ s.data <+: k.data := by
  simp [startsWith, List.isPrefixOf_iff_prefix]

theorem endsWith_append (n s : String) : endsWith (n ++ s) s = true := by
  rw [endsWith_iff, String.data_append]
  exact List.suffix_append _ _

theorem startsWith_append (s r : String) : startsWith (s ++ r) s = true := by
  rw [startsWith_iff, String.data_append]
  exact List.prefix_append _ _

theorem endsWith_of_endsWith {k s t : String} (hs : endsWith k s = true)
    (ht : endsWith k t = true) (hl : s.data.length ≤ t.data.length) : endsWith t s = true := by
  rw [endsWith_iff] at *
  exact List.suffix_of_suffix_length_le hs ht hl

theorem startsWith_of_startsWith {k s t : String} (hs : startsWith k s = true)
    (ht : startsWith k t = true) (hl : s.data.length ≤ t.data.length) : startsWith t s = true := by
  rw [startsWith_iff] at *
  exact List.prefix_of_prefix_length_le hs ht hl

theorem append_right_cancel {a b s : String} (h : a ++ s = b ++ s) : a = b := by
  rw [String.ext_iff, String.data_append, String.data_append] at h
  exact String.ext_iff.2 (List.append_cancel_right h)

theorem append_left_cancel {a b s : String} (h : s ++ a = s ++ b) : a = b := by
  rw [String.ext_iff, String.data_append, String.data_append] at h
  exact String.ext_iff.2 (List.append_cancel_left h)

theorem lastIsDigit_append (n s : String) (hs : s.data ≠ []) :
    lastIsDigit (n ++ s) = lastIsDigit s := by
  simp [lastIsDigit, String.data_append, List.getLast?_append_of_ne_nil _ hs]

theorem lastIsDigit_fmtInt (i : Nat) : lastIsDigit (fmtInt i) = true := by
  obtain ⟨-, hne, hdig⟩ := fmtInt_spec i
  unfold lastIsDigit
  cases h : (fmtInt i).data.getLast? with
  | none => exact absurd (List.getLast?_eq_none_iff.1 h) hne
  | some c => exact hdig c (List.mem_of_getLast?_eq_some h)

theorem lastIsDigit_append_fmtInt (n : String) (i : Nat) : lastIsDigit (n ++ fmtInt i) = true := by
  rw [lastIsDigit_append _ _ (fmtInt_spec i).2.1, lastIsDigit_fmtInt]

/-- No pool suffix ends with another one. -/
theorem poolSuffixes_table :
    ∀ s ∈ poolSuffixes, ∀ t ∈ poolSuffixes, endsWith t s = true → s = t := by
  decide

/-- No pool suffix ends with a digit, is empty, or is comparable with the
extension suffix. -/
theorem poolSuffixes_shape :
    ∀ s ∈ poolSuffixes, lastIsDigit s = false ∧ s.data ≠ [] ∧
      endsWith s "Parameters" = false ∧ endsWith "Parameters" s = false := by
  decide

/-- Two pool names that coincide have the same pool and the same suffix. -/
theorem poolName_inj {a b s t : String} (hs : s ∈ poolSuffixes) (ht : t ∈ poolSuffixes)
    (h : a ++ s = b ++ t) : a = b ∧ s = t := by
  have h1 : endsWith (b ++ t) s = true := h ▸ endsWith_append a s
  have h2 : endsWith (b ++ t) t = true := endsWith_append b t
  have hst : s = t := by
    rcases Nat.le_total s.data.length t.data.length with hl | hl
    · exact poolSuffixes_table s hs t ht (endsWith_of_endsWith h1 h2 hl)
    · exact (poolSuffixes_table t ht s hs (endsWith_of_endsWith h2 h1 hl)).symm
  subst hst
  exact ⟨append_right_cancel h, rfl⟩

/-- A pool name is no extension name. -/
theorem poolName_ne_extensionName {a b s : String} (hs : s ∈ poolSuffixes) :
    a ++ s ≠ b ++ "Parameters" := by
  intro h
  have h1 : endsWith (b ++ "Parameters") s = true := h ▸ endsWith_append a s
  have h2 : endsWith (b ++ "Parameters") "Parameters" = true := endsWith_append b _
  obtain ⟨-, -, h3, h4⟩ := poolSuffixes_shape s hs
  rcases Nat.le_total s.data.length ("Parameters" : String).data.length with hl | hl
  · rw [endsWith_of_endsWith h1 h2 hl] at h4; exact Bool.noConfusion h4
  · rw [endsWith_of_endsWith h2 h1 hl] at h3; exact Bool.noConfusion h3

/-- A pool name does not end with a digit. -/
theorem lastIsDigit_poolName {a s : String} (hs : s ∈ poolSuffixes) :
    lastIsDigit (a ++ s) = false := by
  obtain ⟨h1, h2, -, -⟩ := poolSuffixes_shape s hs
  rw [lastIsDigit_append _ _ h2, h1]

/-- An extension name does not end with a digit. -/
theorem lastIsDigit_extensionName (a : String) : lastIsDigit (a ++ "Parameters") = false := by
  rw [lastIsDigit_append _ _ (by decide)]
  decide

/-! ## The names each block writes -/

theorem writtenNames_append (a b : List (String × ParamValue)) :
    writtenNames (a ++ b) = writtenNames a ++ writtenNames b := by
  simp [writtenNames]

theorem writtenNames_cons (e : String × ParamValue) (a : List (String × ParamValue)) :
    writtenNames (e :: a) = e.1 :: writtenNames a := rfl

theorem writtenNames_nil : writtenNames [] = [] := rfl

theorem AllNames.nil (P : String → Prop) : AllNames P [] := by
  intro k hk
  exact absurd hk (List.not_mem_nil _)

theorem AllNames.cons {P : String → Prop} {k : String} {v : ParamValue}
    {l : List (String × ParamValue)} (hk : P k) (hl : AllNames P l) :
    AllNames P ((k, v) :: l) := by
  intro k' hk'
  rcases List.mem_cons.1 hk' with h | h
  · exact h ▸ hk
  · exact hl k' h

theorem AllNames.append {P : String → Prop} {a b : List (String × ParamValue)}
    (ha : AllNames P a) (hb : AllNames P b) : AllNames P (a ++ b) := by
  intro k hk
  rw [writtenNames_append] at hk
  rcases List.mem_append.1 hk with hk | hk
  · exact ha k hk
  · exact hb k hk

theorem AllNames.ite {P : String → Prop} {c : Prop} [Decidable c]
    {a b : List (String × ParamValue)} (ha : AllNames P a) (hb : AllNames P b) :
    AllNames P (if c then a else b) := by
  split <;> assumption

theorem AllNames.mono {P Q : String → Prop} {l : List (String × ParamValue)}
    (h : ∀ k, P k → Q k) (hl : AllNames P l) : AllNames Q l :=
  fun k hk => h k (hl k hk)

theorem poolNamed_agentPoolWrites (c : AzureEnvironmentSpecConfig) (ap : AgentPoolProfile) :
    AllNames (fun k => ∃ s ∈ poolSuffixes, k = ap.Name ++ s) (agentPoolWrites c ap) := by
  have one : ∀ (s : String) (v : ParamValue) (l : List (String × ParamValue)),
      poolSuffixes.elem s = true → AllNames (fun k => ∃ s ∈ poolSuffixes, k = ap.Name ++ s) l →
      AllNames (fun k => ∃ s ∈ poolSuffixes, k = ap.Name ++ s) ((ap.Name ++ s, v) :: l) :=
    fun s _ _ hs hl => AllNames.cons ⟨s, List.mem_of_elem_eq_true hs, rfl⟩ hl
  have nil := AllNames.nil (fun k => ∃ s ∈ poolSuffixes, k = ap.Name ++ s)
  unfold agentPoolWrites
  refine AllNames.append (AllNames.append (AllNames.append (AllNames.append (AllNames.append
    (AllNames.append ?_ ?_) ?_) ?_) ?_) ?_) ?_
  · exact one _ _ _ (by decide) (one _ _ _ (by decide) nil)
  · exact AllNames.ite (one _ _ _ (by decide) nil) nil
  · exact AllNames.ite (one _ _ _ (by decide) nil) (one _ _ _ (by decide) nil)
  · exact AllNames.ite (one _ _ _ (by decide) nil) nil
  · exact AllNames.ite (one _ _ _ (by decide) (one _ _ _ (by decide) nil)) nil
  · cases ap.ImageRef with
    | none => exact nil
    | some ref => exact one _ _ _ (by decide) (one _ _ _ (by decide) nil)
  · exact AllNames.ite
      (one _ _ _ (by decide) (one _ _ _ (by decide) (one _ _ _ (by decide)
        (one _ _ _ (by decide) nil)))) nil

theorem mem_writtenNames_agentPoolWrites {c : AzureEnvironmentSpecConfig} {ap : AgentPoolProfile}
    {k : String} (h : k ∈ writtenNames (agentPoolWrites c ap)) :
    ∃ s ∈ poolSuffixes, k = ap.Name ++ s :=
  poolNamed_agentPoolWrites c ap k h

theorem mem_writtenNames_agentWrites {c : AzureEnvironmentSpecConfig}
    {pools : List AgentPoolProfile} {k : String} :
    k ∈ writtenNames (agentWrites c pools) ↔
      ∃ ap ∈ pools, k ∈ writtenNames (agentPoolWrites c ap) := by
  induction pools with
  | nil => simp [agentWrites, writtenNames]
  | cons ap rest ih => simp [agentWrites, writtenNames_append, ih]

theorem mem_writtenNames_extensionWrites {exts : List ExtensionProfile} {k : String} :
    k ∈ writtenNames (extensionWrites exts) ↔ ∃ e ∈ exts, k = e.Name ++ "Parameters" := by
  have h1 : ∀ e : ExtensionProfile, (extensionWrite e).1 = e.Name ++ "Parameters" := by
    intro e
    unfold extensionWrite
    cases e.ExtensionParametersKeyVaultRef <;> rfl
  simp only [writtenNames, extensionWrites, List.map_map, List.mem_map, Function.comp, h1]
  constructor
  · rintro ⟨e, he, rfl⟩; exact ⟨e, he, rfl⟩
  · rintro ⟨e, he, rfl⟩; exact ⟨e, he, rfl⟩

theorem linuxSecretShape_mk (r : String) (i : Nat) :
    linuxSecretShape ("linuxKeyVaultID" ++ r ++ fmtInt i) := by
  refine ⟨?_, lastIsDigit_append_fmtInt _ _⟩
  rw [String.append_assoc]
  exact startsWith_append _ _

theorem windowsSecretShape_mk (r : String) (i : Nat) :
    windowsSecretShape ("windowsKeyVaultID" ++ r ++ fmtInt i) := by
  refine ⟨?_, lastIsDigit_append_fmtInt _ _⟩
  rw [String.append_assoc]
  exact startsWith_append _ _

theorem allNames_linuxCertificateWrites (i : Nat) (cs : List KeyVaultCertificate) (j : Nat) :
    AllNames linuxSecretShape (linuxCertificateWrites i cs j) := by
  induction cs generalizing j with
  | nil => exact AllNames.nil _
  | cons c rest ih =>
    refine AllNames.cons ?_ (ih (j + 1))
    have := linuxSecretShape_mk (fmtInt i ++ "CertificateURL") j
    simpa [String.append_assoc] using this

theorem allNames_linuxSecretWrites (ss : List KeyVaultSecrets) (i : Nat) :
    AllNames linuxSecretShape (linuxSecretWrites ss i) := by
  induction ss generalizing i with
  | nil => exact AllNames.nil _
  | cons s rest ih =>
    refine AllNames.cons ?_ (AllNames.append (allNames_linuxCertificateWrites _ _ _) (ih (i + 1)))
    have := linuxSecretShape_mk "" i
    simpa using this

theorem allNames_windowsCertificateWrites (i : Nat) (cs : List KeyVaultCertificate) (j : Nat) :
    AllNames windowsSecretShape (windowsCertificateWrites i cs j) := by
  induction cs generalizing j with
  | nil => exact AllNames.nil _
  | cons c rest ih =>
    refine AllNames.cons ?_ (AllNames.cons ?_ (ih (j + 1)))
    · have := windowsSecretShape_mk (fmtInt i ++ "CertificateURL") j
      simpa [String.append_assoc] using this
    · have := windowsSecretShape_mk (fmtInt i ++ "CertificateStore") j
      simpa [String.append_assoc] using this

theorem allNames_windowsSecretWrites (ss : List KeyVaultSecrets) (i : Nat) :
    AllNames windowsSecretShape (windowsSecretWrites ss i) := by
  induction ss generalizing i with
  | nil => exact AllNames.nil _
  | cons s rest ih =>
    refine AllNames.cons ?_
      (AllNames.append (allNames_windowsCertificateWrites _ _ _) (ih (i + 1)))
    have := windowsSecretShape_mk "" i
    simpa using this

theorem allNames_masterImageWrites (p : Properties) (c : AzureEnvironmentSpecConfig) :
    AllNames (fun k => k ∈ masterImageNames) (masterImageWrites p c) := by
  have h1 : "osImageOffer" ∈ masterImageNames := by decide
  have h2 : "osImageSKU" ∈ masterImageNames := by decide
  have h3 : "osImagePublisher" ∈ masterImageNames := by decide
  have h4 : "osImageVersion" ∈ masterImageNames := by decide
  have h5 : "osImageName" ∈ masterImageNames := by decide
  have h6 : "osImageResourceGroup" ∈ masterImageNames := by decide
  unfold masterImageWrites
  split
  · exact AllNames.nil _
  · refine AllNames.append
      (AllNames.cons h1 (AllNames.cons h2 (AllNames.cons h3 (AllNames.cons h4 (AllNames.nil _)))))
      ?_
    split
    · exact AllNames.nil _
    · exact AllNames.cons h5 (AllNames.cons h6 (AllNames.nil _))

theorem AllNames.cons_mem {names : List String} {k : String} {v : ParamValue}
    {l : List (String × ParamValue)} (hk : names.elem k = true)
    (hl : AllNames (fun k => k ∈ names) l) : AllNames (fun k => k ∈ names) ((k, v) :: l) :=
  AllNames.cons (List.mem_of_elem_eq_true hk) hl

theorem allNames_linuxAdminWrites (p : Properties) :
    AllNames (fun k => k ∈ ["linuxAdminUsername", "dnsServer"]) (linuxAdminWrites p) := by
  unfold linuxAdminWrites
  split
  · exact AllNames.nil _
  · refine AllNames.cons_mem (by decide) ?_
    split
    · exact AllNames.nil _
    · exact AllNames.cons_mem (by decide) (AllNames.nil _)

theorem allNames_masterProfileWrites (p : Properties) :
    AllNames (fun k => k ∈ masterProfileNames) (masterProfileWrites p) := by
  unfold masterProfileWrites
  split
  · exact AllNames.nil _
  · refine AllNames.append (AllNames.append (AllNames.append ?_ ?_) ?_) ?_
    · exact AllNames.cons_mem (by decide) (AllNames.nil _)
    · refine AllNames.ite (AllNames.append (AllNames.append ?_ (AllNames.ite ?_ ?_))
        (AllNames.ite ?_ ?_)) (AllNames.append ?_ (AllNames.ite ?_ ?_))
      · exact AllNames.cons_mem (by decide) (AllNames.nil _)
      · exact AllNames.cons_mem (by decide) (AllNames.nil _)
      · exact AllNames.nil _
      · exact AllNames.cons_mem (by decide) (AllNames.nil _)
      · exact AllNames.nil _
      · exact AllNames.cons_mem (by decide) (AllNames.cons_mem (by decide) (AllNames.nil _))
      · exact AllNames.cons_mem (by decide) (AllNames.nil _)
      · exact AllNames.nil _
    · exact AllNames.cons_mem (by decide) (AllNames.cons_mem (by decide) (AllNames.nil _))
    · exact AllNames.ite (AllNames.cons_mem (by decide) (AllNames.nil _)) (AllNames.nil _)

theorem allNames_linuxKeyWrites (p : Properties) :
    AllNames (fun k => k = "sshRSAPublicKey" ∨ linuxSecretShape k) (linuxKeyWrites p) := by
  unfold linuxKeyWrites
  split
  · exact AllNames.nil _
  · split
    · exact AllNames.nil _
    · exact AllNames.cons (Or.inl rfl)
        (AllNames.mono (fun _ h => Or.inr h) (allNames_linuxSecretWrites _ _))

/-- The names of the master blocks are among the fixed master names. -/
theorem blockNames_subset :
    (∀ k ∈ masterImageNames, k ∈ masterNames) ∧
      (∀ k ∈ ["linuxAdminUsername", "dnsServer"], k ∈ masterNames) ∧
      (∀ k ∈ masterProfileNames, k ∈ masterNames) := by
  decide

theorem AllNames.cons_fixed {names : List String} {Q : String → Prop} {k : String}
    {v : ParamValue} {l : List (String × ParamValue)} (hk : names.elem k = true)
    (hl : AllNames (fun k => k ∈ names ∨ Q k) l) :
    AllNames (fun k => k ∈ names ∨ Q k) ((k, v) :: l) :=
  AllNames.cons (Or.inl (List.mem_of_elem_eq_true hk)) hl

theorem allNames_masterWrites (env : Collaborators) (cs : ContainerService) (v : String) :
    AllNames (fun k => k ∈ masterNames ∨ linuxSecretShape k) (masterWrites env cs v) := by
  unfold masterWrites
  refine AllNames.append (AllNames.append (AllNames.append (AllNames.append
    (AllNames.append ?_ ?_) ?_) ?_) ?_) ?_
  · exact AllNames.cons_fixed (by decide) (AllNames.cons_fixed (by decide) (AllNames.nil _))
  · exact AllNames.mono (fun k hk => Or.inl (blockNames_subset.1 k hk))
      (allNames_masterImageWrites _ _)
  · exact AllNames.cons_fixed (by decide) (AllNames.cons_fixed (by decide) (AllNames.nil _))
  · exact AllNames.mono (fun k hk => Or.inl (blockNames_subset.2.1 k hk))
      (allNames_linuxAdminWrites _)
  · exact AllNames.mono (fun k hk => Or.inl (blockNames_subset.2.2 k hk))
      (allNames_masterProfileWrites _)
  · refine AllNames.mono ?_ (allNames_linuxKeyWrites _)
    rintro k (rfl | hk)
    · exact Or.inl (by decide)
    · exact Or.inr hk

theorem allNames_windowsImageWrites (w : WindowsProfile) :
    AllNames (fun k => k ∈ windowsNames ∨ windowsSecretShape k) (windowsImageWrites w) := by
  unfold windowsImageWrites
  refine AllNames.ite ?_ (AllNames.ite ?_ ?_)
  · exact AllNames.cons_fixed (by decide) (AllNames.nil _)
  · cases w.ImageRef with
    | none => exact AllNames.nil _
    | some ref =>
      exact AllNames.cons_fixed (by decide) (AllNames.cons_fixed (by decide) (AllNames.nil _))
  · exact AllNames.cons_fixed (by decide) (AllNames.cons_fixed (by decide)
      (AllNames.cons_fixed (by decide) (AllNames.cons_fixed (by decide) (AllNames.nil _))))

theorem allNames_windowsWrites {env : Collaborators} (p : Properties) :
    AllNames (fun k => k ∈ windowsNames ∨ windowsSecretShape k) (windowsWrites env p) := by
  unfold windowsWrites
  cases p.WindowsProfile with
  | none => exact AllNames.nil _
  | some w =>
    refine AllNames.append (AllNames.append (AllNames.append (AllNames.append
      (AllNames.append ?_ ?_) ?_) ?_) ?_) ?_
    · exact AllNames.cons_fixed (by decide) (AllNames.nil _)
    · split
      · exact AllNames.cons_fixed (by decide) (AllNames.nil _)
      · exact AllNames.nil _
    · exact allNames_windowsImageWrites w
    · exact AllNames.cons_fixed (by decide) (AllNames.nil _)
    · exact AllNames.mono (fun _ h => Or.inr h) (allNames_windowsSecretWrites _ _)
    · exact AllNames.cons_fixed (by decide) (AllNames.cons_fixed (by decide) (AllNames.nil _))

/-! ## The returned map -/

theorem getParameters_ok_iff (env : Collaborators) (cs : ContainerService) (g v : String) :
    (∃ m, getParameters env cs g v = .ok m) ↔ hasFirstKey cs.Properties = true := by
  rw [getParameters_eq]
  by_cases h : hasFirstKey cs.Properties = true <;> simp [h]

theorem getParameters_ok_eq {env : Collaborators} {cs : ContainerService} {g v : String}
    {m : paramsMap} (h : getParameters env cs g v = .ok m) :
    m = applyWrites []
      (masterWrites env cs v ++ kubernetesWrites env cs g v ++ laterWrites env cs) := by
  rw [getParameters_eq] at h
  by_cases hk : hasFirstKey cs.Properties = true
  · simp only [hk, if_true] at h
    exact (Except.ok.inj h).symm
  · simp [hk] at h

/-- The entry of a name in the returned map is its last write: by the later
blocks, else by the orchestrator-specific step, else by the master blocks. -/
theorem lookup_getParameters {env : Collaborators} {cs : ContainerService} {g v : String}
    {m : paramsMap} (h : getParameters env cs g v = .ok m) (k : String) :
    lookupParam m k =
      (lastWrite (laterWrites env cs) k).or
        ((lastWrite (kubernetesWrites env cs g v) k).or (lastWrite (masterWrites env cs v) k)) := by
  rw [getParameters_ok_eq h, lookupParam_applyWrites, lastWrite_append, lastWrite_append]
  simp [lookupParam]

theorem lastWrite_laterWrites (env : Collaborators) (cs : ContainerService) (k : String) :
    lastWrite (laterWrites env cs) k =
      (lastWrite (extensionWrites cs.Properties.ExtensionProfiles) k).or
        ((lastWrite (windowsWrites env cs.Properties) k).or
          (lastWrite (agentWrites (env.GetCloudSpecConfig cs) cs.Properties.AgentPoolProfiles) k)) := by
  unfold laterWrites
  rw [lastWrite_append, lastWrite_append]

theorem hasParam_getParameters {env : Collaborators} {cs : ContainerService} {g v : String}
    {m : paramsMap} (h : getParameters env cs g v = .ok m) (k : String) :
    hasParam m k = true ↔
      k ∈ writtenNames (masterWrites env cs v) ∨ k ∈ writtenNames (kubernetesWrites env cs g v)
        ∨ k ∈ writtenNames (laterWrites env cs) := by
  unfold hasParam
  rw [lookup_getParameters h, ← lastWrite_isSome_iff, ← lastWrite_isSome_iff,
    ← lastWrite_isSome_iff]
  cases lastWrite (laterWrites env cs) k <;> cases lastWrite (kubernetesWrites env cs g v) k <;>
    cases lastWrite (masterWrites env cs v) k <;> simp

theorem lastWrite_none_of_allNames {P : String → Prop} {l : List (String × ParamValue)}
    (hl : AllNames P l) {k : String} (hk : ¬ P k) : lastWrite l k = none :=
  (lastWrite_eq_none_iff l k).2 (fun hmem => hk (hl k hmem))

theorem plainName_spec {k : String} (h : plainName k = true) :
    (∀ s ∈ poolSuffixes, endsWith k s = false) ∧ endsWith k "Parameters" = false ∧
      startsWith k "linuxKeyVaultID" = false ∧ startsWith k "windowsKeyVaultID" = false := by
  simp only [plainName, Bool.and_eq_true, Bool.not_eq_true', List.all_eq_true] at h
  exact ⟨h.1.1.1, h.1.1.2, h.1.2, h.2⟩

theorem plainName_agentWrites {k : String} (h : plainName k = true)
    (c : AzureEnvironmentSpecConfig) (pools : List AgentPoolProfile) :
    lastWrite (agentWrites c pools) k = none := by
  rw [lastWrite_eq_none_iff, mem_writtenNames_agentWrites]
  rintro ⟨ap, -, hk⟩
  obtain ⟨s, hs, rfl⟩ := mem_writtenNames_agentPoolWrites hk
  have := (plainName_spec h).1 s hs
  rw [endsWith_append] at this
  exact Bool.noConfusion this

theorem plainName_extensionWrites {k : String} (h : plainName k = true)
    (exts : List ExtensionProfile) : lastWrite (extensionWrites exts) k = none := by
  rw [lastWrite_eq_none_iff, mem_writtenNames_extensionWrites]
  rintro ⟨e, -, rfl⟩
  have := (plainName_spec h).2.1
  rw [endsWith_append] at this
  exact Bool.noConfusion this

theorem plainName_linuxSecretWrites {k : String} (h : plainName k = true)
    (ss : List KeyVaultSecrets) (i : Nat) : lastWrite (linuxSecretWrites ss i) k = none := by
  refine lastWrite_none_of_allNames (allNames_linuxSecretWrites ss i) ?_
  rintro ⟨h1, -⟩
  rw [(plainName_spec h).2.2.1] at h1
  exact Bool.noConfusion h1

theorem plainName_windowsSecretWrites {k : String} (h : plainName k = true)
    (ss : List KeyVaultSecrets) (i : Nat) : lastWrite (windowsSecretWrites ss i) k = none := by
  refine lastWrite_none_of_allNames (allNames_windowsSecretWrites ss i) ?_
  rintro ⟨h1, -⟩
  rw [(plainName_spec h).2.2.2] at h1
  exact Bool.noConfusion h1

theorem plainName_masterWrites {k : String} (h : plainName k = true) (hk : k ∉ masterNames)
    (env : Collaborators) (cs : ContainerService) (v : String) :
    lastWrite (masterWrites env cs v) k = none := by
  refine lastWrite_none_of_allNames (allNames_masterWrites env cs v) ?_
  rintro (h1 | ⟨h1, -⟩)
  · exact hk h1
  · rw [(plainName_spec h).2.2.1] at h1
    exact Bool.noConfusion h1

theorem plainName_windowsWrites {env : Collaborators} {k : String} (h : plainName k = true)
    (hk : k ∉ windowsNames) (p : Properties) : lastWrite (windowsWrites env p) k = none := by
  refine lastWrite_none_of_allNames (allNames_windowsWrites p) ?_
  rintro (h1 | ⟨h1, -⟩)
  · exact hk h1
  · rw [(plainName_spec h).2.2.2] at h1
    exact Bool.noConfusion h1

theorem lastWrite_cons (k' : String) (x : ParamValue) (t : List (String × ParamValue))
    (k : String) :
    lastWrite ((k', x) :: t) k = (lastWrite t k).or (if k' = k then some x else none) := rfl

theorem lastWrite_nil (k : String) : lastWrite [] k = none := rfl

/-! ## C1: the Windows admin password -/

/-- C1: for a cluster spec that declares Windows support, line 123 calls
`addSecret` for `windowsAdminPassword` whatever the password is.  When that
call stores an entry (spec 4.5 and 8: the entry is never omitted, also for the
empty password), the returned map has an entry named `windowsAdminPassword`,
and it is the entry that the call stored. -/
theorem windowsAdminPassword_entry (env : Collaborators) (cs : ContainerService) (g v : String)
    (m : paramsMap) (w : WindowsProfile) (hw : cs.Properties.WindowsProfile = some w)
    (h : getParameters env cs g v = .ok m) (x : ParamValue)
    (hsecret : env.secretEntry "windowsAdminPassword" w.AdminPassword false = some x) :
    hasParam m "windowsAdminPassword" = true ∧
      lookupParam m "windowsAdminPassword" = some x := by
  have hp : plainName "windowsAdminPassword" = true := by decide
  have hi : lastWrite (windowsImageWrites w) "windowsAdminPassword" = none := by
    unfold windowsImageWrites
    split
    · simp [lastWrite]
    · split
      · split <;> simp [lastWrite]
      · simp [lastWrite]
  have hl : lookupParam m "windowsAdminPassword" = some x := by
    rw [lookup_getParameters h, lastWrite_laterWrites, plainName_agentWrites hp,
      plainName_extensionWrites hp, plainName_masterWrites hp (by decide)]
    unfold windowsWrites
    rw [hw]
    simp only [hsecret, lastWrite_append, lastWrite_cons, lastWrite_nil,
      plainName_windowsSecretWrites hp]
    rw [hi]
    simp
  refine ⟨?_, hl⟩
  unfold hasParam
  rw [hl]
  rfl

/-- The theorem `windowsAdminPassword_entry` at `emptyPasswordSpec`, whose
admin password is empty, for an `addSecret` that stores every value: the
returned map has the entry `windowsAdminPassword`. -/
theorem windowsAdminPassword_entry_witness :
    ∃ m, getParameters quietEnv emptyPasswordSpec "" "" = .ok m ∧
      hasParam m "windowsAdminPassword" = true ∧
      lookupParam m "windowsAdminPassword" = some (.secret "") :=
  ⟨_, rfl,
    windowsAdminPassword_entry quietEnv emptyPasswordSpec "" "" _ sampleWindows rfl rfl
      (.secret "") rfl⟩

/-! ## Pool names in the returned map -/

/-- No fixed Windows name ends with a pool suffix. -/
theorem windowsNames_table : ∀ l ∈ windowsNames, ∀ s ∈ poolSuffixes, endsWith l s = false := by
  decide

theorem poolName_windowsWrites {env : Collaborators} {s : String} (hs : s ∈ poolSuffixes)
    (n : String) (p : Properties) : lastWrite (windowsWrites env p) (n ++ s) = none := by
  refine lastWrite_none_of_allNames (allNames_windowsWrites p) ?_
  rintro (h1 | ⟨-, h1⟩)
  · have := windowsNames_table _ h1 s hs
    rw [endsWith_append] at this
    exact Bool.noConfusion this
  · rw [lastIsDigit_poolName hs] at h1
    exact Bool.noConfusion h1

theorem poolName_extensionWrites {s : String} (hs : s ∈ poolSuffixes) (n : String)
    (exts : List ExtensionProfile) : lastWrite (extensionWrites exts) (n ++ s) = none := by
  rw [lastWrite_eq_none_iff, mem_writtenNames_extensionWrites]
  rintro ⟨e, -, h⟩
  exact poolName_ne_extensionName hs h

/-- Only the agent-pool loop, the orchestrator-specific step and the master
blocks can write a pool name. -/
theorem lookup_poolName {env : Collaborators} {cs : ContainerService} {g v : String}
    {m : paramsMap} (h : getParameters env cs g v = .ok m) {s : String} (hs : s ∈ poolSuffixes)
    (n : String) :
    lookupParam m (n ++ s) =
      (lastWrite (agentWrites (env.GetCloudSpecConfig cs) cs.Properties.AgentPoolProfiles)
          (n ++ s)).or
        ((lastWrite (kubernetesWrites env cs g v) (n ++ s)).or
          (lastWrite (masterWrites env cs v) (n ++ s))) := by
  rw [lookup_getParameters h, lastWrite_laterWrites, poolName_windowsWrites hs,
    poolName_extensionWrites hs]
  simp

theorem agentWrites_append (c : AzureEnvironmentSpecConfig) (a b : List AgentPoolProfile) :
    agentWrites c (a ++ b) = agentWrites c a ++ agentWrites c b := by
  induction a with
  | nil => rfl
  | cons x t ih => simp [agentWrites, ih]

/-- Pools of another name do not write the names of pool `n`. -/
theorem lastWrite_agentWrites_other {c : AzureEnvironmentSpecConfig}
    {pools : List AgentPoolProfile} {n s : String} (hs : s ∈ poolSuffixes)
    (hn : ∀ ap ∈ pools, ap.Name ≠ n) : lastWrite (agentWrites c pools) (n ++ s) = none := by
  rw [lastWrite_eq_none_iff, mem_writtenNames_agentWrites]
  rintro ⟨ap, hap, hk⟩
  obtain ⟨t, ht, h⟩ := mem_writtenNames_agentPoolWrites hk
  exact hn ap hap (poolName_inj hs ht h).1.symm

/-- The names of pool `n` are decided by the last pool of that name. -/
theorem lastWrite_agentWrites_last {c : AzureEnvironmentSpecConfig}
    {front back : List AgentPoolProfile} {q : AgentPoolProfile} {s : String}
    (hs : s ∈ poolSuffixes) (hn : ∀ ap ∈ back, ap.Name ≠ q.Name) :
    lastWrite (agentWrites c (front ++ q :: back)) (q.Name ++ s) =
      (lastWrite (agentPoolWrites c q) (q.Name ++ s)).or
        (lastWrite (agentWrites c front) (q.Name ++ s)) := by
  rw [agentWrites_append, lastWrite_append]
  show (lastWrite (agentPoolWrites c q ++ agentWrites c back) (q.Name ++ s)).or _ = _
  rw [lastWrite_append, lastWrite_agentWrites_other hs hn]
  simp

theorem name_append_inj (n s t : String) : n ++ s = n ++ t ↔ s = t :=
  ⟨append_left_cancel, fun h => h ▸ rfl⟩

theorem lastWrite_ite (c : Prop) [Decidable c] (a b : List (String × ParamValue)) (k : String) :
    lastWrite (if c then a else b) k = if c then lastWrite a k else lastWrite b k := by
  split <;> rfl

theorem lastWrite_agentPoolWrites_Count (c : AzureEnvironmentSpecConfig) (q : AgentPoolProfile) :
    lastWrite (agentPoolWrites c q) (q.Name ++ "Count") = some (.literal (.int q.Count)) := by
  unfold agentPoolWrites
  cases q.ImageRef <;>
    simp [lastWrite_append, lastWrite_cons, lastWrite_nil, lastWrite_ite, name_append_inj]

theorem lastWrite_agentPoolWrites_VMSize (c : AzureEnvironmentSpecConfig) (q : AgentPoolProfile) :
    lastWrite (agentPoolWrites c q) (q.Name ++ "VMSize") = some (.literal (.str q.VMSize)) := by
  unfold agentPoolWrites
  cases q.ImageRef <;>
    simp [lastWrite_append, lastWrite_cons, lastWrite_nil, lastWrite_ite, name_append_inj]

/-! ## C2: two agent pools of the same name -/

/-- C2, as the code has it: `getParameters` has no `DuplicateKey` failure.
Whenever line 72 finds a first SSH public key, it returns a map, and for a
pool `q` that is the last one of its name the entries `{name}Count` and
`{name}VMSize` hold the values of `q`: they replace the entries written for an
earlier pool of the same name. -/
theorem duplicate_pool_names_overwrite (env : Collaborators) (cs : ContainerService)
    (g v : String) (front back : List AgentPoolProfile) (q : AgentPoolProfile)
    (hpools : cs.Properties.AgentPoolProfiles = front ++ q :: back)
    (hlast : ∀ ap ∈ back, ap.Name ≠ q.Name) (hkey : hasFirstKey cs.Properties = true) :
    ∃ m, getParameters env cs g v = .ok m ∧
      lookupParam m (q.Name ++ "Count") = some (.literal (.int q.Count)) ∧
      lookupParam m (q.Name ++ "VMSize") = some (.literal (.str q.VMSize)) := by
  obtain ⟨m, hm⟩ := (getParameters_ok_iff env cs g v).2 hkey
  refine ⟨m, hm, ?_, ?_⟩
  · rw [lookup_poolName hm (by decide), hpools, lastWrite_agentWrites_last (by decide) hlast,
      lastWrite_agentPoolWrites_Count]
    simp
  · rw [lookup_poolName hm (by decide), hpools, lastWrite_agentWrites_last (by decide) hlast,
      lastWrite_agentPoolWrites_VMSize]
    simp

/-- C2 fails as stated: `duplicateSpec` has two agent pools named `pool1`,
and `getParameters` returns a map for it, in which `pool1Count` is the count
of the second pool. -/
theorem duplicate_pool_names_return :
    (duplicateSpec.Properties.AgentPoolProfiles.map (fun ap => ap.Name)) = ["pool1", "pool1"] ∧
      ∃ m, getParameters quietEnv duplicateSpec "" "" = .ok m ∧
        lookupParam m "pool1Count" = some (.literal (.int 5)) :=
  ⟨by decide, _, rfl, by decide⟩

/-- The theorem `duplicate_pool_names_overwrite` at `duplicateSpec`. -/
theorem duplicate_pool_names_overwrite_witness :
    ∃ m, getParameters quietEnv duplicateSpec "" "" = .ok m ∧
      lookupParam m ("pool1" ++ "Count") = some (.literal (.int 5)) ∧
      lookupParam m ("pool1" ++ "VMSize") = some (.literal (.str "Standard_D2_v3")) :=
  duplicate_pool_names_overwrite quietEnv duplicateSpec "" "" [samplePool "pool1"] []
    { samplePool "pool1" with Count := 5 } rfl (by simp) (by decide)

/-! ## The master blocks, one by one -/

/-- The last write of the master blocks to a name, block by block. -/
theorem lastWrite_masterWrites (env : Collaborators) (cs : ContainerService) (v k : String) :
    lastWrite (masterWrites env cs v) k =
      (lastWrite (linuxKeyWrites cs.Properties) k).or
      ((lastWrite (masterProfileWrites cs.Properties) k).or
      ((lastWrite (linuxAdminWrites cs.Properties) k).or
      ((lastWrite
          [("fqdnEndpointSuffix", ParamValue.literal
              (.str (env.GetCloudSpecConfig cs).EndpointConfig.ResourceManagerVMDNSSuffix)),
           ("targetEnvironment", ParamValue.literal
              (.str (env.GetTargetEnv cs.Location cs.Properties.CustomCloudName)))] k).or
      ((lastWrite (masterImageWrites cs.Properties (env.GetCloudSpecConfig cs)) k).or
       (lastWrite
          [("aksEngineVersion", ParamValue.literal (.str v)),
           ("location", ParamValue.literal (.str cs.Location))] k))))) := by
  unfold masterWrites
  simp only [lastWrite_append, Option.or_assoc]

theorem osImageConfig_absent {c : AzureEnvironmentSpecConfig} {d : String}
    (h : ∀ e ∈ c.OSImageConfig, e.1 ≠ d) : osImageConfig c d = blankImage := by
  unfold osImageConfig
  have : c.OSImageConfig.find? (fun e => e.1 = d) = none := by
    rw [List.find?_eq_none]
    intro e he
    simpa using h e he
  rw [this]
  rfl

theorem lastWrite_extensionWrites_none {k : String} (h : endsWith k "Parameters" = false)
    (exts : List ExtensionProfile) : lastWrite (extensionWrites exts) k = none := by
  rw [lastWrite_eq_none_iff, mem_writtenNames_extensionWrites]
  rintro ⟨e, -, rfl⟩
  rw [endsWith_append] at h
  exact Bool.noConfusion h

theorem lastWrite_windowsWrites_none {env : Collaborators} {k : String} (h1 : k ∉ windowsNames)
    (h2 : lastIsDigit k = false) (p : Properties) :
    lastWrite (windowsWrites env p) k = none := by
  refine lastWrite_none_of_allNames (allNames_windowsWrites p) ?_
  rintro (h | ⟨-, h⟩)
  · exact h1 h
  · rw [h2] at h
    exact Bool.noConfusion h

theorem lastWrite_linuxKeyWrites_none {k : String} (h1 : k ≠ "sshRSAPublicKey")
    (h2 : startsWith k "linuxKeyVaultID" = false) (p : Properties) :
    lastWrite (linuxKeyWrites p) k = none := by
  refine lastWrite_none_of_allNames (allNames_linuxKeyWrites p) ?_
  rintro (h | ⟨h, -⟩)
  · exact h1 h
  · rw [h2] at h
    exact Bool.noConfusion h

theorem lastWrite_masterProfileWrites_none {k : String} (h : k ∉ masterProfileNames)
    (p : Properties) : lastWrite (masterProfileWrites p) k = none :=
  lastWrite_none_of_allNames (allNames_masterProfileWrites p) h

theorem lastWrite_linuxAdminWrites_none {k : String}
    (h : k ∉ ["linuxAdminUsername", "dnsServer"]) (p : Properties) :
    lastWrite (linuxAdminWrites p) k = none :=
  lastWrite_none_of_allNames (allNames_linuxAdminWrites p) h

theorem lastWrite_masterImageWrites_none {k : String} (h : k ∉ masterImageNames)
    (p : Properties) (c : AzureEnvironmentSpecConfig) :
    lastWrite (masterImageWrites p c) k = none :=
  lastWrite_none_of_allNames (allNames_masterImageWrites p c) h

/-- The four image entries that the master blocks write for a master pool. -/
theorem lastWrite_masterWrites_osImage (env : Collaborators) (cs : ContainerService)
    (v : String) (mp : MasterProfile) (hmp : cs.Properties.MasterProfile = some mp) :
    lastWrite (masterWrites env cs v) "osImageOffer" =
        some (.literal (.str (osImageConfig (env.GetCloudSpecConfig cs) mp.Distro).ImageOffer)) ∧
      lastWrite (masterWrites env cs v) "osImageSKU" =
        some (.literal (.str (osImageConfig (env.GetCloudSpecConfig cs) mp.Distro).ImageSku)) ∧
      lastWrite (masterWrites env cs v) "osImagePublisher" =
        some (.literal
          (.str (osImageConfig (env.GetCloudSpecConfig cs) mp.Distro).ImagePublisher)) ∧
      lastWrite (masterWrites env cs v) "osImageVersion" =
        some (.literal
          (.str (osImageConfig (env.GetCloudSpecConfig cs) mp.Distro).ImageVersion)) := by
  refine ⟨?_, ?_, ?_, ?_⟩ <;>
  · rw [lastWrite_masterWrites, lastWrite_linuxKeyWrites_none (by decide) (by decide),
      lastWrite_masterProfileWrites_none (by decide),
      lastWrite_linuxAdminWrites_none (by decide)]
    unfold masterImageWrites
    rw [hmp]
    cases hir : mp.ImageRef <;> simp [hir, lastWrite_append, lastWrite_cons, lastWrite_nil]

theorem lastWrite_agentPoolWrites_osImage (c : AzureEnvironmentSpecConfig) (q : AgentPoolProfile)
    (hq : q.OSType ≠ OSType.Windows) :
    lastWrite (agentPoolWrites c q) (q.Name ++ "osImageOffer") =
        some (.literal (.str (osImageConfig c q.Distro).ImageOffer)) ∧
      lastWrite (agentPoolWrites c q) (q.Name ++ "osImageSKU") =
        some (.literal (.str (osImageConfig c q.Distro).ImageSku)) ∧
      lastWrite (agentPoolWrites c q) (q.Name ++ "osImagePublisher") =
        some (.literal (.str (osImageConfig c q.Distro).ImagePublisher)) ∧
      lastWrite (agentPoolWrites c q) (q.Name ++ "osImageVersion") =
        some (.literal (.str (osImageConfig c q.Distro).ImageVersion)) := by
  unfold agentPoolWrites
  refine ⟨?_, ?_, ?_, ?_⟩ <;>
    cases hir : q.ImageRef <;>
    simp [hir, hq, lastWrite_append, lastWrite_cons, lastWrite_nil, lastWrite_ite, name_append_inj]

/-- A name that only the master blocks and the orchestrator-specific step
write: the entry of the returned map. -/
theorem lookup_of_no_later_write {env : Collaborators} {cs : ContainerService} {g v : String}
    {m : paramsMap} (h : getParameters env cs g v = .ok m) {k : String}
    (hl : k ∉ writtenNames (laterWrites env cs))
    (hk : k ∉ writtenNames (kubernetesWrites env cs g v)) :
    lookupParam m k = lastWrite (masterWrites env cs v) k := by
  rw [lookup_getParameters h, (lastWrite_eq_none_iff _ _).2 hl, (lastWrite_eq_none_iff _ _).2 hk]
  simp

/-- The pools named `""` are the only later writers of the names of the
master's image entries. -/
theorem masterImageName_not_later {env : Collaborators} {cs : ContainerService} {s : String}
    (hs : s ∈ poolSuffixes) (hpools : ∀ ap ∈ cs.Properties.AgentPoolProfiles, ap.Name ≠ "") :
    "" ++ s ∉ writtenNames (laterWrites env cs) := by
  rw [← lastWrite_eq_none_iff, lastWrite_laterWrites, poolName_extensionWrites hs,
    poolName_windowsWrites hs, lastWrite_agentWrites_other hs hpools]
  rfl

/-! ## C3: a distro without an entry in the image table -/

/-- C3, as the code has it: `getParameters` has no `UnknownImageKey` failure;
the Go map read of a distro without entry yields the zero image config.  In
the returned map the four image entries of a master pool with such a distro
hold the empty string (when no pool is named `""` and the orchestrator-specific
step leaves the four names alone), and so do the four `{name}`-prefixed entries
of a non-Windows agent pool with such a distro that is the last of its name. -/
theorem unknown_distro_blank_entries (env : Collaborators) (cs : ContainerService)
    (g v : String) (m : paramsMap) (h : getParameters env cs g v = .ok m) :
    (∀ mp, cs.Properties.MasterProfile = some mp →
      (∀ e ∈ (env.GetCloudSpecConfig cs).OSImageConfig, e.1 ≠ mp.Distro) →
      (∀ ap ∈ cs.Properties.AgentPoolProfiles, ap.Name ≠ "") →
      (∀ k ∈ ["osImageOffer", "osImageSKU", "osImagePublisher", "osImageVersion"],
        k ∉ writtenNames (kubernetesWrites env cs g v)) →
      lookupParam m "osImageOffer" = some (.literal (.str "")) ∧
      lookupParam m "osImageSKU" = some (.literal (.str "")) ∧
      lookupParam m "osImagePublisher" = some (.literal (.str "")) ∧
      lookupParam m "osImageVersion" = some (.literal (.str ""))) ∧
    (∀ front q back, cs.Properties.AgentPoolProfiles = front ++ q :: back →
      (∀ ap ∈ back, ap.Name ≠ q.Name) → q.OSType ≠ OSType.Windows →
      (∀ e ∈ (env.GetCloudSpecConfig cs).OSImageConfig, e.1 ≠ q.Distro) →
      lookupParam m (q.Name ++ "osImageOffer") = some (.literal (.str "")) ∧
      lookupParam m (q.Name ++ "osImageSKU") = some (.literal (.str "")) ∧
      lookupParam m (q.Name ++ "osImagePublisher") = some (.literal (.str "")) ∧
      lookupParam m (q.Name ++ "osImageVersion") = some (.literal (.str ""))) := by
  constructor
  · intro mp hmp hd hpools hk
    obtain ⟨h1, h2, h3, h4⟩ := lastWrite_masterWrites_osImage env cs v mp hmp
    rw [osImageConfig_absent hd] at h1 h2 h3 h4
    have e1 : "osImageOffer" = "" ++ "osImageOffer" := by decide
    have e2 : "osImageSKU" = "" ++ "osImageSKU" := by decide
    have e3 : "osImagePublisher" = "" ++ "osImagePublisher" := by decide
    have e4 : "osImageVersion" = "" ++ "osImageVersion" := by decide
    refine ⟨?_, ?_, ?_, ?_⟩
    · rw [lookup_of_no_later_write h
        (e1 ▸ masterImageName_not_later (by decide) hpools) (hk _ (by decide)), h1]
      rfl
    · rw [lookup_of_no_later_write h
        (e2 ▸ masterImageName_not_later (by decide) hpools) (hk _ (by decide)), h2]
      rfl
    · rw [lookup_of_no_later_write h
        (e3 ▸ masterImageName_not_later (by decide) hpools) (hk _ (by decide)), h3]
      rfl
    · rw [lookup_of_no_later_write h
        (e4 ▸ masterImageName_not_later (by decide) hpools) (hk _ (by decide)), h4]
      rfl
  · intro front q back hpools hlast hq hd
    obtain ⟨h1, h2, h3, h4⟩ := lastWrite_agentPoolWrites_osImage (env.GetCloudSpecConfig cs) q hq
    rw [osImageConfig_absent hd] at h1 h2 h3 h4
    refine ⟨?_, ?_, ?_, ?_⟩
    · rw [lookup_poolName h (by decide), hpools, lastWrite_agentWrites_last (by decide) hlast, h1]
      rfl
    · rw [lookup_poolName h (by decide), hpools, lastWrite_agentWrites_last (by decide) hlast, h2]
      rfl
    · rw [lookup_poolName h (by decide), hpools, lastWrite_agentWrites_last (by decide) hlast, h3]
      rfl
    · rw [lookup_poolName h (by decide), hpools, lastWrite_agentWrites_last (by decide) hlast, h4]
      rfl

/-- C3 fails as stated: in `unknownDistroSpec` the master pool and the Linux
pool `pool1` name the distro `"coreos"`, which the image table does not have;
`getParameters` returns a map, in which `osImageOffer` and `pool1osImageOffer`
are the empty string. -/
theorem unknown_distro_returns_blank :
    (quietEnv.GetCloudSpecConfig unknownDistroSpec).OSImageConfig.find?
        (fun e => e.1 = "coreos") = none ∧
      ∃ m, getParameters quietEnv unknownDistroSpec "" "" = .ok m ∧
        lookupParam m "osImageOffer" = some (.literal (.str "")) ∧
        lookupParam m "pool1osImageOffer" = some (.literal (.str "")) :=
  ⟨by decide, _, rfl, by decide, by decide⟩

/-- The theorem `unknown_distro_blank_entries` at `unknownDistroSpec`. -/
theorem unknown_distro_blank_entries_witness :
    ∃ m, getParameters quietEnv unknownDistroSpec "" "" = .ok m ∧
      lookupParam m "osImageSKU" = some (.literal (.str "")) ∧
      lookupParam m ("pool1" ++ "osImageSKU") = some (.literal (.str "")) :=
  ⟨_, rfl,
    ((unknown_distro_blank_entries quietEnv unknownDistroSpec "" "" _ rfl).1 _ rfl
      (by decide) (by decide) (by decide)).2.1,
    ((unknown_distro_blank_entries quietEnv unknownDistroSpec "" "" _ rfl).2 [] _ [] rfl
      (by simp) (by decide) (by decide)).2.1⟩

/-! ## Who writes a pool name -/

theorem mem_agentWrites_poolName {c : AzureEnvironmentSpecConfig}
    {pools : List AgentPoolProfile} {s : String} (hs : s ∈ poolSuffixes) (n : String) :
    n ++ s ∈ writtenNames (agentWrites c pools) ↔
      ∃ q ∈ pools, q.Name = n ∧ (lastWrite (agentPoolWrites c q) (q.Name ++ s)).isSome = true := by
  rw [mem_writtenNames_agentWrites]
  constructor
  · rintro ⟨q, hq, hk⟩
    obtain ⟨t, ht, h⟩ := mem_writtenNames_agentPoolWrites hk
    obtain ⟨hn, -⟩ := poolName_inj hs ht h
    subst hn
    exact ⟨q, hq, rfl, (lastWrite_isSome_iff _ _).2 hk⟩
  · rintro ⟨q, hq, rfl, hk⟩
    exact ⟨q, hq, (lastWrite_isSome_iff _ _).1 hk⟩

theorem mem_masterWrites_poolName {env : Collaborators} {cs : ContainerService} {v s : String}
    (hs : s ∈ poolSuffixes) {n : String}
    (h : n ++ s ∈ writtenNames (masterWrites env cs v)) : n ++ s ∈ masterNames := by
  rcases allNames_masterWrites env cs v _ h with h1 | ⟨-, h1⟩
  · exact h1
  · rw [lastIsDigit_poolName hs] at h1
    exact Bool.noConfusion h1

/-- A pool name is in the returned map exactly when a pool of that name, the
orchestrator-specific step or a master block wrote it. -/
theorem hasParam_poolName {env : Collaborators} {cs : ContainerService} {g v : String}
    {m : paramsMap} (h : getParameters env cs g v = .ok m) {s : String} (hs : s ∈ poolSuffixes)
    (n : String) :
    hasParam m (n ++ s) = true ↔
      (∃ q ∈ cs.Properties.AgentPoolProfiles, q.Name = n ∧
        (lastWrite (agentPoolWrites (env.GetCloudSpecConfig cs) q) (q.Name ++ s)).isSome = true)
      ∨ n ++ s ∈ writtenNames (kubernetesWrites env cs g v)
      ∨ n ++ s ∈ writtenNames (masterWrites env cs v) := by
  rw [hasParam_getParameters h, ← mem_agentWrites_poolName hs]
  have hw : n ++ s ∉ writtenNames (windowsWrites env cs.Properties) :=
    (lastWrite_eq_none_iff _ _).1 (poolName_windowsWrites hs n _)
  have he : n ++ s ∉ writtenNames (extensionWrites cs.Properties.ExtensionProfiles) :=
    (lastWrite_eq_none_iff _ _).1 (poolName_extensionWrites hs n _)
  unfold laterWrites
  simp only [writtenNames_append, List.mem_append, hw, he, or_false]
  tauto

theorem lastWrite_agentPoolWrites_Subnet (c : AzureEnvironmentSpecConfig)
    (q : AgentPoolProfile) :
    lastWrite (agentPoolWrites c q) (q.Name ++ "Subnet") =
      if q.IsCustomVNET = true then none else some (.literal (.str q.Subnet)) := by
  unfold agentPoolWrites
  cases hir : q.ImageRef <;> cases hv : q.IsCustomVNET <;>
    simp [hir, hv, lastWrite_append, lastWrite_cons, lastWrite_nil, lastWrite_ite,
      name_append_inj]

theorem lastWrite_agentPoolWrites_VnetSubnetID (c : AzureEnvironmentSpecConfig)
    (q : AgentPoolProfile) :
    lastWrite (agentPoolWrites c q) (q.Name ++ "VnetSubnetID") =
      if q.IsCustomVNET = true then some (.literal (.str q.VnetSubnetID)) else none := by
  unfold agentPoolWrites
  cases hir : q.ImageRef <;> cases hv : q.IsCustomVNET <;>
    simp [hir, hv, lastWrite_append, lastWrite_cons, lastWrite_nil, lastWrite_ite,
      name_append_inj]

/-- The master names that end with `Subnet` are those of the pool names
`master` and `agent`. -/
theorem masterNames_Subnet :
    ∀ l ∈ masterNames, endsWith l "Subnet" = true →
      l = "master" ++ "Subnet" ∨ l = "agent" ++ "Subnet" := by
  decide

/-- The master names that end with `VnetSubnetID` are those of the pool names
`master` and `agent`. -/
theorem masterNames_VnetSubnetID :
    ∀ l ∈ masterNames, endsWith l "VnetSubnetID" = true →
      l = "master" ++ "VnetSubnetID" ∨ l = "agent" ++ "VnetSubnetID" := by
  decide

/-! ## C4: `{name}VnetSubnetID` and `{name}Subnet` -/

/-- C4, as the code has it: for every agent pool the returned map has the
name of the pool's network mode, `{name}VnetSubnetID` in custom-VNET mode and
`{name}Subnet` otherwise, so never neither of the two.  It has exactly that
one when every pool of the same name is in the same mode, the name is neither
`master` nor `agent`, and the orchestrator-specific step writes neither
name. -/
theorem agent_pool_subnet_names (env : Collaborators) (cs : ContainerService) (g v : String)
    (m : paramsMap) (ap : AgentPoolProfile) (h : getParameters env cs g v = .ok m)
    (hap : ap ∈ cs.Properties.AgentPoolProfiles) :
    hasParam m (ap.Name ++ (if ap.IsCustomVNET = true then "VnetSubnetID" else "Subnet")) = true ∧
    ((∀ q ∈ cs.Properties.AgentPoolProfiles, q.Name = ap.Name →
        q.IsCustomVNET = ap.IsCustomVNET) →
      ap.Name ≠ "master" → ap.Name ≠ "agent" →
      ap.Name ++ "VnetSubnetID" ∉ writtenNames (kubernetesWrites env cs g v) →
      ap.Name ++ "Subnet" ∉ writtenNames (kubernetesWrites env cs g v) →
      (hasParam m (ap.Name ++ "VnetSubnetID") = true ↔ ap.IsCustomVNET = true) ∧
      (hasParam m (ap.Name ++ "Subnet") = true ↔ ap.IsCustomVNET = false)) := by
  constructor
  · cases hv : ap.IsCustomVNET
    · simp only [Bool.false_eq_true, if_false]
      rw [hasParam_poolName h (by decide)]
      refine Or.inl ⟨ap, hap, rfl, ?_⟩
      rw [lastWrite_agentPoolWrites_Subnet, hv]
      rfl
    · simp only [if_true]
      rw [hasParam_poolName h (by decide)]
      refine Or.inl ⟨ap, hap, rfl, ?_⟩
      rw [lastWrite_agentPoolWrites_VnetSubnetID, hv]
      rfl
  · intro hsame hm ha hk1 hk2
    have hmaster : ∀ s ∈ ["Subnet", "VnetSubnetID"],
        ap.Name ++ s ∉ writtenNames (masterWrites env cs v) := by
      intro s hs hmem
      have hs' : s ∈ poolSuffixes := by
        rcases List.mem_cons.1 hs with rfl | hs
        · decide
        · rcases List.mem_cons.1 hs with rfl | hs
          · decide
          · exact absurd hs (List.not_mem_nil _)
      have hmn := mem_masterWrites_poolName hs' hmem
      have hcases : ap.Name ++ s = "master" ++ s ∨ ap.Name ++ s = "agent" ++ s := by
        rcases List.mem_cons.1 hs with rfl | hs
        · exact masterNames_Subnet _ hmn (endsWith_append _ _)
        · rcases List.mem_cons.1 hs with rfl | hs
          · exact masterNames_VnetSubnetID _ hmn (endsWith_append _ _)
          · exact absurd hs (List.not_mem_nil _)
      rcases hcases with hc | hc
      · exact hm (append_right_cancel hc)
      · exact ha (append_right_cancel hc)
    constructor
    · rw [hasParam_poolName h (by decide)]
      constructor
      · rintro (⟨q, hq, hn, hw⟩ | hx | hx)
        · rw [lastWrite_agentPoolWrites_VnetSubnetID] at hw
          rw [← hsame q hq hn]
          by_contra hc
          simp [hc] at hw
        · exact absurd hx hk1
        · exact absurd hx (hmaster _ (by decide))
      · intro hv
        refine Or.inl ⟨ap, hap, rfl, ?_⟩
        rw [lastWrite_agentPoolWrites_VnetSubnetID, hv]
        rfl
    · rw [hasParam_poolName h (by decide)]
      constructor
      · rintro (⟨q, hq, hn, hw⟩ | hx | hx)
        · rw [lastWrite_agentPoolWrites_Subnet] at hw
          rw [← hsame q hq hn]
          by_contra hc
          simp [hc] at hw
        · exact absurd hx hk2
        · exact absurd hx (hmaster _ (by decide))
      · intro hv
        refine Or.inl ⟨ap, hap, rfl, ?_⟩
        rw [lastWrite_agentPoolWrites_Subnet, hv]
        rfl

/-- C4 fails as stated: in `agentClashSpec` the only agent pool is named
`agent`, and the returned map has both `agentVnetSubnetID` (written for the
pool) and `agentSubnet` (written for the master pool). -/
theorem agent_pool_both_subnet_names :
    agentClashSpec.Properties.AgentPoolProfiles.map (fun ap => ap.Name) = ["agent"] ∧
      ∃ m, getParameters quietEnv agentClashSpec "" "" = .ok m ∧
        hasParam m "agentVnetSubnetID" = true ∧ hasParam m "agentSubnet" = true :=
  ⟨by decide, _, rfl, by decide, by decide⟩

/-- The theorem `agent_pool_subnet_names` at `onePoolSpec`: the map has
`pool1Subnet` and not `pool1VnetSubnetID`. -/
theorem agent_pool_subnet_names_witness :
    ∃ m, getParameters quietEnv onePoolSpec "" "" = .ok m ∧
      hasParam m ("pool1" ++ "Subnet") = true ∧
      ¬ hasParam m ("pool1" ++ "VnetSubnetID") = true :=
  ⟨_, rfl,
    (agent_pool_subnet_names quietEnv onePoolSpec "" "" _ (samplePool "pool1") rfl
      (by decide)).1,
    fun hx =>
      Bool.noConfusion
        ((((agent_pool_subnet_names quietEnv onePoolSpec "" "" _ (samplePool "pool1") rfl
          (by decide)).2 (by decide) (by decide) (by decide) (by decide) (by decide)).1).1 hx)⟩

/-! ## C5: the custom DNS server -/

/-- The entry `dnsServer` of the returned map: what the orchestrator-specific
step wrote under that name, and else the DNS server of the custom DNS block of
the Linux profile. -/
theorem lookup_dnsServer (env : Collaborators) (cs : ContainerService) (g v : String)
    (m : paramsMap) (h : getParameters env cs g v = .ok m) :
    lookupParam m "dnsServer" =
      (lastWrite (kubernetesWrites env cs g v) "dnsServer").or
        ((cs.Properties.LinuxProfile.bind (fun lp => lp.CustomNodesDNS)).map
          (fun dns => ParamValue.literal (.str dns.DNSServer))) := by
  have hp : plainName "dnsServer" = true := by decide
  rw [lookup_getParameters h, lastWrite_laterWrites, plainName_agentWrites hp,
    plainName_extensionWrites hp, plainName_windowsWrites hp (by decide),
    lastWrite_masterWrites, lastWrite_linuxKeyWrites_none (by decide) (by decide),
    lastWrite_masterProfileWrites_none (by decide),
    lastWrite_masterImageWrites_none (by decide)]
  unfold linuxAdminWrites
  cases hlp : cs.Properties.LinuxProfile with
  | none => simp [lastWrite_cons, lastWrite_nil]
  | some lp =>
    cases hdns : lp.CustomNodesDNS <;> simp [hdns, lastWrite_cons, lastWrite_nil]

/-- C5, as the code has it: line 42 tests whether the Linux profile has a
custom DNS block, not whether the DNS server is empty.  Where the
orchestrator-specific step does not write `dnsServer`, the returned map has
the entry `dnsServer` exactly when the Linux profile has a custom DNS block,
and the entry then holds the DNS server of the block, whatever its value, the
empty string included. -/
theorem dnsServer_entry (env : Collaborators) (cs : ContainerService) (g v : String)
    (m : paramsMap) (h : getParameters env cs g v = .ok m)
    (hkube : "dnsServer" ∉ writtenNames (kubernetesWrites env cs g v)) :
    (hasParam m "dnsServer" = true ↔
      ∃ lp dns, cs.Properties.LinuxProfile = some lp ∧ lp.CustomNodesDNS = some dns) ∧
    (∀ lp dns, cs.Properties.LinuxProfile = some lp → lp.CustomNodesDNS = some dns →
      lookupParam m "dnsServer" = some (.literal (.str dns.DNSServer))) := by
  have hl := lookup_dnsServer env cs g v m h
  rw [(lastWrite_eq_none_iff _ _).2 hkube] at hl
  constructor
  · unfold hasParam
    rw [hl]
    cases hlp : cs.Properties.LinuxProfile with
    | none => simp
    | some lp => cases hdns : lp.CustomNodesDNS <;> simp [hdns]
  · intro lp dns hlp hdns
    rw [hl, hlp]
    simp [hdns]

/-- C5 fails as stated: the Linux profile of `emptyDnsSpec` has the empty
string as custom DNS server, and the returned map has the entry `dnsServer`,
with the empty string as value. -/
theorem dnsServer_present_when_empty :
    (emptyDnsSpec.Properties.LinuxProfile.bind (fun lp => lp.CustomNodesDNS)).map
        (fun dns => dns.DNSServer) = some "" ∧
      ∃ m, getParameters quietEnv emptyDnsSpec "" "" = .ok m ∧
        lookupParam m "dnsServer" = some (.literal (.str "")) :=
  ⟨by decide, _, rfl, by decide⟩

/-- The theorem `dnsServer_entry` at `emptyDnsSpec`, whose custom DNS block
has the empty string as DNS server: the map has the entry `dnsServer`, with
the empty string as value. -/
theorem dnsServer_entry_witness :
    ∃ m, getParameters quietEnv emptyDnsSpec "" "" = .ok m ∧
      hasParam m "dnsServer" = true ∧
      lookupParam m "dnsServer" = some (.literal (.str "")) :=
  ⟨_, rfl,
    (dnsServer_entry quietEnv emptyDnsSpec "" "" _ rfl (by decide)).1.2
      ⟨{ sampleLinux with CustomNodesDNS := some { DNSServer := "" } }, { DNSServer := "" },
        rfl, rfl⟩,
    (dnsServer_entry quietEnv emptyDnsSpec "" "" _ rfl (by decide)).2
      { sampleLinux with CustomNodesDNS := some { DNSServer := "" } } { DNSServer := "" }
      rfl rfl⟩

/-! ## C6: the spot entries of a pool -/

theorem spot_condition (q : AgentPoolProfile) :
    (!q.IsAvailabilitySets && q.IsSpotScaleSet) = true ↔
      q.AvailabilityProfile = .ScaleSet ∧ q.ScaleSetPriority = "Spot" := by
  unfold AgentPoolProfile.IsAvailabilitySets AgentPoolProfile.IsSpotScaleSet
  cases q.AvailabilityProfile <;> simp

theorem lastWrite_agentPoolWrites_ScaleSetPriority (c : AzureEnvironmentSpecConfig)
    (q : AgentPoolProfile) :
    lastWrite (agentPoolWrites c q) (q.Name ++ "ScaleSetPriority") =
      if (!q.IsAvailabilitySets && q.IsSpotScaleSet) = true then
        some (.literal (.str q.ScaleSetPriority))
      else none := by
  unfold agentPoolWrites
  cases hir : q.ImageRef <;> cases hv : (!q.IsAvailabilitySets && q.IsSpotScaleSet) <;>
    simp [hir, hv, lastWrite_append, lastWrite_cons, lastWrite_nil, lastWrite_ite,
      name_append_inj]

theorem lastWrite_agentPoolWrites_ScaleSetEvictionPolicy (c : AzureEnvironmentSpecConfig)
    (q : AgentPoolProfile) :
    lastWrite (agentPoolWrites c q) (q.Name ++ "ScaleSetEvictionPolicy") =
      if (!q.IsAvailabilitySets && q.IsSpotScaleSet) = true then
        some (.literal (.str q.ScaleSetEvictionPolicy))
      else none := by
  unfold agentPoolWrites
  cases hir : q.ImageRef <;> cases hv : (!q.IsAvailabilitySets && q.IsSpotScaleSet) <;>
    simp [hir, hv, lastWrite_append, lastWrite_cons, lastWrite_nil, lastWrite_ite,
      name_append_inj]

/-- When no other pool has the name of `ap`, the agent-pool loop writes the
names of `ap` as the block of `ap` does. -/
theorem lastWrite_agentWrites_unique {c : AzureEnvironmentSpecConfig}
    {pools : List AgentPoolProfile} {ap : AgentPoolProfile} {s : String} (hs : s ∈ poolSuffixes)
    (hap : ap ∈ pools) (huniq : ∀ q ∈ pools, q.Name = ap.Name → q = ap) :
    lastWrite (agentWrites c pools) (ap.Name ++ s) =
      lastWrite (agentPoolWrites c ap) (ap.Name ++ s) := by
  induction pools with
  | nil => exact absurd hap (List.not_mem_nil _)
  | cons x rest ih =>
    have hrest : ∀ q ∈ rest, q.Name = ap.Name → q = ap :=
      fun q hq => huniq q (List.mem_cons_of_mem _ hq)
    have hx : lastWrite (agentPoolWrites c x) (ap.Name ++ s) =
        if x.Name = ap.Name then lastWrite (agentPoolWrites c ap) (ap.Name ++ s) else none := by
      by_cases hxn : x.Name = ap.Name
      · rw [if_pos hxn, huniq x (List.mem_cons_self _ _) hxn]
      · rw [if_neg hxn, lastWrite_eq_none_iff]
        intro hk
        obtain ⟨t, ht, hkt⟩ := mem_writtenNames_agentPoolWrites hk
        exact hxn (poolName_inj hs ht hkt).1.symm
    show lastWrite (agentPoolWrites c x ++ agentWrites c rest) (ap.Name ++ s) = _
    rw [lastWrite_append, hx]
    by_cases hmem : ap ∈ rest
    · rw [ih hmem hrest]
      cases lastWrite (agentPoolWrites c ap) (ap.Name ++ s) <;> by_cases hxn : x.Name = ap.Name <;>
        simp [hxn]
    · have hxa : x = ap := by
        rcases List.mem_cons.1 hap with hc | hc
        · exact hc.symm
        · exact absurd hc hmem
      have hnone : lastWrite (agentWrites c rest) (ap.Name ++ s) = none := by
        refine lastWrite_agentWrites_other hs ?_
        intro q hq hn
        exact hmem (hrest q hq hn ▸ hq)
      rw [hnone, hxa]
      simp

/-- No master name ends with a spot suffix. -/
theorem masterNames_spot :
    ∀ l ∈ masterNames, endsWith l "ScaleSetPriority" = false ∧
      endsWith l "ScaleSetEvictionPolicy" = false := by
  decide

/-- C6, as the code has it, for an agent pool that shares its name with no
other pool, and an orchestrator-specific step that does not write
`{name}ScaleSetPriority`: the returned map has `{name}ScaleSetPriority` if and
only if the pool is in scale-set mode with spot priority; then
`{name}ScaleSetPriority` and `{name}ScaleSetEvictionPolicy` hold the pool's
priority and eviction policy; for an availability-set pool the name is
absent. -/
theorem scaleSetPriority_entries (env : Collaborators) (cs : ContainerService) (g v : String)
    (m : paramsMap) (ap : AgentPoolProfile) (h : getParameters env cs g v = .ok m)
    (hap : ap ∈ cs.Properties.AgentPoolProfiles)
    (huniq : ∀ q ∈ cs.Properties.AgentPoolProfiles, q.Name = ap.Name → q = ap)
    (hk : ap.Name ++ "ScaleSetPriority" ∉ writtenNames (kubernetesWrites env cs g v)) :
    (hasParam m (ap.Name ++ "ScaleSetPriority") = true ↔
      ap.AvailabilityProfile = .ScaleSet ∧ ap.ScaleSetPriority = "Spot") ∧
    (ap.AvailabilityProfile = .ScaleSet → ap.ScaleSetPriority = "Spot" →
      lookupParam m (ap.Name ++ "ScaleSetPriority") = some (.literal (.str ap.ScaleSetPriority)) ∧
      lookupParam m (ap.Name ++ "ScaleSetEvictionPolicy") =
        some (.literal (.str ap.ScaleSetEvictionPolicy))) ∧
    (ap.AvailabilityProfile = .AvailabilitySet →
      hasParam m (ap.Name ++ "ScaleSetPriority") = false) := by
  have hiff : hasParam m (ap.Name ++ "ScaleSetPriority") = true ↔
      ap.AvailabilityProfile = .ScaleSet ∧ ap.ScaleSetPriority = "Spot" := by
    rw [← spot_condition, hasParam_poolName h (by decide)]
    constructor
    · rintro (⟨q, hq, hn, hw⟩ | hx | hx)
      · rw [huniq q hq hn, lastWrite_agentPoolWrites_ScaleSetPriority] at hw
        by_contra hc
        simp [hc] at hw
      · exact absurd hx hk
      · have := (masterNames_spot _ (mem_masterWrites_poolName (by decide) hx)).1
        rw [endsWith_append] at this
        exact Bool.noConfusion this
    · intro hc
      refine Or.inl ⟨ap, hap, rfl, ?_⟩
      rw [lastWrite_agentPoolWrites_ScaleSetPriority, if_pos hc]
      rfl
  refine ⟨hiff, ?_, ?_⟩
  · intro h1 h2
    have hc := (spot_condition ap).2 ⟨h1, h2⟩
    constructor
    · rw [lookup_poolName h (by decide), lastWrite_agentWrites_unique (by decide) hap huniq,
        lastWrite_agentPoolWrites_ScaleSetPriority, if_pos hc]
      rfl
    · rw [lookup_poolName h (by decide), lastWrite_agentWrites_unique (by decide) hap huniq,
        lastWrite_agentPoolWrites_ScaleSetEvictionPolicy, if_pos hc]
      rfl
  · intro h1
    cases hp : hasParam m (ap.Name ++ "ScaleSetPriority") with
    | false => rfl
    | true =>
      have := (hiff.1 hp).1
      rw [h1] at this
      exact Placement.noConfusion this

/-- C6 fails as stated: the second agent pool of `spotClashSpec` is an
availability-set pool named `pool1`, and the returned map has the entry
`pool1ScaleSetPriority`, written for the first pool of that name. -/
theorem scaleSetPriority_present_for_availability_set :
    spotClashSpec.Properties.AgentPoolProfiles.map
        (fun ap => (ap.Name, ap.AvailabilityProfile)) =
      [("pool1", .ScaleSet), ("pool1", .AvailabilitySet)] ∧
      ∃ m, getParameters quietEnv spotClashSpec "" "" = .ok m ∧
        hasParam m "pool1ScaleSetPriority" = true :=
  ⟨by decide, _, rfl, by decide⟩

/-- The theorem `scaleSetPriority_entries` at scenario B: the map has
`pool1ScaleSetPriority = "Spot"` and `pool1ScaleSetEvictionPolicy = "Delete"`. -/
theorem scaleSetPriority_entries_witness :
    ∃ m, getParameters quietEnv spotSpec "" "" = .ok m ∧
      lookupParam m ("pool1" ++ "ScaleSetPriority") = some (.literal (.str "Spot")) ∧
      lookupParam m ("pool1" ++ "ScaleSetEvictionPolicy") = some (.literal (.str "Delete")) :=
  ⟨_, rfl,
    (scaleSetPriority_entries quietEnv spotSpec "" "" _ spotPool rfl (by decide) (by decide)
      (by decide)).2.1 rfl rfl⟩

/-! ## C7: the place of the orchestrator-specific step -/

/-- C7, as the code has it: the orchestrator-specific step runs at line 82,
after the master and Linux blocks and before the agent-pool, Windows and
extension blocks.  A name it writes holds its value in the returned map,
whatever the master blocks wrote, unless a later block writes the name; a name
that a later block writes holds the value of the later block, also when the
orchestrator-specific step wrote it. -/
theorem orchestrator_step_order (env : Collaborators) (cs : ContainerService) (g v : String)
    (m : paramsMap) (k : String) (h : getParameters env cs g v = .ok m) :
    (∀ x, lastWrite (kubernetesWrites env cs g v) k = some x →
      k ∉ writtenNames (laterWrites env cs) → lookupParam m k = some x) ∧
    (∀ y, lastWrite (laterWrites env cs) k = some y → lookupParam m k = some y) := by
  constructor
  · intro x hx hl
    rw [lookup_getParameters h, (lastWrite_eq_none_iff _ _).2 hl, hx]
    rfl
  · intro y hy
    rw [lookup_getParameters h, hy]
    rfl

/-- C7 fails as stated: with `loudEnv` the orchestrator-specific step writes
`pool1Count = 99`, the agent-pool loop writes `pool1Count` for the pool of 3
machines, and the returned map holds 3. -/
theorem orchestrator_step_overridden_by_pool :
    lastWrite (kubernetesWrites loudEnv masterAndPoolSpec "" "") "pool1Count" =
        some (.literal (.int 99)) ∧
      ∃ m, getParameters loudEnv masterAndPoolSpec "" "" = .ok m ∧
        lookupParam m "pool1Count" = some (.literal (.int 3)) :=
  ⟨by decide, _, rfl, by decide⟩

/-- The theorem `orchestrator_step_order` at `loudEnv`: `masterVMSize` holds
the orchestrator's value, not the master pool's. -/
theorem orchestrator_step_order_witness :
    ∃ m, getParameters loudEnv masterAndPoolSpec "" "" = .ok m ∧
      lookupParam m "masterVMSize" = some (.literal (.str "fromOrchestrator")) :=
  ⟨_, rfl,
    (orchestrator_step_order loudEnv masterAndPoolSpec "" "" _ "masterVMSize" rfl).1 _
      (by decide) (by decide)⟩

/-! ## C8: the names that are always written -/

/-- C8, as the code has it: the returned map always has `location`,
`aksEngineVersion`, `fqdnEndpointSuffix` and `targetEnvironment`; it has
`masterVMSize`, `masterEndpointDNSNamePrefix` and `firstConsecutiveStaticIP`
when the cluster spec has a master pool (lines 46-69 are guarded by
`MasterProfile != nil`). -/
theorem always_written_names (env : Collaborators) (cs : ContainerService) (g v : String)
    (m : paramsMap) (h : getParameters env cs g v = .ok m) :
    (hasParam m "location" = true ∧ hasParam m "aksEngineVersion" = true ∧
      hasParam m "fqdnEndpointSuffix" = true ∧ hasParam m "targetEnvironment" = true) ∧
    (cs.Properties.MasterProfile.isSome = true →
      hasParam m "masterVMSize" = true ∧ hasParam m "masterEndpointDNSNamePrefix" = true ∧
      hasParam m "firstConsecutiveStaticIP" = true) := by
  have hin : ∀ k, k ∈ writtenNames (masterWrites env cs v) → hasParam m k = true :=
    fun k hk => (hasParam_getParameters h k).2 (Or.inl hk)
  refine ⟨⟨?_, ?_, ?_, ?_⟩, ?_⟩
  · exact hin _ (by simp [masterWrites, writtenNames])
  · exact hin _ (by simp [masterWrites, writtenNames])
  · exact hin _ (by simp [masterWrites, writtenNames])
  · exact hin _ (by simp [masterWrites, writtenNames])
  · intro hmp
    cases hmp' : cs.Properties.MasterProfile with
    | none => simp [hmp'] at hmp
    | some mp =>
      have hprof : ∀ k, k ∈ writtenNames (masterProfileWrites cs.Properties) →
          hasParam m k = true := by
        intro k hk
        refine hin k ?_
        unfold masterWrites
        simp only [writtenNames_append, List.mem_append]
        exact Or.inl (Or.inr hk)
      refine ⟨?_, ?_, ?_⟩ <;>
      · refine hprof _ ?_
        unfold masterProfileWrites
        rw [hmp']
        simp [writtenNames]

/-- C8 fails as stated: `emptySpec` has no master pool, and the returned map
has none of `masterVMSize`, `masterEndpointDNSNamePrefix` and
`firstConsecutiveStaticIP`. -/
theorem master_names_absent_without_master_pool :
    emptySpec.Properties.MasterProfile = none ∧
      ∃ m, getParameters quietEnv emptySpec "" "" = .ok m ∧
        hasParam m "masterVMSize" = false ∧ hasParam m "masterEndpointDNSNamePrefix" = false ∧
        hasParam m "firstConsecutiveStaticIP" = false :=
  ⟨rfl, _, rfl, by decide, by decide, by decide⟩

/-- The theorem `always_written_names` at `masterAndPoolSpec`. -/
theorem always_written_names_witness :
    ∃ m, getParameters quietEnv masterAndPoolSpec "" "" = .ok m ∧
      hasParam m "location" = true ∧ hasParam m "masterVMSize" = true :=
  ⟨_, rfl,
    (always_written_names quietEnv masterAndPoolSpec "" "" _ rfl).1.1,
    ((always_written_names quietEnv masterAndPoolSpec "" "" _ rfl).2 rfl).1⟩

/-! ## C9: the Windows image source -/

/-- The names of the Windows image source are written by no block but
`windowsImageParameters`. -/
theorem windowsImageNames_table :
    ∀ k ∈ windowsImageNames, plainName k = true ∧ k ∉ masterNames ∧
      k ∉ ["windowsAdminUsername", "windowsAdminPassword", "windowsDockerVersion",
        "defaultContainerdRuntimeHandler", "hypervRuntimeHandlers"] := by
  decide

/-- A name of the Windows image source is in the returned map exactly when
`windowsImageParameters` wrote it, if the orchestrator-specific step did
not. -/
theorem hasParam_windowsImageName {env : Collaborators} {cs : ContainerService} {g v : String}
    {m : paramsMap} {w : WindowsProfile} (hw : cs.Properties.WindowsProfile = some w)
    (h : getParameters env cs g v = .ok m) {k : String} (hk : k ∈ windowsImageNames)
    (hkube : k ∉ writtenNames (kubernetesWrites env cs g v)) :
    hasParam m k = true ↔ k ∈ writtenNames (windowsImageWrites w) := by
  obtain ⟨hp, hm, hfixed⟩ := windowsImageNames_table k hk
  have h1 : k ∉ writtenNames (masterWrites env cs v) :=
    (lastWrite_eq_none_iff _ _).1 (plainName_masterWrites hp hm env cs v)
  have h2 : k ∉ writtenNames (agentWrites (env.GetCloudSpecConfig cs)
      cs.Properties.AgentPoolProfiles) :=
    (lastWrite_eq_none_iff _ _).1 (plainName_agentWrites hp _ _)
  have h3 : k ∉ writtenNames (extensionWrites cs.Properties.ExtensionProfiles) :=
    (lastWrite_eq_none_iff _ _).1 (plainName_extensionWrites hp _)
  have h4 : k ∉ writtenNames (windowsSecretWrites w.Secrets 0) :=
    (lastWrite_eq_none_iff _ _).1 (plainName_windowsSecretWrites hp _ _)
  rw [hasParam_getParameters h]
  unfold laterWrites windowsWrites
  rw [hw]
  simp only [writtenNames_append, List.mem_append, h1, h2, h3, h4, hkube, false_or, or_false]
  simp only [List.mem_cons, List.mem_singleton, List.not_mem_nil, or_false, not_or] at hfixed
  obtain ⟨f1, f2, f3, f4, f5⟩ := hfixed
  cases hpw : env.secretEntry "windowsAdminPassword" w.AdminPassword false <;>
    simp [hpw, writtenNames, f1, f2, f3, f4, f5]

/-- C9: for a cluster spec with a Windows profile, where the
orchestrator-specific step, which is outside the source file, writes none of
the seven names of the Windows image source, the source is resolved in
priority order and exclusively.  With
a custom image URL, `agentWindowsSourceUrl` is the only one of the seven names
in the returned map, also when an image reference is set; else, with an image
reference, exactly the two image-reference names are; else exactly the four
marketplace names are. -/
theorem windows_image_source (env : Collaborators) (cs : ContainerService) (g v : String)
    (m : paramsMap) (w : WindowsProfile) (hw : cs.Properties.WindowsProfile = some w)
    (h : getParameters env cs g v = .ok m)
    (hkube : ∀ k ∈ windowsImageNames, k ∉ writtenNames (kubernetesWrites env cs g v)) :
    (w.WindowsImageSourceURL ≠ "" →
      ∀ k ∈ windowsImageNames, (hasParam m k = true ↔ k = "agentWindowsSourceUrl")) ∧
    (w.WindowsImageSourceURL = "" → w.ImageRef ≠ none →
      ∀ k ∈ windowsImageNames,
        (hasParam m k = true ↔
          k ∈ ["agentWindowsImageResourceGroup", "agentWindowsImageName"])) ∧
    (w.WindowsImageSourceURL = "" → w.ImageRef = none →
      ∀ k ∈ windowsImageNames,
        (hasParam m k = true ↔
          k ∈ ["agentWindowsPublisher", "agentWindowsOffer", "agentWindowsSku",
            "agentWindowsVersion"])) := by
  refine ⟨?_, ?_, ?_⟩
  · intro hurl k hk
    rw [hasParam_windowsImageName hw h hk (hkube k hk)]
    unfold windowsImageWrites WindowsProfile.HasCustomImage
    simp [hurl, writtenNames]
  · intro hurl href k hk
    rw [hasParam_windowsImageName hw h hk (hkube k hk)]
    unfold windowsImageWrites WindowsProfile.HasCustomImage WindowsProfile.HasImageRef
    cases hr : w.ImageRef with
    | none => exact absurd hr href
    | some ref => simp [hurl, writtenNames]
  · intro hurl href k hk
    rw [hasParam_windowsImageName hw h hk (hkube k hk)]
    unfold windowsImageWrites WindowsProfile.HasCustomImage WindowsProfile.HasImageRef
    simp [hurl, href, writtenNames]

/-- The theorem `windows_image_source` at scenario D: the map has
`agentWindowsSourceUrl` and not `agentWindowsImageName`. -/
theorem windows_image_source_witness :
    ∃ m, getParameters quietEnv bothSourcesSpec "" "" = .ok m ∧
      hasParam m "agentWindowsSourceUrl" = true ∧
      ¬ hasParam m "agentWindowsImageName" = true :=
  ⟨_, rfl,
    (((windows_image_source quietEnv bothSourcesSpec "" "" _ bothSourcesWindows rfl rfl
      (by decide)).1 (by decide)) _ (by decide)).2 rfl,
    fun hx => absurd
      ((((windows_image_source quietEnv bothSourcesSpec "" "" _ bothSourcesWindows rfl rfl
        (by decide)).1 (by decide)) _ (by decide)).1 hx) (by decide)⟩

/-! ## The indexed names of the Linux secret bundles -/

/-- Two lists that start with digits and go on with a character that is no
digit split at the same place. -/
theorem digits_split {a a' r r' : List Char} {c c' : Char}
    (ha : ∀ x ∈ a, x.isDigit = true) (ha' : ∀ x ∈ a', x.isDigit = true)
    (hc : c.isDigit = false) (hc' : c'.isDigit = false)
    (h : a ++ c :: r = a' ++ c' :: r') : a = a' ∧ c :: r = c' :: r' := by
  induction a generalizing a' with
  | nil =>
    cases a' with
    | nil => exact ⟨rfl, h⟩
    | cons y t =>
      simp only [List.nil_append, List.cons_append, List.cons.injEq] at h
      have := ha' y (List.mem_cons_self _ _)
      rw [← h.1, hc] at this
      exact Bool.noConfusion this
  | cons x t ih =>
    cases a' with
    | nil =>
      simp only [List.nil_append, List.cons_append, List.cons.injEq] at h
      have := ha x (List.mem_cons_self _ _)
      rw [h.1, hc'] at this
      exact Bool.noConfusion this
    | cons y t' =>
      simp only [List.cons_append, List.cons.injEq] at h
      obtain ⟨h1, h2⟩ := ih (fun z hz => ha z (List.mem_cons_of_mem _ hz))
        (fun z hz => ha' z (List.mem_cons_of_mem _ hz)) h.2
      exact ⟨by rw [h.1, h1], h2⟩

theorem linuxVaultName_data (i : Nat) :
    (linuxVaultName i).data = "linuxKeyVaultID".data ++ (fmtInt i).data := by
  simp [linuxVaultName, String.data_append]

theorem linuxCertificateName_data (i j : Nat) :
    (linuxCertificateName i j).data =
      "linuxKeyVaultID".data ++ ((fmtInt i).data ++ 'C' :: ("ertificateURL".data ++ (fmtInt j).data))
      := by
  have : ("CertificateURL" : String).data = 'C' :: "ertificateURL".data := by decide
  simp [linuxCertificateName, String.data_append, this]

theorem linuxVaultName_inj {i i' : Nat} (h : linuxVaultName i = linuxVaultName i') : i = i' := by
  have := congrArg String.data h
  rw [linuxVaultName_data, linuxVaultName_data] at this
  exact fmtInt_injective (String.ext_iff.2 (List.append_cancel_left this))

theorem linuxCertificateName_inj {i j i' j' : Nat}
    (h : linuxCertificateName i j = linuxCertificateName i' j') : i = i' ∧ j = j' := by
  have := congrArg String.data h
  rw [linuxCertificateName_data, linuxCertificateName_data] at this
  obtain ⟨h1, h2⟩ := digits_split (fmtInt_spec i).2.2 (fmtInt_spec i').2.2 (by decide) (by decide)
    (List.append_cancel_left this)
  refine ⟨fmtInt_injective (String.ext_iff.2 h1), fmtInt_injective (String.ext_iff.2 ?_)⟩
  exact List.append_cancel_left (List.cons.inj h2).2

theorem linuxVaultName_ne_certificateName (i i' j' : Nat) :
    linuxVaultName i ≠ linuxCertificateName i' j' := by
  intro h
  have := congrArg String.data h
  rw [linuxVaultName_data, linuxCertificateName_data] at this
  have h1 := List.append_cancel_left this
  have hmem : 'C' ∈ (fmtInt i).data := by
    rw [h1]
    simp
  have := (fmtInt_spec i).2.2 _ hmem
  exact absurd this (by decide)

theorem allNames_linuxCertificateWrites_index (i : Nat) (cs : List KeyVaultCertificate)
    (j₀ : Nat) :
    AllNames (fun k => ∃ j, j₀ ≤ j ∧ k = linuxCertificateName i j)
      (linuxCertificateWrites i cs j₀) := by
  induction cs generalizing j₀ with
  | nil => exact AllNames.nil _
  | cons c rest ih =>
    refine AllNames.cons ⟨j₀, Nat.le_refl _, rfl⟩ (AllNames.mono ?_ (ih (j₀ + 1)))
    rintro k ⟨j, hj, rfl⟩
    exact ⟨j, by omega, rfl⟩

theorem allNames_linuxSecretWrites_index (ss : List KeyVaultSecrets) (i₀ : Nat) :
    AllNames (fun k => ∃ i, i₀ ≤ i ∧ (k = linuxVaultName i ∨ ∃ j, k = linuxCertificateName i j))
      (linuxSecretWrites ss i₀) := by
  induction ss generalizing i₀ with
  | nil => exact AllNames.nil _
  | cons b rest ih =>
    refine AllNames.cons ⟨i₀, Nat.le_refl _, Or.inl rfl⟩ (AllNames.append ?_ ?_)
    · refine AllNames.mono ?_ (allNames_linuxCertificateWrites_index i₀ b.VaultCertificates 0)
      rintro k ⟨j, -, rfl⟩
      exact ⟨i₀, Nat.le_refl _, Or.inr ⟨j, rfl⟩⟩
    · refine AllNames.mono ?_ (ih (i₀ + 1))
      rintro k ⟨i, hi, hk⟩
      exact ⟨i, by omega, hk⟩

theorem nodup_linuxCertificateWrites (i : Nat) (cs : List KeyVaultCertificate) (j₀ : Nat) :
    (writtenNames (linuxCertificateWrites i cs j₀)).Nodup := by
  induction cs generalizing j₀ with
  | nil => exact List.nodup_nil
  | cons c rest ih =>
    show (linuxCertificateName i j₀ :: writtenNames (linuxCertificateWrites i rest (j₀ + 1))).Nodup
    refine List.nodup_cons.2 ⟨?_, ih (j₀ + 1)⟩
    intro hmem
    obtain ⟨j, hj, hk⟩ := allNames_linuxCertificateWrites_index i rest (j₀ + 1) _ hmem
    have := (linuxCertificateName_inj hk).2
    omega

theorem nodup_linuxSecretWrites (ss : List KeyVaultSecrets) (i₀ : Nat) :
    (writtenNames (linuxSecretWrites ss i₀)).Nodup := by
  induction ss generalizing i₀ with
  | nil => exact List.nodup_nil
  | cons b rest ih =>
    show (linuxVaultName i₀ :: writtenNames
      (linuxCertificateWrites i₀ b.VaultCertificates 0 ++ linuxSecretWrites rest (i₀ + 1))).Nodup
    rw [writtenNames_append]
    refine List.nodup_cons.2 ⟨?_, List.Nodup.append (nodup_linuxCertificateWrites _ _ _)
      (ih (i₀ + 1)) ?_⟩
    · intro hmem
      rcases List.mem_append.1 hmem with hc | hr
      · obtain ⟨j, -, hk⟩ := allNames_linuxCertificateWrites_index i₀ b.VaultCertificates 0 _ hc
        exact linuxVaultName_ne_certificateName _ _ _ hk
      · obtain ⟨i, hi, hk | ⟨j, hk⟩⟩ := allNames_linuxSecretWrites_index rest (i₀ + 1) _ hr
        · have := linuxVaultName_inj hk
          omega
        · exact linuxVaultName_ne_certificateName _ _ _ hk
    · intro k hc hr
      obtain ⟨j, -, rfl⟩ := allNames_linuxCertificateWrites_index i₀ b.VaultCertificates 0 _ hc
      obtain ⟨i, hi, hk | ⟨j', hk⟩⟩ := allNames_linuxSecretWrites_index rest (i₀ + 1) _ hr
      · exact linuxVaultName_ne_certificateName _ _ _ hk.symm
      · have := (linuxCertificateName_inj hk).1
        omega

theorem length_linuxCertificateWrites (i : Nat) (cs : List KeyVaultCertificate) (j₀ : Nat) :
    (linuxCertificateWrites i cs j₀).length = cs.length := by
  induction cs generalizing j₀ with
  | nil => rfl
  | cons c rest ih => simp [linuxCertificateWrites, ih]

theorem length_linuxSecretWrites (ss : List KeyVaultSecrets) (i₀ : Nat) :
    (linuxSecretWrites ss i₀).length =
      ss.length + (ss.map (fun b => b.VaultCertificates.length)).sum := by
  induction ss generalizing i₀ with
  | nil => rfl
  | cons b rest ih =>
    simp [linuxSecretWrites, ih, length_linuxCertificateWrites]
    omega

theorem mem_linuxCertificateWrites (i : Nat) (cs : List KeyVaultCertificate) (j₀ j : Nat)
    (c : KeyVaultCertificate) (hc : cs[j]? = some c) :
    (linuxCertificateName i (j₀ + j), ParamValue.literal (.str c.CertificateURL)) ∈
      linuxCertificateWrites i cs j₀ := by
  induction cs generalizing j₀ j with
  | nil => simp at hc
  | cons x rest ih =>
    cases j with
    | zero =>
      simp only [List.getElem?_cons_zero, Option.some.injEq] at hc
      subst hc
      exact List.mem_cons_self _ _
    | succ j =>
      simp only [List.getElem?_cons_succ] at hc
      have := ih (j₀ + 1) j hc
      rw [show j₀ + 1 + j = j₀ + (j + 1) by omega] at this
      exact List.mem_cons_of_mem _ this

theorem mem_linuxSecretWrites_vault (ss : List KeyVaultSecrets) (i₀ i : Nat)
    (b : KeyVaultSecrets) (hb : ss[i]? = some b) :
    (linuxVaultName (i₀ + i), ParamValue.literal (.str b.SourceVaultID)) ∈
      linuxSecretWrites ss i₀ := by
  induction ss generalizing i₀ i with
  | nil => simp at hb
  | cons x rest ih =>
    cases i with
    | zero =>
      simp only [List.getElem?_cons_zero, Option.some.injEq] at hb
      subst hb
      exact List.mem_cons_self _ _
    | succ i =>
      simp only [List.getElem?_cons_succ] at hb
      have := ih (i₀ + 1) i hb
      rw [show i₀ + 1 + i = i₀ + (i + 1) by omega] at this
      exact List.mem_cons_of_mem _ (List.mem_append_right _ this)

theorem mem_linuxSecretWrites_certificate (ss : List KeyVaultSecrets) (i₀ i j : Nat)
    (b : KeyVaultSecrets) (c : KeyVaultCertificate) (hb : ss[i]? = some b)
    (hc : b.VaultCertificates[j]? = some c) :
    (linuxCertificateName (i₀ + i) j, ParamValue.literal (.str c.CertificateURL)) ∈
      linuxSecretWrites ss i₀ := by
  induction ss generalizing i₀ i with
  | nil => simp at hb
  | cons x rest ih =>
    cases i with
    | zero =>
      simp only [List.getElem?_cons_zero, Option.some.injEq] at hb
      subst hb
      have := mem_linuxCertificateWrites i₀ x.VaultCertificates 0 j c hc
      rw [Nat.zero_add] at this
      exact List.mem_cons_of_mem _ (List.mem_append_left _ this)
    | succ i =>
      simp only [List.getElem?_cons_succ] at hb
      have := ih (i₀ + 1) i hb
      rw [show i₀ + 1 + i = i₀ + (i + 1) by omega] at this
      exact List.mem_cons_of_mem _ (List.mem_append_right _ this)

/-- In a list of writes with pairwise distinct names, a write is the last
write to its name. -/
theorem lastWrite_of_mem_nodup {w : List (String × ParamValue)} {k : String} {x : ParamValue}
    (hn : (writtenNames w).Nodup) (hmem : (k, x) ∈ w) : lastWrite w k = some x := by
  induction w with
  | nil => exact absurd hmem (List.not_mem_nil _)
  | cons e t ih =>
    obtain ⟨a, b⟩ := e
    have hn' := List.nodup_cons.1 hn
    rw [lastWrite_cons]
    rcases List.mem_cons.1 hmem with h | h
    · obtain ⟨rfl, rfl⟩ := Prod.mk.inj h
      rw [(lastWrite_eq_none_iff _ _).2 hn'.1]
      simp
    · rw [ih hn'.2 h]
      rfl

/-! ## C10: the entries of the Linux secret bundles -/

/-- No fixed name starts like the name of a Linux secret bundle. -/
theorem fixedNames_not_linuxShape :
    (∀ l ∈ masterNames, startsWith l "linuxKeyVaultID" = false) ∧
      (∀ l ∈ windowsNames, startsWith l "linuxKeyVaultID" = false) ∧
      startsWith "windowsKeyVaultID" "linuxKeyVaultID" = false := by
  decide

/-- The later blocks write no name with the shape of a Linux secret name. -/
theorem linuxShape_not_later {k : String} (hk : linuxSecretShape k) (env : Collaborators)
    (cs : ContainerService) : k ∉ writtenNames (laterWrites env cs) := by
  obtain ⟨h1, h2⟩ := hk
  unfold laterWrites
  simp only [writtenNames_append, List.mem_append, not_or]
  refine ⟨⟨?_, ?_⟩, ?_⟩
  · rw [mem_writtenNames_agentWrites]
    rintro ⟨ap, -, hmem⟩
    obtain ⟨s, hs, rfl⟩ := mem_writtenNames_agentPoolWrites hmem
    rw [lastIsDigit_poolName hs] at h2
    exact Bool.noConfusion h2
  · intro hmem
    rcases allNames_windowsWrites cs.Properties _ hmem with hw | ⟨hw, -⟩
    · rw [fixedNames_not_linuxShape.2.1 _ hw] at h1
      exact Bool.noConfusion h1
    · have := startsWith_of_startsWith h1 hw (by decide)
      rw [fixedNames_not_linuxShape.2.2] at this
      exact Bool.noConfusion this
  · rw [mem_writtenNames_extensionWrites]
    rintro ⟨e, -, rfl⟩
    rw [lastIsDigit_extensionName] at h2
    exact Bool.noConfusion h2

/-- Among the master blocks, only the loop over the secret bundles writes
a name that starts like the name of a Linux secret bundle. -/
theorem mem_masterWrites_linuxShape {env : Collaborators} {cs : ContainerService} {v k : String}
    {lp : LinuxProfile} (hlp : cs.Properties.LinuxProfile = some lp)
    (hk : startsWith k "linuxKeyVaultID" = true)
    (hmem : k ∈ writtenNames (masterWrites env cs v)) :
    k ∈ writtenNames (linuxSecretWrites lp.Secrets 0) := by
  have hfix : ∀ l ∈ masterNames, k ≠ l := by
    intro l hl hkl
    rw [hkl, fixedNames_not_linuxShape.1 l hl] at hk
    exact Bool.noConfusion hk
  unfold masterWrites at hmem
  simp only [writtenNames_append, List.mem_append] at hmem
  rcases hmem with ((((hm | hm) | hm) | hm) | hm) | hm
  · simp only [writtenNames, List.map_cons, List.map_nil, List.mem_cons, List.mem_singleton,
      List.not_mem_nil, or_false] at hm
    rcases hm with rfl | rfl
    · exact absurd rfl (hfix _ (by decide))
    · exact absurd rfl (hfix _ (by decide))
  · have := allNames_masterImageWrites _ _ _ hm
    exact absurd rfl (hfix k (by revert this; unfold masterImageNames masterNames; simp; tauto))
  · simp only [writtenNames, List.map_cons, List.map_nil, List.mem_cons, List.mem_singleton,
      List.not_mem_nil, or_false] at hm
    rcases hm with rfl | rfl
    · exact absurd rfl (hfix _ (by decide))
    · exact absurd rfl (hfix _ (by decide))
  · have := allNames_linuxAdminWrites _ _ hm
    exact absurd rfl (hfix k (by revert this; unfold masterNames; simp; tauto))
  · have := allNames_masterProfileWrites _ _ hm
    exact absurd rfl (hfix k (by revert this; unfold masterProfileNames masterNames; simp; tauto))
  · unfold linuxKeyWrites at hm
    rw [hlp] at hm
    cases hkeys : lp.PublicKeys with
    | nil => simp [hkeys, writtenNames] at hm
    | cons key rest =>
      simp only [hkeys, writtenNames_cons, List.mem_cons] at hm
      rcases hm with rfl | hm
      · exact absurd rfl (hfix _ (by decide))
      · exact hm

theorem linuxSecretShape_vaultName (i : Nat) : linuxSecretShape (linuxVaultName i) := by
  have := linuxSecretShape_mk "" i
  simpa [linuxVaultName] using this

theorem linuxSecretShape_certificateName (i j : Nat) :
    linuxSecretShape (linuxCertificateName i j) := by
  have := linuxSecretShape_mk (fmtInt i ++ "CertificateURL") j
  simpa [linuxCertificateName, String.append_assoc] using this

/-- Every write of the loop over the Linux secret bundles is in the returned
map, when the orchestrator-specific step writes no name that starts with
`linuxKeyVaultID`. -/
theorem lookup_linuxSecretWrites {env : Collaborators} {cs : ContainerService} {g v : String}
    {m : paramsMap} {lp : LinuxProfile} (hlp : cs.Properties.LinuxProfile = some lp)
    (h : getParameters env cs g v = .ok m)
    (hkube : ∀ k ∈ writtenNames (kubernetesWrites env cs g v),
      startsWith k "linuxKeyVaultID" = false)
    {k : String} {x : ParamValue} (hmem : (k, x) ∈ linuxSecretWrites lp.Secrets 0) :
    lookupParam m k = some x := by
  have hnames : k ∈ writtenNames (linuxSecretWrites lp.Secrets 0) :=
    List.mem_map.2 ⟨(k, x), hmem, rfl⟩
  have hshape := allNames_linuxSecretWrites _ _ k hnames
  have hk : k ∉ writtenNames (kubernetesWrites env cs g v) := by
    intro hc
    have := hkube k hc
    rw [hshape.1] at this
    exact Bool.noConfusion this
  have hkey : lastWrite (linuxKeyWrites cs.Properties) k = some x := by
    have hfirst := (getParameters_ok_iff env cs g v).1 ⟨m, h⟩
    unfold hasFirstKey at hfirst
    unfold linuxKeyWrites
    rw [hlp] at hfirst ⊢
    cases hkeys : lp.PublicKeys with
    | nil => simp [hkeys] at hfirst
    | cons key rest =>
      simp only [hkeys, lastWrite_cons,
        lastWrite_of_mem_nodup (nodup_linuxSecretWrites lp.Secrets 0) hmem]
      rfl
  rw [lookup_getParameters h, (lastWrite_eq_none_iff _ _).2 (linuxShape_not_later hshape env cs),
    (lastWrite_eq_none_iff _ _).2 hk, lastWrite_masterWrites, hkey]
  rfl

/-- C10: for a cluster spec with a Linux profile, where the
orchestrator-specific step writes no name that starts with `linuxKeyVaultID`:
the returned map has `linuxKeyVaultID{i}` = the vault ID of bundle `i` and
`linuxKeyVaultID{i}CertificateURL{j}` = the URL of certificate `j` of bundle
`i`, with zero-based decimal positions; distinct index pairs give distinct
names; and the names of the map that have one of these two forms are pairwise
distinct and are `n` + (total number of certificates) many. -/
theorem linux_secret_entries (env : Collaborators) (cs : ContainerService) (g v : String)
    (m : paramsMap) (lp : LinuxProfile) (hlp : cs.Properties.LinuxProfile = some lp)
    (h : getParameters env cs g v = .ok m)
    (hkube : ∀ k ∈ writtenNames (kubernetesWrites env cs g v),
      startsWith k "linuxKeyVaultID" = false) :
    (∀ i b, lp.Secrets[i]? = some b →
      lookupParam m (linuxVaultName i) = some (.literal (.str b.SourceVaultID))) ∧
    (∀ i b j c, lp.Secrets[i]? = some b → b.VaultCertificates[j]? = some c →
      lookupParam m (linuxCertificateName i j) = some (.literal (.str c.CertificateURL))) ∧
    (∀ i i', linuxVaultName i = linuxVaultName i' → i = i') ∧
    (∀ i j i' j', linuxCertificateName i j = linuxCertificateName i' j' → i = i' ∧ j = j') ∧
    (∀ i i' j', linuxVaultName i ≠ linuxCertificateName i' j') ∧
    (∃ names : List String, names.Nodup ∧
      names.length =
        lp.Secrets.length + (lp.Secrets.map (fun b => b.VaultCertificates.length)).sum ∧
      ∀ k, k ∈ names ↔
        (hasParam m k = true ∧
          ∃ i, k = linuxVaultName i ∨ ∃ j, k = linuxCertificateName i j)) := by
  refine ⟨?_, ?_, fun _ _ => linuxVaultName_inj, fun _ _ _ _ => linuxCertificateName_inj,
    linuxVaultName_ne_certificateName, ?_⟩
  · intro i b hb
    have := mem_linuxSecretWrites_vault lp.Secrets 0 i b hb
    rw [Nat.zero_add] at this
    exact lookup_linuxSecretWrites hlp h hkube this
  · intro i b j c hb hc
    have := mem_linuxSecretWrites_certificate lp.Secrets 0 i j b c hb hc
    rw [Nat.zero_add] at this
    exact lookup_linuxSecretWrites hlp h hkube this
  · refine ⟨writtenNames (linuxSecretWrites lp.Secrets 0), nodup_linuxSecretWrites _ _, ?_, ?_⟩
    · rw [writtenNames, List.length_map, length_linuxSecretWrites]
    · intro k
      constructor
      · intro hk
        obtain ⟨⟨k', x⟩, hmem, rfl⟩ := List.mem_map.1 hk
        refine ⟨?_, ?_⟩
        · unfold hasParam
          rw [lookup_linuxSecretWrites hlp h hkube hmem]
          rfl
        · obtain ⟨i, -, hform⟩ := allNames_linuxSecretWrites_index lp.Secrets 0 _ hk
          exact ⟨i, hform⟩
      · rintro ⟨hpres, i, hform⟩
        have hshape : linuxSecretShape k := by
          rcases hform with rfl | ⟨j, rfl⟩
          · exact linuxSecretShape_vaultName i
          · exact linuxSecretShape_certificateName i j
        rcases (hasParam_getParameters h k).1 hpres with hm | hk | hl
        · exact mem_masterWrites_linuxShape hlp hshape.1 hm
        · have := hkube k hk
          rw [hshape.1] at this
          exact Bool.noConfusion this
        · exact absurd hl (linuxShape_not_later hshape env cs)

/-- The theorem `linux_secret_entries` at scenario C: the five entries
`linuxKeyVaultID0`, `linuxKeyVaultID0CertificateURL0`,
`linuxKeyVaultID0CertificateURL1`, `linuxKeyVaultID1` and
`linuxKeyVaultID1CertificateURL0`. -/
theorem linux_secret_entries_witness :
    ∃ m, getParameters quietEnv twoBundlesSpec "" "" = .ok m ∧
      lookupParam m "linuxKeyVaultID0" = some (.literal (.str "vault0")) ∧
      lookupParam m "linuxKeyVaultID0CertificateURL0" = some (.literal (.str "url00")) ∧
      lookupParam m "linuxKeyVaultID0CertificateURL1" = some (.literal (.str "url01")) ∧
      lookupParam m "linuxKeyVaultID1" = some (.literal (.str "vault1")) ∧
      lookupParam m "linuxKeyVaultID1CertificateURL0" = some (.literal (.str "url10")) :=
  ⟨_, rfl,
    (linux_secret_entries quietEnv twoBundlesSpec "" "" _ _ rfl rfl (by decide)).1 0 _ rfl,
    (linux_secret_entries quietEnv twoBundlesSpec "" "" _ _ rfl rfl (by decide)).2.1 0 _ 0 _
      rfl rfl,
    (linux_secret_entries quietEnv twoBundlesSpec "" "" _ _ rfl rfl (by decide)).2.1 0 _ 1 _
      rfl rfl,
    (linux_secret_entries quietEnv twoBundlesSpec "" "" _ _ rfl rfl (by decide)).1 1 _ rfl,
    (linux_secret_entries quietEnv twoBundlesSpec "" "" _ _ rfl rfl (by decide)).2.1 1 _ 0 _
      rfl rfl⟩

/-! ## Master names and the later blocks -/

/-- A master name that ends with a pool suffix is the name of a pool called
`""`, `master` or `agent`. -/
theorem masterNames_poolSuffix :
    ∀ l ∈ masterNames, ∀ s ∈ poolSuffixes, endsWith l s = true →
      l = "" ++ s ∨ l = "master" ++ s ∨ l = "agent" ++ s := by
  decide

/-- No master name is written by the Windows block or by the extension
loop. -/
theorem masterNames_not_windows_extension :
    ∀ l ∈ masterNames, l ∉ windowsNames ∧ startsWith l "windowsKeyVaultID" = false ∧
      endsWith l "Parameters" = false := by
  decide

/-- A pool that writes a master name is called `""`, `master` or `agent`. -/
theorem pool_of_masterName {c : AzureEnvironmentSpecConfig} {pools : List AgentPoolProfile}
    {l : String} (hl : l ∈ masterNames) (hmem : l ∈ writtenNames (agentWrites c pools)) :
    ∃ ap ∈ pools, ∃ s ∈ poolSuffixes,
      (ap.Name = "" ∧ l = "" ++ s) ∨ (ap.Name = "master" ∧ l = "master" ++ s) ∨
        (ap.Name = "agent" ∧ l = "agent" ++ s) := by
  obtain ⟨ap, hap, hk⟩ := mem_writtenNames_agentWrites.1 hmem
  obtain ⟨s, hs, hls⟩ := mem_writtenNames_agentPoolWrites hk
  refine ⟨ap, hap, s, hs, ?_⟩
  have hend : endsWith l s = true := hls ▸ endsWith_append _ _
  rcases masterNames_poolSuffix l hl s hs hend with h | h | h
  · exact Or.inl ⟨append_right_cancel (hls ▸ h), h⟩
  · exact Or.inr (Or.inl ⟨append_right_cancel (hls ▸ h), h⟩)
  · exact Or.inr (Or.inr ⟨append_right_cancel (hls ▸ h), h⟩)

theorem masterName_not_windowsWrites {env : Collaborators} {l : String} (hl : l ∈ masterNames)
    (p : Properties) : l ∉ writtenNames (windowsWrites env p) := by
  obtain ⟨h1, h2, -⟩ := masterNames_not_windows_extension l hl
  intro hmem
  rcases allNames_windowsWrites p l hmem with h | ⟨h, -⟩
  · exact h1 h
  · rw [h2] at h
    exact Bool.noConfusion h

theorem masterName_not_extensionWrites {l : String} (hl : l ∈ masterNames)
    (exts : List ExtensionProfile) : l ∉ writtenNames (extensionWrites exts) :=
  (lastWrite_eq_none_iff _ _).1
    (lastWrite_extensionWrites_none (masterNames_not_windows_extension l hl).2.2 exts)

/-- The names of `masterProfileParameters` are written by no other master
block. -/
theorem masterProfileNames_table :
    ∀ k ∈ masterProfileNames, k ∉ masterImageNames ∧ k ∉ ["linuxAdminUsername", "dnsServer"] ∧
      k ≠ "sshRSAPublicKey" ∧ startsWith k "linuxKeyVaultID" = false ∧
      k ∉ ["aksEngineVersion", "location"] ∧ k ∉ ["fqdnEndpointSuffix", "targetEnvironment"] ∧
      k ∈ masterNames := by
  decide

theorem mem_masterWrites_profileName {k : String} (hk : k ∈ masterProfileNames)
    (env : Collaborators) (cs : ContainerService) (v : String) :
    k ∈ writtenNames (masterWrites env cs v) ↔
      k ∈ writtenNames (masterProfileWrites cs.Properties) := by
  obtain ⟨h1, h2, h3, h4, h5, h6, -⟩ := masterProfileNames_table k hk
  have e1 : k ∉ writtenNames (masterImageWrites cs.Properties (env.GetCloudSpecConfig cs)) :=
    fun hm => h1 (allNames_masterImageWrites _ _ k hm)
  have e2 : k ∉ writtenNames (linuxAdminWrites cs.Properties) :=
    fun hm => h2 (allNames_linuxAdminWrites _ k hm)
  have e3 : k ∉ writtenNames (linuxKeyWrites cs.Properties) := by
    intro hm
    rcases allNames_linuxKeyWrites _ k hm with h | ⟨h, -⟩
    · exact h3 h
    · rw [h4] at h
      exact Bool.noConfusion h
  unfold masterWrites
  simp only [writtenNames_append, List.mem_append, e1, e2, e3, or_false, false_or]
  constructor
  · rintro ((hm | hm) | hm)
    · exact absurd hm h5
    · exact absurd hm h6
    · exact hm
  · exact fun hm => Or.inr hm

/-- The names of the master pool's networking, when no pool is called
`master` or `agent`: no later block writes them. -/
theorem masterNetworkNames_table :
    ∀ k ∈ masterNetworkNames, k ∈ masterProfileNames ∧ k ∈ masterNames ∧
      ∀ s ∈ poolSuffixes, k ≠ "" ++ s := by
  decide

theorem masterNetworkName_not_later {env : Collaborators} {cs : ContainerService} {k : String}
    (hk : k ∈ masterNetworkNames)
    (hpools : ∀ ap ∈ cs.Properties.AgentPoolProfiles, ap.Name ≠ "master" ∧ ap.Name ≠ "agent") :
    k ∉ writtenNames (laterWrites env cs) := by
  obtain ⟨-, hm, hempty⟩ := masterNetworkNames_table k hk
  unfold laterWrites
  simp only [writtenNames_append, List.mem_append, not_or]
  refine ⟨⟨?_, masterName_not_windowsWrites hm _⟩, masterName_not_extensionWrites hm _⟩
  intro hmem
  obtain ⟨ap, hap, s, hs, h | h | h⟩ := pool_of_masterName hm hmem
  · exact hempty s hs h.2
  · exact (hpools ap hap).1 h.1
  · exact (hpools ap hap).2 h.1

/-- A name of the master pool's networking is in the returned map exactly
when `masterProfileParameters` wrote it, if no pool is called `master` or
`agent` and the orchestrator-specific step did not write it. -/
theorem hasParam_masterNetworkName {env : Collaborators} {cs : ContainerService} {g v : String}
    {m : paramsMap} (h : getParameters env cs g v = .ok m) {k : String}
    (hk : k ∈ masterNetworkNames)
    (hpools : ∀ ap ∈ cs.Properties.AgentPoolProfiles, ap.Name ≠ "master" ∧ ap.Name ≠ "agent")
    (hkube : k ∉ writtenNames (kubernetesWrites env cs g v)) :
    hasParam m k = true ↔ k ∈ writtenNames (masterProfileWrites cs.Properties) := by
  rw [hasParam_getParameters h, mem_masterWrites_profileName (masterNetworkNames_table k hk).1]
  constructor
  · rintro (hm | hm | hm)
    · exact hm
    · exact absurd hm hkube
    · exact absurd hm (masterNetworkName_not_later hk hpools)
  · exact fun hm => Or.inl hm

/-! ## C11: the networking entries of the master pool -/

/-- C11, as the code has it, for a cluster spec with a master pool in which no
agent pool is named `master` or `agent`, and an orchestrator-specific step that
writes none of the six networking names.  In custom-VNET mode the returned map
has `masterVnetSubnetID` and neither `masterSubnet` nor `agentSubnet`; it has
`agentVnetSubnetID` exactly when the master pool uses scale-set placement and
`vnetCidr` exactly when `VnetCidr` is not empty.  In managed-subnet mode it
has `masterSubnet` and `agentSubnet` and no `masterVnetSubnetID`; it has
`masterSubnetIPv6` exactly when the dual-stack feature flag is enabled. -/
theorem master_network_names (env : Collaborators) (cs : ContainerService) (g v : String)
    (m : paramsMap) (mp : MasterProfile) (hmp : cs.Properties.MasterProfile = some mp)
    (h : getParameters env cs g v = .ok m)
    (hpools : ∀ ap ∈ cs.Properties.AgentPoolProfiles, ap.Name ≠ "master" ∧ ap.Name ≠ "agent")
    (hkube : ∀ k ∈ masterNetworkNames, k ∉ writtenNames (kubernetesWrites env cs g v)) :
    (mp.Mode = .CustomVNET →
      hasParam m "masterVnetSubnetID" = true ∧ hasParam m "masterSubnet" = false ∧
      hasParam m "agentSubnet" = false ∧
      (hasParam m "agentVnetSubnetID" = true ↔ mp.AvailabilityProfile = .ScaleSet) ∧
      (hasParam m "vnetCidr" = true ↔ mp.VnetCidr ≠ "")) ∧
    (mp.Mode = .ManagedSubnet →
      hasParam m "masterSubnet" = true ∧ hasParam m "agentSubnet" = true ∧
      hasParam m "masterVnetSubnetID" = false ∧
      (hasParam m "masterSubnetIPv6" = true ↔
        IsFeatureEnabled cs.Properties.FeatureFlags "EnableIPv6DualStack" = true)) := by
  have key : ∀ k ∈ masterNetworkNames,
      (hasParam m k = true ↔ k ∈ writtenNames (masterProfileWrites cs.Properties)) :=
    fun k hk => hasParam_masterNetworkName h hk hpools (hkube k hk)
  have hfalse : ∀ k, ¬ hasParam m k = true → hasParam m k = false := by
    intro k hk
    cases hp : hasParam m k with
    | false => rfl
    | true => exact absurd hp hk
  constructor
  · intro hmode
    have hw : ∀ k ∈ masterNetworkNames, (hasParam m k = true ↔
        k = "masterVnetSubnetID" ∨
        (k = "agentVnetSubnetID" ∧ mp.AvailabilityProfile = .ScaleSet) ∨
        (k = "vnetCidr" ∧ mp.VnetCidr ≠ "")) := by
      intro k hk
      rw [key k hk]
      unfold masterProfileWrites MasterProfile.IsCustomVNET
        MasterProfile.IsVirtualMachineScaleSets
      rw [hmp]
      have hk' : k ∈ masterNetworkNames := hk
      simp only [masterNetworkNames, List.mem_cons, List.mem_singleton, List.not_mem_nil,
        or_false] at hk'
      by_cases h1 : mp.AvailabilityProfile = .ScaleSet <;> by_cases h2 : mp.VnetCidr = "" <;>
        by_cases h3 : mp.HasAvailabilityZones = true <;>
        rcases hk' with rfl | rfl | rfl | rfl | rfl | rfl <;>
        simp [hmode, h1, h2, h3, writtenNames]
    refine ⟨?_, ?_, ?_, ?_, ?_⟩
    · exact (hw _ (by decide)).2 (Or.inl rfl)
    · refine hfalse _ (fun hp => ?_)
      have := (hw _ (by decide)).1 hp
      simp at this
    · refine hfalse _ (fun hp => ?_)
      have := (hw _ (by decide)).1 hp
      simp at this
    · rw [hw _ (by decide)]
      simp
    · rw [hw _ (by decide)]
      simp
  · intro hmode
    have hw : ∀ k ∈ masterNetworkNames, (hasParam m k = true ↔
        k = "masterSubnet" ∨ k = "agentSubnet" ∨
        (k = "masterSubnetIPv6" ∧
          IsFeatureEnabled cs.Properties.FeatureFlags "EnableIPv6DualStack" = true)) := by
      intro k hk
      rw [key k hk]
      unfold masterProfileWrites MasterProfile.IsCustomVNET
      rw [hmp]
      have hk' : k ∈ masterNetworkNames := hk
      simp only [masterNetworkNames, List.mem_cons, List.mem_singleton, List.not_mem_nil,
        or_false] at hk'
      by_cases h1 : IsFeatureEnabled cs.Properties.FeatureFlags "EnableIPv6DualStack" = true <;>
        by_cases h3 : mp.HasAvailabilityZones = true <;>
        rcases hk' with rfl | rfl | rfl | rfl | rfl | rfl <;>
        simp [hmode, h1, h3, writtenNames]
    refine ⟨?_, ?_, ?_, ?_⟩
    · exact (hw _ (by decide)).2 (Or.inl rfl)
    · exact (hw _ (by decide)).2 (Or.inr (Or.inl rfl))
    · refine hfalse _ (fun hp => ?_)
      have := (hw _ (by decide)).1 hp
      simp at this
    · rw [hw _ (by decide)]
      simp

/-- C11 fails as stated: in `masterClashSpec` the master pool is in custom-VNET
mode and the only agent pool is named `master`, in managed-subnet mode; the
returned map has both `masterVnetSubnetID` (written for the master pool) and
`masterSubnet` (written for the agent pool). -/
theorem master_network_both_names :
    masterClashSpec.Properties.MasterProfile.map (fun mp => mp.Mode) = some .CustomVNET ∧
      ∃ m, getParameters quietEnv masterClashSpec "" "" = .ok m ∧
        hasParam m "masterVnetSubnetID" = true ∧ hasParam m "masterSubnet" = true :=
  ⟨by decide, _, rfl, by decide, by decide⟩

/-- The theorem `master_network_names` at `masterAndPoolSpec`, whose master
pool is in managed-subnet mode: the map has `masterSubnet` and `agentSubnet`
and no `masterVnetSubnetID`. -/
theorem master_network_names_witness :
    ∃ m, getParameters quietEnv masterAndPoolSpec "" "" = .ok m ∧
      hasParam m "masterSubnet" = true ∧ hasParam m "agentSubnet" = true ∧
      hasParam m "masterVnetSubnetID" = false :=
  ⟨_, rfl,
    ((master_network_names quietEnv masterAndPoolSpec "" "" _ sampleMaster rfl rfl
      (by decide) (by decide)).2 rfl).1,
    ((master_network_names quietEnv masterAndPoolSpec "" "" _ sampleMaster rfl rfl
      (by decide) (by decide)).2 rfl).2.1,
    ((master_network_names quietEnv masterAndPoolSpec "" "" _ sampleMaster rfl rfl
      (by decide) (by decide)).2 rfl).2.2.1⟩

/-! ## The names of the map are pairwise distinct -/

theorem keys_setParam (m : paramsMap) (k : String) (v : ParamValue) (x : String) :
    x ∈ (setParam m k v).map Prod.fst ↔ x = k ∨ x ∈ m.map Prod.fst := by
  induction m with
  | nil => simp [setParam]
  | cons a t ih =>
    obtain ⟨a1, a2⟩ := a
    by_cases h : a1 = k
    · subst h
      simp [setParam]
    · simp only [setParam, h, if_false, List.map_cons, List.mem_cons, ih]
      tauto

theorem nodup_setParam (m : paramsMap) (k : String) (v : ParamValue)
    (h : (m.map Prod.fst).Nodup) : ((setParam m k v).map Prod.fst).Nodup := by
  induction m with
  | nil => simp [setParam]
  | cons a t ih =>
    obtain ⟨a1, a2⟩ := a
    rw [List.map_cons, List.nodup_cons] at h
    by_cases hk : a1 = k
    · subst hk
      simp only [setParam, if_true, List.map_cons, List.nodup_cons]
      exact h
    · simp only [setParam, hk, if_false, List.map_cons, List.nodup_cons]
      refine ⟨?_, ih h.2⟩
      rw [keys_setParam]
      rintro (h1 | h1)
      · exact hk h1
      · exact h.1 h1

theorem nodup_applyWrites (w : List (String × ParamValue)) (m : paramsMap)
    (h : (m.map Prod.fst).Nodup) : ((applyWrites m w).map Prod.fst).Nodup := by
  induction w generalizing m with
  | nil => exact h
  | cons a t ih => exact ih _ (nodup_setParam m a.1 a.2 h)

/-- The map that `getParameters` returns has one entry per name. -/
theorem nodup_getParameters {env : Collaborators} {cs : ContainerService} {g v : String}
    {m : paramsMap} (h : getParameters env cs g v = .ok m) : (m.map Prod.fst).Nodup := by
  rw [getParameters_ok_eq h]
  exact nodup_applyWrites _ [] List.nodup_nil

/-- In a map with one entry per name, the entries named `k` are the one that
the map read finds. -/
theorem filter_of_lookup {m : paramsMap} {k : String} {x : ParamValue}
    (hn : (m.map Prod.fst).Nodup) (h : lookupParam m k = some x) :
    m.filter (fun e => decide (e.1 = k)) = [(k, x)] := by
  induction m with
  | nil => simp [lookupParam] at h
  | cons a t ih =>
    obtain ⟨a1, a2⟩ := a
    rw [List.map_cons, List.nodup_cons] at hn
    by_cases hk : a1 = k
    · subst hk
      simp only [lookupParam, if_true, Option.some.injEq] at h
      subst h
      have ht : t.filter (fun e => decide (e.1 = a1)) = [] := by
        rw [List.filter_eq_nil_iff]
        intro e he hd
        exact hn.1 (List.mem_map.2 ⟨e, he, of_decide_eq_true hd⟩)
      simp [List.filter, ht]
    · simp only [lookupParam, hk, if_false] at h
      simp [List.filter, hk, ih hn.2 h]

/-! ## C12: the entry of an extension -/

theorem extensionWrite_name (e : ExtensionProfile) :
    (extensionWrite e).1 = e.Name ++ "Parameters" := by
  unfold extensionWrite
  split <;> rfl

theorem nodup_extensionWrites {exts : List ExtensionProfile}
    (hn : (exts.map (fun e => e.Name)).Nodup) : (writtenNames (extensionWrites exts)).Nodup := by
  have hmap : writtenNames (extensionWrites exts) =
      (exts.map (fun e => e.Name)).map (fun n => n ++ "Parameters") := by
    unfold writtenNames extensionWrites
    rw [List.map_map, List.map_map]
    exact List.map_congr_left (fun e _ => extensionWrite_name e)
  rw [hmap]
  exact List.Nodup.map (fun a b hab => append_right_cancel hab) hn

/-- C12: for a cluster spec whose extensions have pairwise distinct names and
for every extension `e` in it, the entries named `e.Name ++ "Parameters"` of
the returned map are exactly one: a secret reference with the vault ID, secret
name and secret version of the extension's key-vault reference when that is
set, and otherwise a literal with the extension's inline parameters. -/
theorem extension_entry (env : Collaborators) (cs : ContainerService) (g v : String)
    (m : paramsMap) (h : getParameters env cs g v = .ok m)
    (hn : (cs.Properties.ExtensionProfiles.map (fun e => e.Name)).Nodup)
    (e : ExtensionProfile) (he : e ∈ cs.Properties.ExtensionProfiles) :
    m.filter (fun x => decide (x.1 = e.Name ++ "Parameters")) =
      [(e.Name ++ "Parameters",
        match e.ExtensionParametersKeyVaultRef with
        | some ref => ParamValue.secretRef ref.VaultID ref.SecretName ref.SecretVersion
        | none => ParamValue.literal (.str e.ExtensionParameters))] := by
  refine filter_of_lookup (nodup_getParameters h) ?_
  have hmem : (e.Name ++ "Parameters",
      match e.ExtensionParametersKeyVaultRef with
      | some ref => ParamValue.secretRef ref.VaultID ref.SecretName ref.SecretVersion
      | none => ParamValue.literal (.str e.ExtensionParameters)) ∈
        extensionWrites cs.Properties.ExtensionProfiles := by
    refine List.mem_map.2 ⟨e, he, ?_⟩
    unfold extensionWrite
    cases hr : e.ExtensionParametersKeyVaultRef <;> rfl
  rw [lookup_getParameters h]
  unfold laterWrites
  rw [lastWrite_append, lastWrite_of_mem_nodup (nodup_extensionWrites hn) hmem]
  rfl

/-- The theorem `extension_entry` at `extensionSpec`: the only entry named
`vaultParameters` is the secret reference, not the inline parameters. -/
theorem extension_entry_witness :
    ∃ m, getParameters quietEnv extensionSpec "" "" = .ok m ∧
      m.filter (fun x => decide (x.1 = "vault" ++ "Parameters")) =
        [("vault" ++ "Parameters", ParamValue.secretRef "/vaults/v" "name" "1")] :=
  ⟨_, rfl,
    extension_entry quietEnv extensionSpec "" "" _ rfl (by decide)
      { Name := "vault", ExtensionParameters := "ignored",
        ExtensionParametersKeyVaultRef :=
          some { VaultID := "/vaults/v", SecretName := "name", SecretVersion := "1" } }
      (by decide)⟩

/-! ## C13: the distro-based image entries of an agent pool -/

theorem osImageSuffixes_table :
    ∀ s ∈ osImageSuffixes, s ∈ poolSuffixes ∧
      ∀ l ∈ masterNames, endsWith l s = true → l = "" ++ s := by
  decide

theorem lastWrite_agentPoolWrites_osImage_windows (c : AzureEnvironmentSpecConfig)
    (q : AgentPoolProfile) (hq : q.OSType = OSType.Windows) :
    ∀ s ∈ osImageSuffixes, lastWrite (agentPoolWrites c q) (q.Name ++ s) = none := by
  intro s hs
  simp only [osImageSuffixes, List.mem_cons, List.mem_singleton, List.not_mem_nil,
    or_false] at hs
  unfold agentPoolWrites
  rcases hs with rfl | rfl | rfl | rfl <;>
    cases hir : q.ImageRef <;>
    simp [hq, hir, lastWrite_append, lastWrite_cons, lastWrite_nil, lastWrite_ite,
      name_append_inj]

/-- Whether one pool's writes include a distro-based image name. -/
theorem isSome_agentPoolWrites_osImage (c : AzureEnvironmentSpecConfig) (q : AgentPoolProfile) :
    ∀ s ∈ osImageSuffixes,
      ((lastWrite (agentPoolWrites c q) (q.Name ++ s)).isSome = true ↔
        q.OSType ≠ OSType.Windows) := by
  intro s hs
  by_cases hq : q.OSType = OSType.Windows
  · rw [lastWrite_agentPoolWrites_osImage_windows c q hq s hs]
    simp [hq]
  · obtain ⟨h1, h2, h3, h4⟩ := lastWrite_agentPoolWrites_osImage c q hq
    simp only [osImageSuffixes, List.mem_cons, List.mem_singleton, List.not_mem_nil,
      or_false] at hs
    rcases hs with rfl | rfl | rfl | rfl
    · rw [h1]
      simp [hq]
    · rw [h2]
      simp [hq]
    · rw [h3]
      simp [hq]
    · rw [h4]
      simp [hq]

/-- C13, as the code has it, for an agent pool that shares its name with no
other pool and whose name is not empty, and an orchestrator-specific step that
writes none of the four names: each of `{name}osImageOffer`, `{name}osImageSKU`,
`{name}osImagePublisher` and `{name}osImageVersion` is in the returned map if
and only if the pool's OS type is not Windows, and then they hold the offer,
sku, publisher and version that the image table has for the pool's distro. -/
theorem agent_pool_osImage_entries (env : Collaborators) (cs : ContainerService)
    (g v : String) (m : paramsMap) (ap : AgentPoolProfile)
    (h : getParameters env cs g v = .ok m) (hap : ap ∈ cs.Properties.AgentPoolProfiles)
    (huniq : ∀ q ∈ cs.Properties.AgentPoolProfiles, q.Name = ap.Name → q = ap)
    (hname : ap.Name ≠ "")
    (hk : ∀ s ∈ osImageSuffixes, ap.Name ++ s ∉ writtenNames (kubernetesWrites env cs g v)) :
    (∀ s ∈ osImageSuffixes, (hasParam m (ap.Name ++ s) = true ↔ ap.OSType ≠ OSType.Windows)) ∧
    (ap.OSType ≠ OSType.Windows →
      lookupParam m (ap.Name ++ "osImageOffer") =
        some (.literal (.str (osImageConfig (env.GetCloudSpecConfig cs) ap.Distro).ImageOffer)) ∧
      lookupParam m (ap.Name ++ "osImageSKU") =
        some (.literal (.str (osImageConfig (env.GetCloudSpecConfig cs) ap.Distro).ImageSku)) ∧
      lookupParam m (ap.Name ++ "osImagePublisher") =
        some (.literal
          (.str (osImageConfig (env.GetCloudSpecConfig cs) ap.Distro).ImagePublisher)) ∧
      lookupParam m (ap.Name ++ "osImageVersion") =
        some (.literal
          (.str (osImageConfig (env.GetCloudSpecConfig cs) ap.Distro).ImageVersion))) := by
  constructor
  · intro s hs
    obtain ⟨hps, htab⟩ := osImageSuffixes_table s hs
    rw [hasParam_poolName h hps]
    constructor
    · rintro (⟨q, hq, hn, hw⟩ | hx | hx)
      · rw [huniq q hq hn] at hw
        exact (isSome_agentPoolWrites_osImage _ ap s hs).1 hw
      · exact absurd hx (hk s hs)
      · have hl := mem_masterWrites_poolName hps hx
        exact absurd (append_right_cancel (htab _ hl (endsWith_append _ _))) hname
    · intro hq
      exact Or.inl ⟨ap, hap, rfl, (isSome_agentPoolWrites_osImage _ ap s hs).2 hq⟩
  · intro hq
    obtain ⟨h1, h2, h3, h4⟩ := lastWrite_agentPoolWrites_osImage (env.GetCloudSpecConfig cs) ap hq
    refine ⟨?_, ?_, ?_, ?_⟩
    · rw [lookup_poolName h (by decide), lastWrite_agentWrites_unique (by decide) hap huniq, h1]
      rfl
    · rw [lookup_poolName h (by decide), lastWrite_agentWrites_unique (by decide) hap huniq, h2]
      rfl
    · rw [lookup_poolName h (by decide), lastWrite_agentWrites_unique (by decide) hap huniq, h3]
      rfl
    · rw [lookup_poolName h (by decide), lastWrite_agentWrites_unique (by decide) hap huniq, h4]
      rfl

/-- C13 fails as stated: the second agent pool of `mixedOsSpec` is a Windows
pool named `pool1`, and the returned map has the entry `pool1osImageOffer`,
written for the first pool of that name. -/
theorem osImage_present_for_windows_pool :
    mixedOsSpec.Properties.AgentPoolProfiles.map (fun ap => (ap.Name, ap.OSType)) =
      [("pool1", .Linux), ("pool1", .Windows)] ∧
      ∃ m, getParameters quietEnv mixedOsSpec "" "" = .ok m ∧
        hasParam m "pool1osImageOffer" = true :=
  ⟨by decide, _, rfl, by decide⟩

/-- The theorem `agent_pool_osImage_entries` at `masterAndPoolSpec`: the Linux
pool `pool1` has the image offer of its distro. -/
theorem agent_pool_osImage_entries_witness :
    ∃ m, getParameters quietEnv masterAndPoolSpec "" "" = .ok m ∧
      hasParam m ("pool1" ++ "osImageOffer") = true ∧
      lookupParam m ("pool1" ++ "osImageOffer") = some (.literal (.str "UbuntuServer")) :=
  ⟨_, rfl,
    ((agent_pool_osImage_entries quietEnv masterAndPoolSpec "" "" _ (samplePool "pool1") rfl
      (by decide) (by decide) (by decide) (by decide)).1 "osImageOffer" (by decide)).2
        (by decide),
    ((agent_pool_osImage_entries quietEnv masterAndPoolSpec "" "" _ (samplePool "pool1") rfl
      (by decide) (by decide) (by decide) (by decide)).2 (by decide)).1⟩

/-! ## C17: the first SSH public key -/

/-- C17: line 72 reads `PublicKeys[0]` without a bounds check.  For a cluster
spec with a Linux profile whose list of SSH public keys is not empty,
`getParameters` returns a map, and `sshRSAPublicKey` holds in it the key data
of the first key, where the orchestrator-specific step, which is outside the
source file, does not write that name.  For a Linux profile with an empty list
the call panics with an index out of range and returns no map. -/
theorem first_public_key (env : Collaborators) (cs : ContainerService) (g v : String)
    (lp : LinuxProfile) (hlp : cs.Properties.LinuxProfile = some lp) :
    (∀ key rest, lp.PublicKeys = key :: rest →
      ∃ m, getParameters env cs g v = .ok m ∧
        ("sshRSAPublicKey" ∉ writtenNames (kubernetesWrites env cs g v) →
          lookupParam m "sshRSAPublicKey" = some (.literal (.str key.KeyData)))) ∧
    (lp.PublicKeys = [] → getParameters env cs g v = .error .indexOutOfRange) := by
  constructor
  · intro key rest hkeys
    have hfk : hasFirstKey cs.Properties = true := by
      unfold hasFirstKey
      rw [hlp]
      simp [hkeys]
    obtain ⟨m, hm⟩ := (getParameters_ok_iff env cs g v).2 hfk
    refine ⟨m, hm, fun hk => ?_⟩
    have hp : plainName "sshRSAPublicKey" = true := by decide
    have hkey : lastWrite (linuxKeyWrites cs.Properties) "sshRSAPublicKey" =
        some (.literal (.str key.KeyData)) := by
      unfold linuxKeyWrites
      rw [hlp]
      simp only [hkeys, lastWrite_cons, plainName_linuxSecretWrites hp]
      rfl
    rw [lookup_getParameters hm, lastWrite_laterWrites, plainName_agentWrites hp,
      plainName_extensionWrites hp, plainName_windowsWrites hp (by decide),
      (lastWrite_eq_none_iff _ _).2 hk, lastWrite_masterWrites, hkey]
    rfl
  · intro hkeys
    have hfk : hasFirstKey cs.Properties = false := by
      unfold hasFirstKey
      rw [hlp]
      simp [hkeys]
    rw [getParameters_eq, hfk]
    rfl

/-- The theorem `first_public_key` at `linuxSpec`, which has one key, and at
`noKeySpec`, which has none. -/
theorem first_public_key_witness :
    (∃ m, getParameters quietEnv linuxSpec "" "" = .ok m ∧
      lookupParam m "sshRSAPublicKey" = some (.literal (.str "ssh-rsa AAAA"))) ∧
    getParameters quietEnv noKeySpec "" "" = .error .indexOutOfRange :=
  ⟨by
    obtain ⟨m, hm, hl⟩ := (first_public_key quietEnv linuxSpec "" "" sampleLinux rfl).1 _ _ rfl
    exact ⟨m, hm, hl (by decide)⟩,
    (first_public_key quietEnv noKeySpec "" "" _ rfl).2 rfl⟩

/-! ## C16: the last write wins -/

/-- A list of pools with a pool named `n` has a last pool of that name. -/
theorem exists_last_named (pools : List AgentPoolProfile) (n : String)
    (h : ∃ ap ∈ pools, ap.Name = n) :
    ∃ front q back, pools = front ++ q :: back ∧ q.Name = n ∧ ∀ ap ∈ back, ap.Name ≠ n := by
  induction pools with
  | nil =>
    obtain ⟨ap, hap, -⟩ := h
    cases hap
  | cons p rest ih =>
    by_cases hr : ∃ ap ∈ rest, ap.Name = n
    · obtain ⟨front, q, back, he, hq, hb⟩ := ih hr
      exact ⟨p :: front, q, back, by rw [he]; rfl, hq, hb⟩
    · obtain ⟨ap, hap, hn⟩ := h
      rcases List.mem_cons.1 hap with rfl | hmem
      · exact ⟨[], ap, rest, rfl, hn, fun a ha hna => hr ⟨a, ha, hna⟩⟩
      · exact absurd ⟨ap, hmem, hn⟩ hr

/-- The agent-pool loop writes no name of the master blocks when no pool is
named `""`, `master` or `agent`. -/
theorem masterWrite_not_agentWrites {env : Collaborators} {cs : ContainerService} {v k : String}
    (hk : k ∈ writtenNames (masterWrites env cs v)) (c : AzureEnvironmentSpecConfig)
    {pools : List AgentPoolProfile}
    (hpools : ∀ ap ∈ pools, ap.Name ≠ "" ∧ ap.Name ≠ "master" ∧ ap.Name ≠ "agent") :
    k ∉ writtenNames (agentWrites c pools) := by
  intro hmem
  rcases allNames_masterWrites env cs v k hk with hl | ⟨-, hdigit⟩
  · obtain ⟨ap, hap, s, -, h | h | h⟩ := pool_of_masterName hl hmem
    · exact (hpools ap hap).1 h.1
    · exact (hpools ap hap).2.1 h.1
    · exact (hpools ap hap).2.2 h.1
  · obtain ⟨ap, -, hw⟩ := mem_writtenNames_agentWrites.1 hmem
    obtain ⟨s, hs, rfl⟩ := mem_writtenNames_agentPoolWrites hw
    rw [lastIsDigit_poolName hs] at hdigit
    exact Bool.noConfusion hdigit

/-- C16, as the code has it: writes are last-write-wins across the derivation
steps.  In the returned map `masterVMSize` holds the VM size of the last agent
pool named `master` (such a last pool exists as soon as a pool has that name),
so it is not the master pool's VM size when the two sizes differ.  The
agent-pool loop leaves every entry that the master blocks wrote as it found it
when no pool is named `""`, `master` or `agent`; a pool of such a name can, but
need not, replace one of them. -/
theorem agent_pool_overwrites_master (env : Collaborators) (cs : ContainerService)
    (g v : String) (m : paramsMap) (h : getParameters env cs g v = .ok m) :
    (∀ front q back, cs.Properties.AgentPoolProfiles = front ++ q :: back →
      q.Name = "master" → (∀ ap ∈ back, ap.Name ≠ "master") →
      lookupParam m "masterVMSize" = some (.literal (.str q.VMSize)) ∧
      ∀ mp, cs.Properties.MasterProfile = some mp → mp.VMSize ≠ q.VMSize →
        lookupParam m "masterVMSize" ≠ some (.literal (.str mp.VMSize))) ∧
    ((∃ ap ∈ cs.Properties.AgentPoolProfiles, ap.Name = "master") →
      ∃ front q back, cs.Properties.AgentPoolProfiles = front ++ q :: back ∧
        q.Name = "master" ∧ ∀ ap ∈ back, ap.Name ≠ "master") ∧
    ((∀ ap ∈ cs.Properties.AgentPoolProfiles,
        ap.Name ≠ "" ∧ ap.Name ≠ "master" ∧ ap.Name ≠ "agent") →
      ∀ k ∈ writtenNames (masterWrites env cs v), ∀ m0,
        lookupParam
          (agentParameters (env.GetCloudSpecConfig cs) cs.Properties.AgentPoolProfiles m0) k =
        lookupParam m0 k) := by
  refine ⟨?_, exists_last_named _ _, ?_⟩
  · intro front q back hpools hq hlast
    have hval : lookupParam m "masterVMSize" = some (.literal (.str q.VMSize)) := by
      have hname : "masterVMSize" = q.Name ++ "VMSize" := by
        rw [hq]
        decide
      have hlast' : ∀ ap ∈ back, ap.Name ≠ q.Name := by
        rw [hq]
        exact hlast
      rw [hname, lookup_poolName h (by decide), hpools,
        lastWrite_agentWrites_last (by decide) hlast', lastWrite_agentPoolWrites_VMSize]
      rfl
    refine ⟨hval, ?_⟩
    intro mp _ hne heq
    rw [hval] at heq
    simp only [Option.some.injEq, ParamValue.literal.injEq, Value.str.injEq] at heq
    exact hne heq.symm
  · intro hpools k hk m0
    rw [agentParameters_eq, lookupParam_applyWrites,
      (lastWrite_eq_none_iff _ _).2 (masterWrite_not_agentWrites hk _ hpools)]
    rfl

/-- C16 fails as stated in its last part: the only agent pool of
`agentClashSpec` is named `agent`, and the agent-pool loop leaves every entry
of the map built before it, `masterVMSize` and `agentSubnet` among them, as it
found it. -/
theorem master_entries_kept_with_pool_named_agent :
    agentClashSpec.Properties.AgentPoolProfiles.map (fun ap => ap.Name) = ["agent"] ∧
      ∃ m0, masterPhase quietEnv agentClashSpec "" "" = .ok m0 ∧
        hasParam m0 "masterVMSize" = true ∧ hasParam m0 "agentSubnet" = true ∧
        ∀ e ∈ m0,
          lookupParam
            (agentParameters (quietEnv.GetCloudSpecConfig agentClashSpec)
              agentClashSpec.Properties.AgentPoolProfiles m0) e.1 = some e.2 :=
  ⟨by decide, _, rfl, by decide, by decide, by decide⟩

/-- The theorem `agent_pool_overwrites_master` at `masterShadowSpec`: the
entry `masterVMSize` is the size of the agent pool named `master`. -/
theorem agent_pool_overwrites_master_witness :
    ∃ m, getParameters quietEnv masterShadowSpec "" "" = .ok m ∧
      lookupParam m "masterVMSize" = some (.literal (.str "Standard_B2s")) :=
  ⟨_, rfl,
    ((agent_pool_overwrites_master quietEnv masterShadowSpec "" "" _ rfl).1 []
      { samplePool "master" with VMSize := "Standard_B2s" } [] rfl rfl (by simp)).1⟩

/-! ## The names of one pool and of pools with distinct names -/

/-- The names that the loop writes for one pool, in the order of writing, are
taken from the pool's name followed by the pool suffixes, in their order. -/
theorem agentPoolWrites_sublist (c : AzureEnvironmentSpecConfig) (p : AgentPoolProfile) :
    (writtenNames (agentPoolWrites c p)).Sublist (poolSuffixes.map (fun s => p.Name ++ s)) := by
  have e : poolSuffixes.map (fun s => p.Name ++ s) =
      [p.Name ++ "Count", p.Name ++ "VMSize"] ++ [p.Name ++ "AvailabilityZones"] ++
      ([p.Name ++ "VnetSubnetID"] ++ [p.Name ++ "Subnet"]) ++
      [p.Name ++ "EndpointDNSNamePrefix"] ++
      [p.Name ++ "ScaleSetPriority", p.Name ++ "ScaleSetEvictionPolicy"] ++
      [p.Name ++ "osImageName", p.Name ++ "osImageResourceGroup"] ++
      [p.Name ++ "osImageOffer", p.Name ++ "osImageSKU", p.Name ++ "osImagePublisher",
        p.Name ++ "osImageVersion"] := rfl
  rw [e]
  unfold agentPoolWrites
  simp only [writtenNames_append]
  refine List.Sublist.append (List.Sublist.append (List.Sublist.append (List.Sublist.append
    (List.Sublist.append (List.Sublist.append ?_ ?_) ?_) ?_) ?_) ?_) ?_
  · exact List.Sublist.refl _
  · split
    · exact List.Sublist.refl _
    · exact List.nil_sublist _
  · split
    · exact List.sublist_append_left _ _
    · exact List.sublist_append_right _ _
  · split
    · exact List.Sublist.refl _
    · exact List.nil_sublist _
  · split
    · exact List.Sublist.refl _
    · exact List.nil_sublist _
  · split
    · exact List.nil_sublist _
    · exact List.Sublist.refl _
  · split
    · exact List.Sublist.refl _
    · exact List.nil_sublist _

theorem nodup_agentPoolWrites (c : AzureEnvironmentSpecConfig) (p : AgentPoolProfile) :
    (writtenNames (agentPoolWrites c p)).Nodup :=
  List.Nodup.sublist (agentPoolWrites_sublist c p)
    (List.Nodup.map (fun _ _ hab => append_left_cancel hab) (by decide))

theorem nodup_agentWrites (c : AzureEnvironmentSpecConfig) {pools : List AgentPoolProfile}
    (hn : (pools.map (fun ap => ap.Name)).Nodup) : (writtenNames (agentWrites c pools)).Nodup := by
  induction pools with
  | nil => exact List.nodup_nil
  | cons p rest ih =>
    rw [List.map_cons, List.nodup_cons] at hn
    show (writtenNames (agentPoolWrites c p ++ agentWrites c rest)).Nodup
    rw [writtenNames_append, List.nodup_append]
    refine ⟨nodup_agentPoolWrites c p, ih hn.2, ?_⟩
    intro k hk hk'
    obtain ⟨s, hs, rfl⟩ := mem_writtenNames_agentPoolWrites hk
    obtain ⟨q, hq, hqn, -⟩ := (mem_agentWrites_poolName hs p.Name).1 hk'
    exact hn.1 (List.mem_map.2 ⟨q, hq, hqn⟩)

theorem mem_agentWrites {c : AzureEnvironmentSpecConfig} {pools : List AgentPoolProfile}
    {e : String × ParamValue} :
    e ∈ agentWrites c pools ↔ ∃ ap ∈ pools, e ∈ agentPoolWrites c ap := by
  induction pools with
  | nil => simp [agentWrites]
  | cons ap rest ih => simp [agentWrites, ih]

theorem mem_of_lastWrite {w : List (String × ParamValue)} {k : String} {x : ParamValue}
    (h : lastWrite w k = some x) : (k, x) ∈ w := by
  induction w with
  | nil => simp [lastWrite] at h
  | cons a t ih =>
    obtain ⟨a1, a2⟩ := a
    rw [lastWrite_cons] at h
    cases ht : lastWrite t k with
    | some y =>
      rw [ht] at h
      simp only [Option.or_some, Option.some.injEq] at h
      subst h
      exact List.mem_cons_of_mem _ (ih ht)
    | none =>
      rw [ht] at h
      by_cases hk : a1 = k
      · simp only [hk, if_true, Option.none_or, Option.some.injEq] at h
        subst hk
        subst h
        exact List.mem_cons_self _ _
      · simp [hk] at h

/-- Two write lists without repeated names and with the same writes leave the
same last write for every name. -/
theorem lastWrite_congr_of_nodup {w w' : List (String × ParamValue)}
    (hn : (writtenNames w).Nodup) (hn' : (writtenNames w').Nodup)
    (hmem : ∀ e, e ∈ w ↔ e ∈ w') (k : String) : lastWrite w k = lastWrite w' k := by
  cases h : lastWrite w k with
  | some x => exact (lastWrite_of_mem_nodup hn' ((hmem _).1 (mem_of_lastWrite h))).symm
  | none =>
    cases h' : lastWrite w' k with
    | none => rfl
    | some y =>
      have := lastWrite_of_mem_nodup hn ((hmem _).2 (mem_of_lastWrite h'))
      rw [h] at this
      cases this

theorem lookup_agentPoolParameters (c : AzureEnvironmentSpecConfig) (ap : AgentPoolProfile)
    (k : String) :
    lookupParam (agentPoolParameters c ap []) k = lastWrite (agentPoolWrites c ap) k := by
  rw [agentPoolParameters_eq, lookupParam_applyWrites]
  cases lastWrite (agentPoolWrites c ap) k <;> rfl

theorem hasParam_agentPoolParameters (c : AzureEnvironmentSpecConfig) (ap : AgentPoolProfile)
    (k : String) :
    hasParam (agentPoolParameters c ap []) k = true ↔
      k ∈ writtenNames (agentPoolWrites c ap) := by
  unfold hasParam
  rw [lookup_agentPoolParameters, lastWrite_isSome_iff]

/-- With pairwise distinct pool names, what one pool writes is what the whole
loop leaves under that name. -/
theorem lastWrite_agentWrites_of_nodup (c : AzureEnvironmentSpecConfig)
    {pools : List AgentPoolProfile} (hn : (pools.map (fun ap => ap.Name)).Nodup)
    {ap : AgentPoolProfile} (hap : ap ∈ pools) {k : String} {x : ParamValue}
    (h : lookupParam (agentPoolParameters c ap []) k = some x) :
    lastWrite (agentWrites c pools) k = some x := by
  rw [lookup_agentPoolParameters] at h
  exact lastWrite_of_mem_nodup (nodup_agentWrites c hn)
    (mem_agentWrites.2 ⟨ap, hap, mem_of_lastWrite h⟩)

/-- With pairwise distinct pool names, what one pool writes is what the
returned map holds under that name. -/
theorem lookup_getParameters_pool_entry {env : Collaborators} {cs : ContainerService}
    {g v : String} {m : paramsMap} (hm : getParameters env cs g v = .ok m)
    (hn : (cs.Properties.AgentPoolProfiles.map (fun ap => ap.Name)).Nodup)
    {ap : AgentPoolProfile} (hap : ap ∈ cs.Properties.AgentPoolProfiles) {k : String}
    {x : ParamValue}
    (h : lookupParam (agentPoolParameters (env.GetCloudSpecConfig cs) ap []) k = some x) :
    lookupParam m k = some x := by
  have hk : k ∈ writtenNames (agentPoolWrites (env.GetCloudSpecConfig cs) ap) := by
    rw [← lastWrite_isSome_iff, ← lookup_agentPoolParameters, h]
    rfl
  obtain ⟨s, hs, rfl⟩ := mem_writtenNames_agentPoolWrites hk
  rw [lookup_poolName hm hs, lastWrite_agentWrites_of_nodup _ hn hap h]
  rfl

/-! ## C15: pools with distinct names -/

/-- C15: no pool suffix is a proper suffix of another one, so for two agent
pools with different names every name `{name}` + suffix of the one differs
from every such name of the other, and no name that the loop writes for the
one is written for the other.  Hence, for pools with pairwise distinct names,
each entry that a pool writes is in the map after the loop, and in the map
that `getParameters` returns, with the value the pool wrote; and the loop run
on a permutation of the pools gives a map with the same entry under every
name, as does `getParameters` for the names the pools write. -/
theorem agent_pool_entries_disjoint (c : AzureEnvironmentSpecConfig) :
    (∀ s ∈ poolSuffixes, ∀ t ∈ poolSuffixes, endsWith t s = true → s = t) ∧
    (∀ p q : AgentPoolProfile, p.Name ≠ q.Name →
      (∀ s ∈ poolSuffixes, ∀ t ∈ poolSuffixes, p.Name ++ s ≠ q.Name ++ t) ∧
      ∀ k, hasParam (agentPoolParameters c p []) k = true →
        hasParam (agentPoolParameters c q []) k = false) ∧
    (∀ pools : List AgentPoolProfile, (pools.map (fun ap => ap.Name)).Nodup →
      ∀ m0, ∀ ap ∈ pools, ∀ k x, lookupParam (agentPoolParameters c ap []) k = some x →
        lookupParam (agentParameters c pools m0) k = some x) ∧
    (∀ pools pools' : List AgentPoolProfile, (pools.map (fun ap => ap.Name)).Nodup →
      pools.Perm pools' →
      ∀ m0 k, lookupParam (agentParameters c pools m0) k =
        lookupParam (agentParameters c pools' m0) k) ∧
    (∀ env cs g v m, env.GetCloudSpecConfig cs = c → getParameters env cs g v = .ok m →
      (cs.Properties.AgentPoolProfiles.map (fun ap => ap.Name)).Nodup →
      ∀ ap ∈ cs.Properties.AgentPoolProfiles, ∀ k x,
        lookupParam (agentPoolParameters c ap []) k = some x → lookupParam m k = some x) ∧
    (∀ env cs cs' g v m m', env.GetCloudSpecConfig cs = c → env.GetCloudSpecConfig cs' = c →
      getParameters env cs g v = .ok m → getParameters env cs' g v = .ok m' →
      (cs.Properties.AgentPoolProfiles.map (fun ap => ap.Name)).Nodup →
      cs.Properties.AgentPoolProfiles.Perm cs'.Properties.AgentPoolProfiles →
      ∀ ap ∈ cs.Properties.AgentPoolProfiles, ∀ k,
        hasParam (agentPoolParameters c ap []) k = true → lookupParam m k = lookupParam m' k) := by
  refine ⟨poolSuffixes_table, ?_, ?_, ?_, ?_, ?_⟩
  · intro p q hne
    refine ⟨fun s hs t ht heq => hne (poolName_inj hs ht heq).1, ?_⟩
    intro k hk
    cases hq : hasParam (agentPoolParameters c q []) k with
    | false => rfl
    | true =>
      obtain ⟨s, hs, h1⟩ :=
        mem_writtenNames_agentPoolWrites ((hasParam_agentPoolParameters c p k).1 hk)
      obtain ⟨t, ht, h2⟩ :=
        mem_writtenNames_agentPoolWrites ((hasParam_agentPoolParameters c q k).1 hq)
      exact absurd (poolName_inj hs ht (h1.symm.trans h2)).1 hne
  · intro pools hn m0 ap hap k x h
    rw [agentParameters_eq, lookupParam_applyWrites, lastWrite_agentWrites_of_nodup c hn hap h]
    rfl
  · intro pools pools' hn hperm m0 k
    have hn' : (pools'.map (fun ap => ap.Name)).Nodup :=
      (List.Perm.nodup_iff (hperm.map _)).1 hn
    have hmem : ∀ e, e ∈ agentWrites c pools ↔ e ∈ agentWrites c pools' := by
      intro e
      rw [mem_agentWrites, mem_agentWrites]
      constructor
      · rintro ⟨ap, hap, he⟩
        exact ⟨ap, hperm.mem_iff.1 hap, he⟩
      · rintro ⟨ap, hap, he⟩
        exact ⟨ap, hperm.mem_iff.2 hap, he⟩
    rw [agentParameters_eq, agentParameters_eq, lookupParam_applyWrites, lookupParam_applyWrites,
      lastWrite_congr_of_nodup (nodup_agentWrites c hn) (nodup_agentWrites c hn') hmem k]
  · intro env cs g v m hc hm hn ap hap k x h
    subst hc
    exact lookup_getParameters_pool_entry hm hn hap h
  · intro env cs cs' g v m m' hc hc' hm hm' hn hperm ap hap k hk
    have hn' : (cs'.Properties.AgentPoolProfiles.map (fun ap => ap.Name)).Nodup :=
      (List.Perm.nodup_iff (hperm.map _)).1 hn
    cases hx : lookupParam (agentPoolParameters c ap []) k with
    | none =>
      unfold hasParam at hk
      rw [hx] at hk
      exact Bool.noConfusion hk
    | some x =>
      have h1 : lookupParam m k = some x := by
        rw [← hc] at hx
        exact lookup_getParameters_pool_entry hm hn hap hx
      have h2 : lookupParam m' k = some x := by
        rw [← hc'] at hx
        exact lookup_getParameters_pool_entry hm' hn' (hperm.mem_iff.1 hap) hx
      rw [h1, h2]

/-- The theorem `agent_pool_entries_disjoint` at `twoPoolSpec`: the loop run
on `pool1`, `pool2` and on `pool2`, `pool1` leaves the same entry
`pool1Count`, the count of `pool1`. -/
theorem agent_pool_entries_disjoint_witness :
    lookupParam
        (agentParameters (quietEnv.GetCloudSpecConfig twoPoolSpec)
          [samplePool "pool1", { samplePool "pool2" with Count := 5 }] []) "pool1Count" =
      lookupParam
        (agentParameters (quietEnv.GetCloudSpecConfig twoPoolSpec)
          [{ samplePool "pool2" with Count := 5 }, samplePool "pool1"] []) "pool1Count" ∧
    lookupParam
        (agentParameters (quietEnv.GetCloudSpecConfig twoPoolSpec)
          [{ samplePool "pool2" with Count := 5 }, samplePool "pool1"] []) "pool1Count" =
      some (.literal (.int 3)) :=
  ⟨(agent_pool_entries_disjoint (quietEnv.GetCloudSpecConfig twoPoolSpec)).2.2.2.1
      [samplePool "pool1", { samplePool "pool2" with Count := 5 }]
      [{ samplePool "pool2" with Count := 5 }, samplePool "pool1"] (by decide)
      (List.Perm.swap _ _ _) [] "pool1Count",
    (agent_pool_entries_disjoint (quietEnv.GetCloudSpecConfig twoPoolSpec)).2.2.1
      [{ samplePool "pool2" with Count := 5 }, samplePool "pool1"] (by decide) []
      (samplePool "pool1") (by decide) "pool1Count" (.literal (.int 3)) (by decide)⟩

end AksEngine
